import Mathlib

/-!
ntgcalls: the key exchange and the signaling negotiator of a peer-to-peer call,
the connection observer of a call, the set-up of a group call, the threaded
reader and the byte-array conversions of the Android binding.

A shallow embedding of `P2PCall::init`, `P2PCall::exchangeKeys`, `P2PCall::type`,
`P2PCall::connect`, `P2PCall::processSignalingData` and the handlers around it
(`ntgcalls/instances/p2p_call.cpp`), of `Client::init` and `Client::connect`
(`ntgcalls/client.cpp`), of `CallInterface::setConnectionObserver`
(`ntgcalls/src/instances/call_interface.cpp`), of `ThreadedReader::open`
(`ntgcalls/src/io/threaded_reader.cpp`) and of `parseByteArray` and its siblings
(`android/app/src/main/jni/utils.cpp`) as functions on an explicit state. A
member function that can throw returns the pair of its outcome and the state it
leaves behind, so that what a failed call did is visible. Callbacks and posted
tasks are handlers of their own, and a run of the program is a sequence of
events handled in order. The threads of the reader are a step relation: each
step is one access to a shared variable or one section under the lock, and a
schedule names the thread that takes the next step.
-/

namespace ntgcalls

/-- Byte vectors (`bytes::vector`): one natural number below 256 per byte. -/
abbrev Bytes := List Nat

/-- The raw authorisation key (`RawKey`), a byte array. -/
abbrev RawKey := List Nat

/-- The exceptions of `ntgcalls/exceptions.hpp` thrown by the embedded code, with their message. -/
inductive Exception where
  | ConnectionError (msg : String)
  | InvalidParams (msg : String)
  | ConnectionNotFound (msg : String)
  | RTMPNeeded (msg : String)
  | TelegramServerError (msg : String)
  deriving DecidableEq, Repr

deriving instance DecidableEq for Except

/-- The value built by `ModExpFirst(g, p, r)`: the secret exponent and the public value. -/
structure ModExpFirst where
  modexp : Bytes
  randomPower : Bytes
  deriving DecidableEq, Repr

/-- The value returned by `exchangeKeys`: `{key_fingerprint, g_a_or_b}`. -/
structure AuthParams where
  key_fingerprint : Int
  g_a_or_b : Bytes
  deriving DecidableEq, Repr

/-- The helpers that `p2p_call.cpp` calls and whose bodies live in other files
(`utils/mod_exp_first.hpp`, `utils/auth_key.hpp`, `openssl::Sha256`). They are
parameters of the embedding; `FillData` is the key that `AuthKey::FillData`
writes into a fresh `RawKey`, `kSize` is the constant `EncryptionKey::kSize`. -/
structure Primitives where
  ModExpFirst : Int → Bytes → Bytes → ModExpFirst
  CreateAuthKey : Bytes → Bytes → Bytes → Bytes
  FillData : Bytes → RawKey
  Fingerprint : RawKey → Nat
  Sha256Digest : Bytes → Bytes
  kSize : Nat

/-- Reduction of a natural number to an unsigned 64-bit value. -/
def u64 (n : Nat) : Nat := n % 2 ^ 64

/-- The cast `static_cast<uint64_t>(x)` of a signed value. -/
def toU64 (x : Int) : Nat := (x % 2 ^ 64).toNat

/-- The cast `static_cast<int64_t>(n)` of an unsigned 64-bit value. -/
def toI64 (n : Nat) : Int :=
  if n % 2 ^ 64 < 2 ^ 63 then ((n % 2 ^ 64 : Nat) : Int) else ((n % 2 ^ 64 : Nat) : Int) - 2 ^ 64

/-- The values of the type `int64_t`. -/
def isInt64 (x : Int) : Prop := -(2 ^ 63) ≤ x ∧ x < 2 ^ 63

instance (x : Int) : Decidable (isInt64 x) := by unfold isInt64; infer_instance

/-- A network server description handed to the transport (`wrtc::RTCServer`). -/
structure RTCServer where
  host : String
  port : Nat
  deriving DecidableEq, Repr

/-- An ICE candidate (`wrtc::IceCandidate`). -/
structure IceCandidate where
  mid : String
  mLine : Int
  sdp : String
  deriving DecidableEq, Repr

/-- The kind of a session description (`wrtc::Description::Type`). -/
inductive SdpType where
  | Offer
  | Answer
  deriving DecidableEq, Repr

/-- A session description (`wrtc::Description`). -/
structure Description where
  type : SdpType
  sdp : String
  deriving DecidableEq, Repr

/-- The negotiation state reported by the transport (`wrtc::SignalingState`). -/
inductive SignalingState where
  | Stable
  | HaveLocalOffer
  | HaveRemoteOffer
  deriving DecidableEq, Repr

/-- The transport (`wrtc::PeerConnection`) as the session sees it: what it was
created with and the requests the session has made of it so far. -/
structure PeerConnection where
  servers : List RTCServer
  signalingState : SignalingState
  localDescription : Option Description
  localDescriptionRequests : Nat
  remoteDescriptions : List Description
  iceCandidates : List IceCandidate
  tracksAdded : Bool
  deriving DecidableEq, Repr

/-- The encrypted signaling channel made by `Signaling::Create`. -/
structure Signaling where
  versions : List String
  encryptionKey : Bytes
  isOutgoing : Bool
  sent : List String
  deriving DecidableEq, Repr

/-- The role of a call (`CallInterface::Type`). -/
inductive CallType where
  | Outgoing
  | Incoming
  | P2P
  deriving DecidableEq, Repr

/-- The data members of `P2PCall` that the embedded member functions read or write. -/
structure P2PCall where
  randomPower : Bytes
  prime : Bytes
  g_a_hash : Option Bytes
  g_a_or_b : Option Bytes
  key : Option RawKey
  connection : Option PeerConnection
  signaling : Option Signaling
  isMakingOffer : Bool
  makingNegotation : Bool
  handshakeCompleted : Bool
  pendingIceCandidates : List IceCandidate
  connected : Bool
  deriving DecidableEq, Repr

/-- A freshly constructed `P2PCall`: nothing negotiated, no transport. -/
def P2PCall.fresh : P2PCall :=
  { randomPower := [], prime := [], g_a_hash := none, g_a_or_b := none, key := none,
    connection := none, signaling := none, isMakingOffer := false, makingNegotation := false,
    handshakeCompleted := false, pendingIceCandidates := [], connected := false }

/-- The session a successful `init` leaves when called on a fresh one: exponent
`r`, prime `p`, commitment hash `h` (if any) and public value `x`. -/
def P2PCall.afterInit (r p : Bytes) (h : Option Bytes) (x : Bytes) : P2PCall :=
  { P2PCall.fresh with randomPower := r, prime := p, g_a_hash := h, g_a_or_b := some x }

/-- Embedding of `P2PCall::type`. -/
def P2PCall.type (self : P2PCall) : CallType :=
  if self.g_a_or_b.isSome then
    if self.g_a_hash.isSome then CallType.Incoming else CallType.Outgoing
  else CallType.P2P

/-- Embedding of `P2PCall::init`. -/
def P2PCall.init (P : Primitives) (self : P2PCall) (g : Int) (p r : Bytes)
    (g_a_hash : Option Bytes) : Except Exception Bytes × P2PCall :=
  if self.g_a_or_b.isSome then
    (.error (.ConnectionError "Connection already made"), self)
  else
    let first := P.ModExpFirst g p r
    if first.modexp.isEmpty then
      (.error (.InvalidParams "Invalid modexp"), self)
    else
      let s1 := { self with randomPower := first.randomPower }
      let s2 := { s1 with prime := p }
      let s3 := if g_a_hash.isSome then { s2 with g_a_hash := g_a_hash } else s2
      let s4 := { s3 with g_a_or_b := some first.modexp }
      (.ok (if g_a_hash.isSome then first.modexp else P.Sha256Digest first.modexp), s4)

/-- The modulus `g_a_hash ? prime : p` that `exchangeKeys` hands to `CreateAuthKey`. -/
def P2PCall.modulus (self : P2PCall) (p : Bytes) : Bytes :=
  if self.g_a_hash.isSome then self.prime else p

/-- Embedding of `P2PCall::exchangeKeys`. -/
def P2PCall.exchangeKeys (P : Primitives) (self : P2PCall) (p g_a_or_b : Bytes)
    (fingerprint : Int) : Except Exception AuthParams × P2PCall :=
  if self.connection.isSome then
    (.error (.ConnectionError "Connection already made"), self)
  else
    match self.g_a_or_b with
    | none => (.error (.ConnectionNotFound "Connection not initialized"), self)
    | some own =>
      if self.key.isSome then
        (.error (.ConnectionError "Key already exchanged"), self)
      else if self.g_a_hash.isSome ∧ fingerprint = 0 then
        (.error (.InvalidParams "Fingerprint not found"), self)
      else if self.g_a_hash.isSome ∧ self.g_a_hash ≠ some (P.Sha256Digest g_a_or_b) then
        (.error (.InvalidParams "Hash mismatch"), self)
      else
        let computedAuthKey :=
          P.CreateAuthKey g_a_or_b self.randomPower (if self.g_a_hash.isSome then self.prime else p)
        if computedAuthKey.isEmpty then
          (.error (.ConnectionError "Could not create auth key"), self)
        else
          let authKey := P.FillData computedAuthKey
          let computedFingerprint := u64 (P.Fingerprint authKey)
          if self.g_a_hash.isSome ∧ computedFingerprint ≠ toU64 fingerprint then
            (.error (.InvalidParams "Fingerprint mismatch"), self)
          else
            (.ok { key_fingerprint := toI64 computedFingerprint, g_a_or_b := own },
              { self with key := some authKey })

/-- The synchronous part of `P2PCall::sendLocalDescription`: the offer is marked
in flight and the transport is asked for a local description. -/
def P2PCall.sendLocalDescription (self : P2PCall) : P2PCall :=
  let s1 := { self with isMakingOffer := true }
  let requested := s1.connection.map
    (fun c => { c with localDescriptionRequests := c.localDescriptionRequests + 1 })
  { s1 with connection := requested }

/-- The transport made by `std::make_unique<wrtc::PeerConnection>(servers)`. -/
def PeerConnection.create (servers : List RTCServer) : PeerConnection :=
  { servers := servers, signalingState := SignalingState.Stable, localDescription := none,
    localDescriptionRequests := 0, remoteDescriptions := [], iceCandidates := [],
    tracksAdded := false }

/-- Embedding of `P2PCall::connect` up to the point where it blocks in `waitConnection.wait()`;
`waitConnection` is how that wait is resolved by the transport events, and the
state returned is the one at the start of the wait. -/
def P2PCall.connect (P : Primitives) (self : P2PCall) (servers : List RTCServer)
    (versions : List String) (waitConnection : Except Exception Unit) :
    Except Exception Unit × P2PCall :=
  if self.connection.isSome then
    (.error (.ConnectionError "Connection already made"), self)
  else
    match self.g_a_or_b, self.key with
    | some _, some key =>
      let s1 := { self with connection := some (PeerConnection.create servers) }
      let encryptionKey := key.take P.kSize
      let withTracks := s1.connection.map (fun c => { c with tracksAdded := true })
      let s2 := { s1 with connection := withTracks }
      let channel : Signaling :=
        { versions := versions, encryptionKey := encryptionKey,
          isOutgoing := decide (s2.type = CallType.Outgoing), sent := [] }
      let s3 := { s2 with signaling := some channel }
      let s4 := if s3.type = CallType.Outgoing then
          P2PCall.sendLocalDescription { s3 with makingNegotation := true }
        else s3
      (waitConnection, s4)
    | _, _ => (.error (.ConnectionNotFound "Connection not initialized"), self)

/-- One call made on a session by its owner. -/
inductive Call where
  | init (g : Int) (p r : Bytes) (g_a_hash : Option Bytes)
  | exchangeKeys (p g_a_or_b : Bytes) (fingerprint : Int)
  deriving DecidableEq, Repr

/-- The session after one call, whether the call returned or threw. -/
def P2PCall.step (P : Primitives) (self : P2PCall) : Call → P2PCall
  | Call.init g p r h => (self.init P g p r h).2
  | Call.exchangeKeys p v f => (self.exchangeKeys P p v f).2

/-- The session after a sequence of calls, made in order. -/
def P2PCall.run (P : Primitives) (self : P2PCall) : List Call → P2PCall
  | [] => self
  | c :: cs => P2PCall.run P (self.step P c) cs

/-- Modelled from the spec: the big-endian integer that a byte vector stands
for (the spec's "big-endian integer modulus"); the big-number helper is not
among the sources. -/
def bytesToNat (b : Bytes) : Nat := b.foldl (fun acc x => acc * 256 + x) 0

/-- Worker of `natToBytes`: peels the low byte `fuel` times at most. -/
def natToBytesAux : Nat → Nat → Bytes → Bytes
  | 0, _, acc => acc
  | fuel + 1, n, acc => if n = 0 then acc else natToBytesAux fuel (n / 256) (n % 256 :: acc)

/-- Modelled from the spec: the shortest big-endian byte vector of a number, so
that the degenerate value zero is the empty vector ("degenerate (empty/zero)");
the big-number helper is not among the sources. -/
def natToBytes (n : Nat) : Bytes := natToBytesAux n n []

/-- Modelled from the spec: `ModExpFirst`, absent from the sources, "computes a
local secret exponent and `g^exponent mod p`"; the exponent is the number the
random seed stands for. -/
def specModExpFirst (g : Int) (p r : Bytes) : ModExpFirst :=
  { randomPower := r
    modexp := natToBytes ((g ^ bytesToNat r % (bytesToNat p : Int)).toNat) }

/-- Modelled from the spec: `AuthKey::CreateAuthKey`, absent from the sources,
"derives the shared secret via modular exponentiation of the peer's public
value using the local secret exponent" over the given prime. -/
def specCreateAuthKey (first random prime : Bytes) : Bytes :=
  natToBytes (bytesToNat first ^ bytesToNat random % bytesToNat prime)

/-- Modelled from the spec: `AuthKey::FillData`, absent from the sources,
"expands the shared secret into a fixed-size key": the secret is padded with
zero bytes in front, or cut, to `kSize` bytes. -/
def specFillData (kSize : Nat) (computedAuthKey : Bytes) : RawKey :=
  if computedAuthKey.length ≤ kSize then
    List.replicate (kSize - computedAuthKey.length) 0 ++ computedAuthKey
  else computedAuthKey.take kSize

/-- Modelled from the spec: the helpers of the key exchange as the spec
describes them; the digest (SHA-256) and the fingerprint of a key stay
parameters. -/
def specPrimitives (kSize : Nat) (digest : Bytes → Bytes) (fingerprint : RawKey → Nat) :
    Primitives :=
  { ModExpFirst := specModExpFirst
    CreateAuthKey := specCreateAuthKey
    FillData := specFillData kSize
    Fingerprint := fingerprint
    Sha256Digest := digest
    kSize := kSize }

/-- A 32-byte stand-in for the SHA-256 digest, used to evaluate the embedding
on concrete inputs: 31 zero bytes and the sum of the bytes modulo 256. -/
def sampleDigest (b : Bytes) : Bytes := List.replicate 31 0 ++ [b.sum % 256]

/-- A stand-in for the key fingerprint, used to evaluate the embedding on
concrete inputs: the low 64 bits of the key read as a big-endian number. -/
def sampleFingerprint (k : RawKey) : Nat := bytesToNat k % 2 ^ 64

/-- The helpers used to evaluate the embedding on concrete inputs, with 256-byte keys. -/
def samplePrimitives : Primitives := specPrimitives 256 sampleDigest sampleFingerprint

/-- The stream of a group call (`ntgcalls::Stream`) as `Client` uses it; the
type of the stream configuration is a parameter. -/
structure Stream (StreamConfig : Type) where
  avStream : Option StreamConfig
  tracksAdded : Bool
  running : Bool

/-- The payload `Client::init()` returns (`GroupCallPayload`): the fields that
`Client::init(config)` reads and the string it converts to. -/
structure GroupCallPayload where
  audioSource : Nat
  sourceGroups : List Nat
  text : String
  deriving DecidableEq, Repr

/-- The transport of a group call as `Client` sees it. -/
structure GroupConnection where
  localDescription : Option GroupCallPayload
  remoteDescription : Option Description
  deriving DecidableEq, Repr

/-- The data members of `Client` (`ntgcalls/client.cpp`). -/
structure Client (StreamConfig : Type) where
  connection : Option GroupConnection
  stream : Option (Stream StreamConfig)
  audioSource : Nat
  sourceGroups : List Nat

/-- Embedding of `Client::init()`; `offer` is what the transport's `createOffer(true, true)` yields. -/
def Client.initOffer {StreamConfig : Type} (self : Client StreamConfig)
    (offer : GroupCallPayload) : GroupCallPayload × Client StreamConfig :=
  let created : GroupConnection := { localDescription := none, remoteDescription := none }
  let s1 := { self with connection := some created }
  let withTracks := s1.stream.map (fun st => { st with tracksAdded := true })
  let s2 := { s1 with stream := withTracks }
  let described := s2.connection.map (fun c => { c with localDescription := some offer })
  let s3 := { s2 with connection := described }
  (offer, s3)

/-- Embedding of `Client::init(StreamConfig config)`. -/
def Client.init {StreamConfig : Type} (self : Client StreamConfig) (config : StreamConfig)
    (offer : GroupCallPayload) : Except Exception String × Client StreamConfig :=
  if self.connection.isSome then
    (.error (.ConnectionError "Connection already made"), self)
  else
    let made : Stream StreamConfig := { avStream := none, tracksAdded := false, running := false }
    let s1 := { self with stream := some made }
    let configured := s1.stream.map (fun st => { st with avStream := some config })
    let s2 := { s1 with stream := configured }
    let res := (s2.initOffer offer).1
    let s3 := (s2.initOffer offer).2
    let s4 := { s3 with audioSource := res.audioSource }
    let s5 := { s4 with sourceGroups := s4.sourceGroups ++ res.sourceGroups }
    (.ok res.text, s5)

/-! The signaling negotiator of `p2p_call.cpp`. -/

/-- A JSON value as the JSON library (`nlohmann::json`) holds it. Numbers are
integers; an object is the list of its fields, kept in key order. -/
inductive Json where
  | null
  | boolean (b : Bool)
  | number (n : Int)
  | string (s : String)
  | array (items : List Json)
  | object (fields : List (String × Json))

/-- The exceptions thrown by the JSON library. -/
inductive JsonException where
  | parse_error
  | type_error
  deriving DecidableEq, Repr

/-- The JSON library's `is_null()`. -/
def Json.is_null : Json → Bool
  | Json.null => true
  | _ => false

/-- The value `data[key]` of an object: a missing field reads as null. -/
def fieldOf (fields : List (String × Json)) (key : String) : Json :=
  (fields.lookup key).getD Json.null

/-- The JSON library's `operator[]` with a string key on a mutable value: a
null value turns into an empty object, a missing field reads as null, and any
other kind of value throws. -/
def Json.get (j : Json) (key : String) : Except JsonException Json :=
  match j with
  | Json.null => .ok Json.null
  | Json.object fields => .ok (fieldOf fields key)
  | _ => .error JsonException.type_error

/-- The comparison `j == "text"` of a JSON value with a string literal. -/
def Json.eqString (j : Json) (text : String) : Bool :=
  match j with
  | Json.string s => s == text
  | _ => false

/-- The JSON library's conversion to `std::string`: only a string converts. -/
def Json.getString : Json → Except JsonException String
  | Json.string s => .ok s
  | _ => .error JsonException.type_error

/-- Reduction of an integer to the range of the type `int` (32 bits). -/
def wrapInt32 (n : Int) : Int := (n + 2 ^ 31) % 2 ^ 32 - 2 ^ 31

/-- The values of the type `int`. -/
def isInt32 (x : Int) : Prop := -(2 ^ 31) ≤ x ∧ x < 2 ^ 31

instance (x : Int) : Decidable (isInt32 x) := by unfold isInt32; infer_instance

/-- The JSON library's conversion to `int`: a number or a boolean converts. -/
def Json.getInt : Json → Except JsonException Int
  | Json.number n => .ok (wrapInt32 n)
  | Json.boolean b => .ok (if b then 1 else 0)
  | _ => .error JsonException.type_error

/-- The two functions of the JSON library whose bodies are not modelled:
`json::parse` on the text of a buffer and `to_string` of a value. -/
structure JsonLibrary where
  parse : String → Except JsonException Json
  to_string : Json → String

/-- Modelled from the spec: `wrtc::Description::parseType`, absent from the
sources, reads the envelope types `"offer"` and `"answer"`; it is only called
with one of the two. -/
def Description.parseType (text : String) : SdpType :=
  if text = "offer" then SdpType.Offer else SdpType.Answer

/-- Modelled from the spec: `wrtc::Description::typeToString`, absent from the
sources, gives the envelope type of a description. -/
def Description.typeToString : SdpType → String
  | SdpType.Offer => "offer"
  | SdpType.Answer => "answer"

/-- The call `signaling->send(bytes::make_binary(text))`. -/
def P2PCall.send (self : P2PCall) (text : String) : P2PCall :=
  let channel := self.signaling.map (fun g => { g with sent := g.sent ++ [text] })
  { self with signaling := channel }

/-- The value of `connection->signalingState()`. The source reads it only
through a transport; without one the embedding reads `Stable`. -/
def P2PCall.signalingState (self : P2PCall) : SignalingState :=
  match self.connection with
  | some c => c.signalingState
  | none => SignalingState.Stable

/-- The handler `connect` installs with `onRenegotiationNeeded`. -/
def P2PCall.onRenegotiationNeeded (self : P2PCall) : P2PCall :=
  if self.makingNegotation then self.sendLocalDescription else self

/-- The envelope built by the `onIceCandidate` handler. -/
def candidateEnvelope (candidate : IceCandidate) : Json :=
  Json.object [("@type", Json.string "candidate"), ("mid", Json.string candidate.mid),
    ("mline", Json.number candidate.mLine), ("sdp", Json.string candidate.sdp)]

/-- The handler `connect` installs with `onIceCandidate`. -/
def P2PCall.onIceCandidate (lib : JsonLibrary) (self : P2PCall) (candidate : IceCandidate) :
    P2PCall :=
  self.send (lib.to_string (candidateEnvelope candidate))

/-- The envelope built by the completion task of `sendLocalDescription`. -/
def descriptionEnvelope (description : Description) : Json :=
  Json.object [("@type", Json.string (Description.typeToString description.type)),
    ("sdp", Json.string description.sdp)]

/-- The task that `P2PCall::sendLocalDescription` posts once the transport has
set the local description. -/
def P2PCall.sendLocalDescriptionTask (lib : JsonLibrary) (self : P2PCall) : P2PCall :=
  match self.connection.bind (fun c => c.localDescription) with
  | none => self
  | some description =>
    let s1 := self.send (lib.to_string (descriptionEnvelope description))
    { s1 with isMakingOffer := false }

/-- Embedding of `P2PCall::applyPendingIceCandidates`. -/
def P2PCall.applyPendingIceCandidates (self : P2PCall) : P2PCall :=
  if self.pendingIceCandidates.isEmpty then self
  else
    let added := self.connection.map
      (fun c => { c with iceCandidates := c.iceCandidates ++ self.pendingIceCandidates })
    let s1 := { self with connection := added }
    { s1 with pendingIceCandidates := [] }

/-- Embedding of `P2PCall::applyRemoteSdp`: the description is handed to the
transport's `setRemoteDescription`, a call taken to return at once, whose
success callback is the separate task `applyRemoteSdpTask`; then the handshake
flag is set and the buffered candidates are handed over. -/
def P2PCall.applyRemoteSdp (self : P2PCall) (sdpType : SdpType) (sdp : String) : P2PCall :=
  let requested := self.connection.map
    (fun c => { c with remoteDescriptions := c.remoteDescriptions ++ [{ type := sdpType, sdp := sdp }] })
  let s1 := { self with connection := requested }
  if s1.handshakeCompleted then s1
  else P2PCall.applyPendingIceCandidates { s1 with handshakeCompleted := true }

/-- The task that the success callback of `setRemoteDescription` posts in
`P2PCall::applyRemoteSdp`; it runs only when the transport has applied the
description. -/
def P2PCall.applyRemoteSdpTask (self : P2PCall) (sdpType : SdpType) : P2PCall :=
  if sdpType = SdpType.Offer then
    P2PCall.sendLocalDescription { self with makingNegotation := true }
  else self

/-- Embedding of `P2PCall::processSignalingData`; the buffer is kept as the text
of its bytes. -/
def P2PCall.processSignalingData (lib : JsonLibrary) (self : P2PCall) (buffer : String) :
    Except JsonException Unit × P2PCall :=
  match lib.parse buffer with
  | .error e => (.error e, self)
  | .ok data =>
    match data.get "@type" with
    | .error e => (.error e, self)
    | .ok sdpType =>
      if sdpType.is_null then (.ok (), self)
      else if sdpType.eqString "offer" ∨ sdpType.eqString "answer" then
        match data.get "sdp" with
        | .error e => (.error e, self)
        | .ok jsonSdp =>
          if jsonSdp.is_null then (.ok (), self)
          else if self.type = CallType.Outgoing ∧ sdpType.eqString "offer" ∧
              (self.isMakingOffer ∨ self.signalingState ≠ SignalingState.Stable) then
            (.ok (), self)
          else
            match sdpType.getString, jsonSdp.getString with
            | .ok typeText, .ok sdp =>
              (.ok (), self.applyRemoteSdp (Description.parseType typeText) sdp)
            | _, _ => (.error JsonException.type_error, self)
      else if sdpType.eqString "candidate" then
        match data.get "mid", data.get "mline", data.get "sdp" with
        | .ok jsonMid, .ok jsonMLine, .ok jsonSdp =>
          if jsonMid.is_null then (.ok (), self)
          else if jsonMLine.is_null then (.ok (), self)
          else if jsonSdp.is_null then (.ok (), self)
          else
            match jsonMid.getString, jsonMLine.getInt, jsonSdp.getString with
            | .ok mid, .ok mLine, .ok sdp =>
              let candidate : IceCandidate := { mid := mid, mLine := mLine, sdp := sdp }
              if self.handshakeCompleted then
                let added := self.connection.map
                  (fun c => { c with iceCandidates := c.iceCandidates ++ [candidate] })
                (.ok (), { self with connection := added })
              else
                (.ok (), { self with pendingIceCandidates :=
                  self.pendingIceCandidates ++ [candidate] })
            | _, _, _ => (.error JsonException.type_error, self)
        | _, _, _ => (.error JsonException.type_error, self)
      else (.ok (), self)

/-- What can happen to a connected session: a buffer arrives on the signaling
channel, one of the transport's callbacks fires, one of the posted tasks runs,
or the transport changes what it reports. -/
inductive SignalingEvent where
  | inbound (buffer : String)
  | renegotiationNeeded
  | iceCandidate (candidate : IceCandidate)
  | remoteDescriptionApplied (sdpType : SdpType)
  | localDescriptionSet
  | transport (signalingState : SignalingState) (localDescription : Option Description)

/-- The session after one event, whether the handler returned or threw. -/
def P2PCall.handle (lib : JsonLibrary) (self : P2PCall) : SignalingEvent → P2PCall
  | SignalingEvent.inbound buffer => (self.processSignalingData lib buffer).2
  | SignalingEvent.renegotiationNeeded => self.onRenegotiationNeeded
  | SignalingEvent.iceCandidate candidate => self.onIceCandidate lib candidate
  | SignalingEvent.remoteDescriptionApplied sdpType => self.applyRemoteSdpTask sdpType
  | SignalingEvent.localDescriptionSet => self.sendLocalDescriptionTask lib
  | SignalingEvent.transport signalingState localDescription =>
    let reported := self.connection.map
      (fun c => { c with signalingState := signalingState, localDescription := localDescription })
    { self with connection := reported }

/-- The session after a sequence of events, handled in order. -/
def P2PCall.handleAll (lib : JsonLibrary) (self : P2PCall) : List SignalingEvent → P2PCall
  | [] => self
  | e :: es => P2PCall.handleAll lib (self.handle lib e) es

/-- The candidate that a buffer carries when it is a well-formed candidate
envelope: the buffer parses, its `@type` is `"candidate"`, and its `mid`,
`mline` and `sdp` convert to a string, an `int` and a string. -/
def wellFormedCandidate (lib : JsonLibrary) (buffer : String) : Option IceCandidate :=
  match lib.parse buffer with
  | .error _ => none
  | .ok data =>
    match data.get "@type" with
    | .error _ => none
    | .ok jsonType =>
      if jsonType.eqString "candidate" then
        match data.get "mid", data.get "mline", data.get "sdp" with
        | .ok jsonMid, .ok jsonMLine, .ok jsonSdp =>
          match jsonMid.getString, jsonMLine.getInt, jsonSdp.getString with
          | .ok mid, .ok mLine, .ok sdp => some { mid := mid, mLine := mLine, sdp := sdp }
          | _, _, _ => none
        | _, _, _ => none
      else none

/-- What the candidate branch of `processSignalingData` does with a candidate:
it goes to the transport once the handshake is completed, to the buffer before. -/
def P2PCall.takeCandidate (self : P2PCall) (candidate : IceCandidate) : P2PCall :=
  if self.handshakeCompleted then
    let added := self.connection.map
      (fun c => { c with iceCandidates := c.iceCandidates ++ [candidate] })
    { self with connection := added }
  else
    { self with pendingIceCandidates := self.pendingIceCandidates ++ [candidate] }

/-- The well-formed candidate envelopes among the events, in arrival order. -/
def receivedCandidates (lib : JsonLibrary) : List SignalingEvent → List IceCandidate
  | [] => []
  | SignalingEvent.inbound buffer :: es =>
    match wellFormedCandidate lib buffer with
    | some c => c :: receivedCandidates lib es
    | none => receivedCandidates lib es
  | _ :: es => receivedCandidates lib es

/-- The candidates handed to the transport's `addIceCandidate` so far. -/
def P2PCall.addedIceCandidates (self : P2PCall) : List IceCandidate :=
  match self.connection with
  | some c => c.iceCandidates
  | none => []

/-- The descriptions handed to the transport's `setRemoteDescription` so far. -/
def P2PCall.remoteDescriptions (self : P2PCall) : List Description :=
  match self.connection with
  | some c => c.remoteDescriptions
  | none => []

/-- Text of a string value: the characters between quotes, with `"` and `\` escaped. -/
def renderChars : List Char → List Char
  | [] => []
  | c :: cs =>
    if c = '"' ∨ c = '\\' then '\\' :: c :: renderChars cs else c :: renderChars cs

/-- Text of a string value, in quotes. -/
def renderString (s : String) : String := String.mk ('"' :: renderChars s.toList ++ ['"'])

mutual
/-- A compact printer of JSON values, used to evaluate the embedding on concrete
inputs in place of the JSON library's `to_string`. -/
def Json.render : Json → String
  | Json.null => "null"
  | Json.boolean true => "true"
  | Json.boolean false => "false"
  | Json.number n => toString n
  | Json.string s => renderString s
  | Json.array items => "[" ++ renderItems items ++ "]"
  | Json.object fields => "\x7b" ++ renderFields fields ++ "\x7d"
/-- The items of an array, separated by commas. -/
def renderItems : List Json → String
  | [] => ""
  | [x] => x.render
  | x :: y :: rest => x.render ++ "," ++ renderItems (y :: rest)
/-- The fields of an object, separated by commas. -/
def renderFields : List (String × Json) → String
  | [] => ""
  | [(k, v)] => renderString k ++ ":" ++ v.render
  | (k, v) :: f :: rest => renderString k ++ ":" ++ v.render ++ "," ++ renderFields (f :: rest)
end

/-- Drops leading blanks. -/
def skipBlanks : List Char → List Char
  | [] => []
  | c :: cs => if c = ' ' ∨ c = '\n' ∨ c = '\t' ∨ c = '\r' then skipBlanks cs else c :: cs

/-- Reads the characters of a string value up to its closing quote. -/
def readChars : List Char → List Char → Option (String × List Char)
  | [], _ => none
  | '"' :: rest, acc => some (String.mk acc.reverse, rest)
  | '\\' :: c :: rest, acc =>
    if c = '"' ∨ c = '\\' ∨ c = '/' then readChars rest (c :: acc) else none
  | c :: rest, acc => readChars rest (c :: acc)

/-- Reads a run of decimal digits as a number. -/
def readDigits : List Char → Nat → Nat × List Char
  | [], acc => (acc, [])
  | c :: cs, acc =>
    if c.isDigit then readDigits cs (acc * 10 + (c.toNat - '0'.toNat)) else (acc, c :: cs)

mutual
/-- A reader of JSON texts, used to evaluate the embedding on concrete inputs in
place of the JSON library's `json::parse`; the first argument bounds the depth
of the recursion. -/
def readValue : Nat → List Char → Option (Json × List Char)
  | 0, _ => none
  | fuel + 1, cs =>
    match skipBlanks cs with
    | 'n' :: 'u' :: 'l' :: 'l' :: rest => some (Json.null, rest)
    | 't' :: 'r' :: 'u' :: 'e' :: rest => some (Json.boolean true, rest)
    | 'f' :: 'a' :: 'l' :: 's' :: 'e' :: rest => some (Json.boolean false, rest)
    | '"' :: rest =>
      match readChars rest [] with
      | some (s, rest2) => some (Json.string s, rest2)
      | none => none
    | '[' :: rest =>
      match skipBlanks rest with
      | ']' :: rest2 => some (Json.array [], rest2)
      | _ =>
        match readItems fuel rest with
        | some (items, rest2) => some (Json.array items, rest2)
        | none => none
    | '\x7b' :: rest =>
      match skipBlanks rest with
      | '\x7d' :: rest2 => some (Json.object [], rest2)
      | _ =>
        match readFields fuel rest with
        | some (fields, rest2) => some (Json.object fields, rest2)
        | none => none
    | '-' :: c :: rest =>
      if c.isDigit then
        some (Json.number (-((readDigits (c :: rest) 0).1 : Int)), (readDigits (c :: rest) 0).2)
      else none
    | c :: rest =>
      if c.isDigit then
        some (Json.number ((readDigits (c :: rest) 0).1 : Int), (readDigits (c :: rest) 0).2)
      else none
    | [] => none
/-- Reads the items of an array up to its closing bracket. -/
def readItems : Nat → List Char → Option (List Json × List Char)
  | 0, _ => none
  | fuel + 1, cs =>
    match readValue fuel cs with
    | none => none
    | some (x, rest) =>
      match skipBlanks rest with
      | ']' :: rest2 => some ([x], rest2)
      | ',' :: rest2 =>
        match readItems fuel rest2 with
        | some (xs, rest3) => some (x :: xs, rest3)
        | none => none
      | _ => none
/-- Reads the fields of an object up to its closing brace. -/
def readFields : Nat → List Char → Option (List (String × Json) × List Char)
  | 0, _ => none
  | fuel + 1, cs =>
    match skipBlanks cs with
    | '"' :: rest =>
      match readChars rest [] with
      | none => none
      | some (k, rest2) =>
        match skipBlanks rest2 with
        | ':' :: rest3 =>
          match readValue fuel rest3 with
          | none => none
          | some (v, rest4) =>
            match skipBlanks rest4 with
            | '\x7d' :: rest5 => some ([(k, v)], rest5)
            | ',' :: rest5 =>
              match readFields fuel rest5 with
              | some (fs, rest6) => some ((k, v) :: fs, rest6)
              | none => none
            | _ => none
        | _ => none
    | _ => none
end

/-- The reader applied to a whole text: a value and nothing but blanks after it. -/
def readJson (text : String) : Except JsonException Json :=
  match readValue (text.length + 1) text.toList with
  | some (j, rest) =>
    match skipBlanks rest with
    | [] => .ok j
    | _ => .error JsonException.parse_error
  | none => .error JsonException.parse_error

/-- The JSON functions used to evaluate the embedding on concrete inputs. -/
def sampleJson : JsonLibrary := { parse := readJson, to_string := Json.render }

/-- Two sessions agree on what the candidate claims read: the handshake flag,
the buffer, the candidates and the descriptions handed to the transport, and
whether there is a transport. -/
def P2PCall.sameCandidateView (a b : P2PCall) : Prop :=
  a.handshakeCompleted = b.handshakeCompleted ∧
  a.pendingIceCandidates = b.pendingIceCandidates ∧
  a.addedIceCandidates = b.addedIceCandidates ∧
  a.remoteDescriptions = b.remoteDescriptions ∧
  a.connection.isSome = b.connection.isSome

/-- A connected session in the Outgoing role, used to evaluate the embedding
on concrete inputs: `init(5, 23, 6)`, `exchangeKeys(23, 19, 0)`, `connect`. -/
def sampleOutgoing : P2PCall :=
  (((P2PCall.fresh.init samplePrimitives 5 [23] [6] none).2.exchangeKeys
    samplePrimitives [23] [19] 0).2.connect samplePrimitives [] ["11.0.0"] (.ok ())).2

/-- A connected session in the Incoming role, used to evaluate the embedding
on concrete inputs: `init` with the digest of 8, `exchangeKeys(23, 8, 2)`, `connect`. -/
def sampleIncoming : P2PCall :=
  (((P2PCall.fresh.init samplePrimitives 5 [23] [15] (some (sampleDigest [8]))).2.exchangeKeys
    samplePrimitives [23] [8] 2).2.connect samplePrimitives [] ["11.0.0"] (.ok ())).2

/-! The connection observer of `call_interface.cpp`. -/

/-- The states a transport reports (`wrtc::ConnectionState`); `New` stands for
the values that the observer's `switch` leaves to `default`. -/
inductive wrtc.ConnectionState where
  | New
  | Connecting
  | Connected
  | Disconnected
  | Failed
  | Closed
  deriving DecidableEq, Repr

/-- The states notified to the caller (`CallNetworkState::ConnectionState`). -/
inductive CallNetworkState.ConnectionState where
  | Connecting
  | Connected
  | Failed
  | Timeout
  | Closed
  deriving DecidableEq, Repr

/-- The tag of the call leg (`CallNetworkState::Kind`), an enumeration whose
values are numbered here. -/
abbrev CallNetworkState.Kind := Nat

/-- A notification handed to `connectionChangeCallback` (`CallNetworkState`). -/
structure CallNetworkState where
  connectionState : CallNetworkState.ConnectionState
  kind : CallNetworkState.Kind
  deriving DecidableEq, Repr

/-- The stream manager as the observer uses it: how often `start()` was called. -/
structure StreamManager where
  starts : Nat
  deriving DecidableEq, Repr

/-- The data members of `CallInterface` that the observer reads or writes.
`networkThread` holds the delayed tasks still pending on the thread (each is the
watchdog armed for a call leg) and is `none` once the thread is stopped;
`observer` is the handler registered with the transport and the call leg it
captured; `updateThreadTasks` counts the detaching tasks posted to the update
thread; `notified` lists the calls of `connectionChangeCallback`. -/
structure CallInterface where
  connected : Bool
  isExiting : Bool
  streamManager : Option StreamManager
  networkThread : Option (List CallNetworkState.Kind)
  observer : Option CallNetworkState.Kind
  updateThreadTasks : Nat
  notified : List CallNetworkState
  deriving DecidableEq, Repr

/-- The call `connectionChangeCallback(\x7bstate, kind\x7d)`. -/
def CallInterface.notify (self : CallInterface) (state : CallNetworkState.ConnectionState)
    (kind : CallNetworkState.Kind) : CallInterface :=
  { self with notified := self.notified ++ [{ connectionState := state, kind := kind }] }

/-- Embedding of `CallInterface::cancelNetworkListener`: the network thread is
stopped, which drops its pending delayed tasks, and released. -/
def CallInterface.cancelNetworkListener (self : CallInterface) : CallInterface :=
  if self.networkThread.isSome then { self with networkThread := none } else self

/-- The `switch` of the handler that `CallInterface::setConnectionObserver`
registers, for the call leg `kind` it captured. -/
def CallInterface.switchState (self : CallInterface) (kind : CallNetworkState.Kind)
    (state : wrtc.ConnectionState) : CallInterface :=
  match state with
  | wrtc.ConnectionState.Connecting => self
  | wrtc.ConnectionState.Connected =>
    if self.connected = false ∧ self.streamManager.isSome then
      let s2 := { self with connected := true }
      let started := s2.streamManager.map
        (fun (m : StreamManager) => { m with starts := m.starts + 1 })
      let s3 := { s2 with streamManager := started }
      s3.notify CallNetworkState.ConnectionState.Connected kind
    else self
  | wrtc.ConnectionState.Disconnected | wrtc.ConnectionState.Failed
  | wrtc.ConnectionState.Closed =>
    let s2 := { self with updateThreadTasks := self.updateThreadTasks + 1 }
    if state = wrtc.ConnectionState.Failed then
      s2.notify CallNetworkState.ConnectionState.Failed kind
    else
      s2.notify CallNetworkState.ConnectionState.Closed kind
  | wrtc.ConnectionState.New => self

/-- The handler that `CallInterface::setConnectionObserver` registers with
`connection->onConnectionChange`: nothing when the call is exiting, else the
`switch` on the state followed by `cancelNetworkListener()`. -/
def CallInterface.onConnectionChange (self : CallInterface) (kind : CallNetworkState.Kind)
    (state : wrtc.ConnectionState) : CallInterface :=
  if self.isExiting then self
  else (self.switchState kind state).cancelNetworkListener

/-- The delayed task that `setConnectionObserver` posts to the network thread. -/
def CallInterface.watchdogTask (self : CallInterface) (kind : CallNetworkState.Kind) :
    CallInterface :=
  if self.connected = false then self.notify CallNetworkState.ConnectionState.Timeout kind
  else self

/-- Embedding of `CallInterface::setConnectionObserver`. -/
def CallInterface.setConnectionObserver (self : CallInterface) (kind : CallNetworkState.Kind) :
    CallInterface :=
  let s1 := self.notify CallNetworkState.ConnectionState.Connecting kind
  let s2 := { s1 with observer := some kind }
  let posted := s2.networkThread.map (fun tasks => tasks ++ [kind])
  { s2 with networkThread := posted }

/-- What can happen to a call after `setConnectionObserver`: the transport
reports a state, the delay of the oldest pending task of the network thread
runs out (after 20 seconds), or the update thread runs a detaching task. -/
inductive CallEvent where
  | transport (state : wrtc.ConnectionState)
  | timer
  | updateTask
  deriving DecidableEq, Repr

/-- The call after one event. A transport state reaches the handler only while
it is registered; a delayed task runs only while the network thread lives. -/
def CallInterface.step (self : CallInterface) : CallEvent → CallInterface
  | CallEvent.transport state =>
    match self.observer with
    | some kind => self.onConnectionChange kind state
    | none => self
  | CallEvent.timer =>
    match self.networkThread with
    | some (kind :: rest) =>
      CallInterface.watchdogTask { self with networkThread := some rest } kind
    | _ => self
  | CallEvent.updateTask =>
    if self.updateThreadTasks = 0 then self
    else
      let s1 := { self with updateThreadTasks := self.updateThreadTasks - 1 }
      { s1 with observer := none }

/-- The call after a sequence of events, in order. -/
def CallInterface.stepAll (self : CallInterface) : List CallEvent → CallInterface
  | [] => self
  | e :: es => CallInterface.stepAll (self.step e) es

/-- The call after a sequence of transport states delivered to the handler. -/
def CallInterface.deliver (self : CallInterface) (kind : CallNetworkState.Kind) :
    List wrtc.ConnectionState → CallInterface
  | [] => self
  | state :: states => CallInterface.deliver (self.onConnectionChange kind state) kind states

/-- How many notifications of a given state were made. -/
def CallInterface.countNotified (self : CallInterface)
    (state : CallNetworkState.ConnectionState) : Nat :=
  (self.notified.filter (fun n => decide (n.connectionState = state))).length

/-- A call that is about to connect: nothing connected or notified yet, a
stream manager that was never started, a live network thread without tasks. -/
def CallInterface.fresh : CallInterface :=
  { connected := false, isExiting := false, streamManager := some { starts := 0 },
    networkThread := some [], observer := none, updateThreadTasks := 0, notified := [] }

/-! The connection wait of `P2PCall::connect` and `Client::connect`. -/

/-- Modelled from the spec: `wrtc::Sync<void>`, absent from the sources, is the
synchronous connection wait. The first call of `onSuccess` or `onFailed`
resolves it and a call made once it is resolved does nothing (the wait is
resolved "exactly once; a later duplicate failed event is a no-op"). `outcome`
is what `wait()` returns or throws; while it is `none` the wait blocks. -/
structure Sync where
  outcome : Option (Except Exception Unit)
  deriving DecidableEq

/-- A wait that nothing has resolved yet. -/
def Sync.fresh : Sync := { outcome := none }

/-- Modelled from the spec: `onSuccess()` of the connection wait. -/
def Sync.onSuccess (self : Sync) : Sync :=
  match self.outcome with
  | none => { outcome := some (.ok ()) }
  | some _ => self

/-- Modelled from the spec: `onFailed(error)` of the connection wait. -/
def Sync.onFailed (self : Sync) (error : Exception) : Sync :=
  match self.outcome with
  | none => { outcome := some (.error error) }
  | some _ => self

/-- The states a peer connection reports (`wrtc::PeerConnectionState`); `New`
stands for the values that the handler's `switch` leaves to `default`. -/
inductive wrtc.PeerConnectionState where
  | New
  | Connected
  | Disconnected
  | Failed
  | Closed
  deriving DecidableEq, Repr

/-- The ICE states a group connection reports (`wrtc::IceState`); `New` stands
for the values that the handler's `switch` leaves to `default`. -/
inductive wrtc.IceState where
  | New
  | Connected
  | Disconnected
  | Failed
  | Closed
  deriving DecidableEq, Repr

/-- The local `waitConnection` of a `connect`, as the handler reaches it through
the reference it captured (`[&]`). `alive` tells that `connect` is still in the
frame that holds the local; once `connect` has returned or thrown, the local is
destroyed and the reference dangles. `dangling` records that the handler has
called `onSuccess` or `onFailed` through the reference after that: a use of a
destroyed object, whose behaviour is undefined; the embedding records the use
and leaves everything else as it was. -/
structure WaitReference where
  wait : Sync
  alive : Bool
  dangling : Bool
  deriving DecidableEq

/-- The local `waitConnection` right after its declaration. -/
def WaitReference.fresh : WaitReference :=
  { wait := Sync.fresh, alive := true, dangling := false }

/-- The call `waitConnection.onSuccess()` made by a handler. -/
def WaitReference.onSuccess (self : WaitReference) : WaitReference :=
  if self.alive then { self with wait := self.wait.onSuccess }
  else { self with dangling := true }

/-- The call `waitConnection.onFailed(error)` made by a handler. -/
def WaitReference.onFailed (self : WaitReference) (error : Exception) : WaitReference :=
  if self.alive then { self with wait := self.wait.onFailed error }
  else { self with dangling := true }

/-- The end of `connect`: `waitConnection.wait()` returns or throws, which it
does only once the wait is resolved, `connect` leaves, and the local is
destroyed. Neither `connect` detaches the handler before it leaves. -/
def WaitReference.leave (self : WaitReference) : WaitReference :=
  if self.wait.outcome.isSome then { self with alive := false } else self

/-- What happens to a `connect` that has reached `waitConnection.wait()`: the
transport reports a state, or `connect` leaves (see `WaitReference.leave`). -/
inductive ConnectEvent (State : Type) where
  | report (state : State)
  | leave

/-- What the connection-change handler installed by `P2PCall::connect` reads
and writes: the session, the local `waitConnection` it captured, whether the
handler is still registered with the transport (`onConnectionChange(nullptr)`
clears it), and how often `onCloseConnection()` was called. -/
structure ConnectingCall where
  call : P2PCall
  waitConnection : WaitReference
  registered : Bool
  closeConnections : Nat
  deriving DecidableEq

/-- The handler that `P2PCall::connect` registers with `connection->onConnectionChange`. -/
def ConnectingCall.onConnectionChange (self : ConnectingCall)
    (state : wrtc.PeerConnectionState) : ConnectingCall :=
  match state with
  | wrtc.PeerConnectionState.Connected =>
    if self.call.connected = false then
      { self with waitConnection := self.waitConnection.onSuccess }
    else self
  | wrtc.PeerConnectionState.Disconnected | wrtc.PeerConnectionState.Failed
  | wrtc.PeerConnectionState.Closed =>
    if self.call.connected = false then
      let error := Exception.TelegramServerError "Error while connecting to the P2P call server"
      { self with waitConnection := self.waitConnection.onFailed error }
    else
      let s1 := { self with registered := false }
      { s1 with closeConnections := s1.closeConnections + 1 }
  | wrtc.PeerConnectionState.New => self

/-- One event: a state the transport reports reaches the handler only while the
handler is registered; when `connect` leaves, its local is destroyed. -/
def ConnectingCall.step (self : ConnectingCall) :
    ConnectEvent wrtc.PeerConnectionState → ConnectingCall
  | ConnectEvent.report state => if self.registered then self.onConnectionChange state else self
  | ConnectEvent.leave => { self with waitConnection := self.waitConnection.leave }

/-- A sequence of events, in order. -/
def ConnectingCall.run (self : ConnectingCall) :
    List (ConnectEvent wrtc.PeerConnectionState) → ConnectingCall
  | [] => self
  | event :: events => ConnectingCall.run (self.step event) events

/-- The session as `P2PCall::connect` has it when it reaches `waitConnection.wait()`:
the handler registered, the wait unresolved, no teardown made. -/
def ConnectingCall.waiting (call : P2PCall) : ConnectingCall :=
  { call := call, waitConnection := WaitReference.fresh, registered := true,
    closeConnections := 0 }

/-- Embedding of `P2PCall::connect` with its wait: the guards and the set-up are
those of `P2PCall.connect`; then the transport reports `events` while `connect`
is inside `waitConnection.wait()`, and `wait()` returns or throws what the
handler resolved the wait with. The result is `none` when the events leave the
wait unresolved, in which case `connect` is still blocked. -/
def P2PCall.connectWith (P : Primitives) (self : P2PCall) (servers : List RTCServer)
    (versions : List String) (events : List wrtc.PeerConnectionState) :
    Option (Except Exception Unit) :=
  match self.connect P servers versions (.ok ()) with
  | (.error e, _) => some (.error e)
  | (.ok (), started) =>
    ((ConnectingCall.waiting started).run
      (events.map ConnectEvent.report)).waitConnection.wait.outcome

/-- What `Client::connect` can throw: one of the library's own exceptions or an
exception of the JSON library. -/
inductive Thrown where
  | exception (e : Exception)
  | json (e : JsonException)
  deriving DecidableEq, Repr

/-- A fingerprint of the conference transport. -/
structure wrtc.Fingerprint where
  hash : String
  fingerprint : String
  deriving DecidableEq, Repr

/-- A candidate of the conference transport: the ten strings `Client::connect` reads. -/
structure wrtc.Candidate where
  generation : String
  component : String
  protocol : String
  port : String
  ip : String
  foundation : String
  id : String
  priority : String
  type : String
  network : String
  deriving DecidableEq, Repr

/-- The transport part of a conference. -/
structure wrtc.Transport where
  ufrag : String
  pwd : String
  fingerprints : List wrtc.Fingerprint
  candidates : List wrtc.Candidate
  deriving DecidableEq, Repr

/-- The conference `Client::connect` builds (`wrtc::Conference`). -/
structure wrtc.Conference where
  transport : wrtc.Transport
  ssrc : Nat
  source_groups : List Nat
  deriving DecidableEq, Repr

/-- The values that the JSON library's `items()` iterates over: the elements of
an array, the values of an object, nothing for null, and the value itself for
any other kind. -/
def Json.items : Json → List Json
  | Json.null => []
  | Json.array items => items
  | Json.object fields => fields.map Prod.snd
  | j => [j]

/-- The expression `value[key].get<std::string>()`; `none` when it throws. -/
def Json.stringAt (j : Json) (key : String) : Option String :=
  match j.get key with
  | .error _ => none
  | .ok v =>
    match v.getString with
    | .error _ => none
    | .ok s => some s

/-- The first loop of the `try` block of `Client::connect`: a fingerprint is
read from each item; `none` when an item makes the block throw. The two fields
of a fingerprint are strings, so each value is converted to `std::string`. -/
def Client.readFingerprints : List Json → Option (List wrtc.Fingerprint)
  | [] => some []
  | item :: rest =>
    match item.stringAt "hash", item.stringAt "fingerprint" with
    | some hash, some fingerprint =>
      match Client.readFingerprints rest with
      | some tail => some ({ hash := hash, fingerprint := fingerprint } :: tail)
      | none => none
    | _, _ => none

/-- The ten fields read from each candidate item, in the order of the source. -/
def Client.candidateFields : List String :=
  ["generation", "component", "protocol", "port", "ip", "foundation", "id", "priority",
    "type", "network"]

/-- The candidate read from one item; `none` when one of the ten conversions throws. -/
def Client.readCandidate (item : Json) : Option wrtc.Candidate :=
  (item.stringAt "generation").bind fun generation =>
  (item.stringAt "component").bind fun component =>
  (item.stringAt "protocol").bind fun protocol =>
  (item.stringAt "port").bind fun port =>
  (item.stringAt "ip").bind fun ip =>
  (item.stringAt "foundation").bind fun foundation =>
  (item.stringAt "id").bind fun id =>
  (item.stringAt "priority").bind fun priority =>
  (item.stringAt "type").bind fun type =>
  (item.stringAt "network").bind fun network =>
  some { generation := generation, component := component, protocol := protocol,
         port := port, ip := ip, foundation := foundation, id := id, priority := priority,
         type := type, network := network }

/-- The second loop of the `try` block of `Client::connect`. -/
def Client.readCandidates : List Json → Option (List wrtc.Candidate)
  | [] => some []
  | item :: rest =>
    match Client.readCandidate item with
    | some candidate =>
      match Client.readCandidates rest with
      | some tail => some (candidate :: tail)
      | none => none
    | none => none

/-- The `try` block of `Client::connect` on the transport object `data`: the
conference it builds, or `none` when anything in the block throws. -/
def Client.readConference {StreamConfig : Type} (self : Client StreamConfig) (data : Json) :
    Option wrtc.Conference :=
  match data.stringAt "ufrag", data.stringAt "pwd" with
  | some ufrag, some pwd =>
    match data.get "fingerprints" with
    | .error _ => none
    | .ok jsonFingerprints =>
      match Client.readFingerprints jsonFingerprints.items with
      | none => none
      | some fingerprints =>
        match data.get "candidates" with
        | .error _ => none
        | .ok jsonCandidates =>
          match Client.readCandidates jsonCandidates.items with
          | none => none
          | some candidates =>
            some { transport := { ufrag := ufrag, pwd := pwd, fingerprints := fingerprints,
                                  candidates := candidates },
                   ssrc := self.audioSource, source_groups := self.sourceGroups }
  | _, _ => none

/-- The part of `Client::connect` that reads the payload (up to the end of the
`try` block): the conference, or what is thrown. -/
def Client.readPayload {StreamConfig : Type} (lib : JsonLibrary) (self : Client StreamConfig)
    (jsonData : String) : Except Thrown wrtc.Conference :=
  match lib.parse jsonData with
  | .error e => .error (Thrown.json e)
  | .ok data =>
    match data.get "rtmp" with
    | .error e => .error (Thrown.json e)
    | .ok rtmp =>
      if rtmp.is_null = false then
        .error (Thrown.exception (Exception.RTMPNeeded "Needed rtmp connection"))
      else
        match data.get "transport" with
        | .error e => .error (Thrown.json e)
        | .ok transport =>
          if transport.is_null then
            .error (Thrown.exception (Exception.InvalidParams "Transport not found"))
          else
            match self.readConference transport with
            | none => .error (Thrown.exception (Exception.InvalidParams "Invalid transport"))
            | some conference => .ok conference

/-- The handler that `Client::connect` registers with `connection->onIceStateChange`,
acting on the `waitConnection` it captured by reference. -/
def Client.onIceStateChange (waitConnection : WaitReference) (state : wrtc.IceState) :
    WaitReference :=
  match state with
  | wrtc.IceState.Connected => waitConnection.onSuccess
  | wrtc.IceState.Disconnected | wrtc.IceState.Failed | wrtc.IceState.Closed =>
    waitConnection.onFailed (Exception.ConnectionError "Connection failed to Telegram WebRTC")
  | wrtc.IceState.New => waitConnection

/-- A sequence of events of a `Client::connect` that has reached its wait, in
order: the handler is never detached, so every state the transport reports
reaches it, also after `connect` has left. -/
def Client.watch (waitConnection : WaitReference) :
    List (ConnectEvent wrtc.IceState) → WaitReference
  | [] => waitConnection
  | ConnectEvent.report state :: events =>
    Client.watch (Client.onIceStateChange waitConnection state) events
  | ConnectEvent.leave :: events => Client.watch waitConnection.leave events

/-- Embedding of `Client::connect`. `fromConference` is `wrtc::SdpBuilder::fromConference`,
absent from the sources; `events` are the ICE states the transport reports while
`connect` is inside `waitConnection.wait()`. The outcome is `none` when the
events leave the wait unresolved, in which case `connect` is still blocked. -/
def Client.connect {StreamConfig : Type} (lib : JsonLibrary)
    (fromConference : wrtc.Conference → String) (self : Client StreamConfig)
    (jsonData : String) (events : List wrtc.IceState) :
    Option (Except Thrown Unit) × Client StreamConfig :=
  match self.readPayload lib jsonData with
  | .error e => (some (.error e), self)
  | .ok conference =>
    let remoteDescription : Description :=
      { type := SdpType.Answer, sdp := fromConference conference }
    let applied := self.connection.map
      (fun c => { c with remoteDescription := some remoteDescription })
    let s1 := { self with connection := applied }
    match (Client.watch WaitReference.fresh (events.map ConnectEvent.report)).wait.outcome with
    | none => (none, s1)
    | some (.error e) => (some (.error (Thrown.exception e)), s1)
    | some (.ok ()) =>
      let started := s1.stream.map (fun st => { st with running := true })
      (some (.ok ()), { s1 with stream := started })

/-- A session in the Outgoing role whose key is exchanged and that has no
transport yet, used to evaluate the embedding on concrete inputs:
`init(5, 23, 6)`, `exchangeKeys(23, 19, 0)`. -/
def sampleKeyed : P2PCall :=
  ((P2PCall.fresh.init samplePrimitives 5 [23] [6] none).2.exchangeKeys
    samplePrimitives [23] [19] 0).2

/-- A group-call client after `init`, used to evaluate the embedding on concrete
inputs: it has a transport without a remote description and a stream that is
not running. -/
def sampleClient : Client Unit :=
  { connection := some { localDescription := none, remoteDescription := none },
    stream := some { avStream := some (), tracksAdded := true, running := false },
    audioSource := 7, sourceGroups := [] }

/-- A call-setup payload that `Client::connect` accepts, used to evaluate the
embedding on concrete inputs: a transport with one fingerprint and no candidate. -/
def samplePayload : String :=
  "\x7b\"transport\":\x7b\"ufrag\":\"u\",\"pwd\":\"p\",\"fingerprints\":[\x7b\"hash\":\"sha-256\",\"fingerprint\":\"AB\"\x7d]\x7d\x7d"

/-- The conference that `Client::connect` reads from `samplePayload`. -/
def sampleConference : wrtc.Conference :=
  { transport := { ufrag := "u", pwd := "p",
                   fingerprints := [{ hash := "sha-256", fingerprint := "AB" }],
                   candidates := [] },
    ssrc := 7, source_groups := [] }

/-! The reader of `threaded_reader.cpp`. -/

/-- The point a worker thread spawned by `ThreadedReader::open` has reached in
its body. The steps between two points are taken as atomic: each reads or
writes one shared variable, or runs under the lock. -/
inductive ThreadedReader.Pc where
  | start -- before `activeBufferCount++`
  | loop -- at the test of `while (running)`
  | lock -- at `std::unique_lock lock(mtx)`, waiting for the lock
  | read -- holding the lock, at `dataCallback(std::move(read(frameSize)))`
  | wait -- holding the lock, at the predicate of `cv.wait`
  | blocked -- inside `cv.wait`, the lock released
  | woken -- holding the lock, at `if (!running) break` and the advance
  | sleep -- the lock released, at `cv.notify_all()` and `sleep_for(frameTime)`
  | leave -- after the loop, at `activeBufferCount--`
  | check -- at `if (activeBufferCount == 0)`
  | done -- the thread has ended
  deriving DecidableEq, Repr

/-- The data members of `ThreadedReader` and the threads it spawned.
`capacity` and `size` are those of `bufferThreads`; `spawned` counts the threads
created by `SpawnJoinable` (one more than `size` between the creation of a
thread and its `push_back`); `opened` tells that `open()` was entered; `mtx` is
the worker holding the lock; `pc` is the point each worker has reached (the
worker with slot `i` exists when `i < spawned`). `delivered` lists the slots of
the workers whose frames were handed to `dataCallback`, `advanced` the slots of
the workers that assigned `activeBuffer`, `eofCalls` counts the calls of
`eofCallback`, and `crashed` tells that a worker took a remainder by zero. -/
structure ThreadedReader where
  capacity : Nat
  size : Nat
  spawned : Nat
  opened : Bool
  running : Bool
  activeBuffer : Nat
  activeBufferCount : Nat
  mtx : Option Nat
  pc : Nat → ThreadedReader.Pc
  delivered : List Nat
  advanced : List Nat
  eofCalls : Nat
  crashed : Bool

/-- Embedding of the constructor `ThreadedReader::ThreadedReader`:
`bufferThreads.reserve(bufferCount)` on the empty vector gives it the capacity
`bufferCount`. The members start as the header, absent from the sources, must
declare them for the worker body to make sense: not running, slot 0 active, no
live worker. -/
def ThreadedReader.new (bufferCount : Nat) : ThreadedReader :=
  { capacity := bufferCount, size := 0, spawned := 0, opened := false, running := false,
    activeBuffer := 0, activeBufferCount := 0, mtx := none,
    pc := fun _ => ThreadedReader.Pc.start, delivered := [], advanced := [], eofCalls := 0,
    crashed := false }

/-- The reader with worker `i` moved to the point `pc`. -/
def ThreadedReader.moveTo (self : ThreadedReader) (i : Nat) (pc : ThreadedReader.Pc) :
    ThreadedReader :=
  { self with pc := fun j => if j = i then pc else self.pc j }

/-- One step of the body of the worker with slot `i` (the lambda of
`ThreadedReader::open`), from the point it has reached; `none` when the worker
cannot move (it waits for the lock or for its slot, or it has ended). `readOk`
tells whether `read` and `dataCallback` return, or throw, if this step is the
read. -/
def ThreadedReader.worker (self : ThreadedReader) (i : Nat) (readOk : Bool) :
    Option ThreadedReader :=
  match self.pc i with
  | ThreadedReader.Pc.start =>
    let s1 := { self with activeBufferCount := self.activeBufferCount + 1 }
    some (s1.moveTo i ThreadedReader.Pc.loop)
  | ThreadedReader.Pc.loop =>
    if self.running then some (self.moveTo i ThreadedReader.Pc.lock)
    else some (self.moveTo i ThreadedReader.Pc.leave)
  | ThreadedReader.Pc.lock =>
    if self.mtx = none then
      let s1 := { self with mtx := some i }
      some (s1.moveTo i ThreadedReader.Pc.read)
    else none
  | ThreadedReader.Pc.read =>
    if readOk then
      let s1 := { self with delivered := self.delivered ++ [i] }
      some (s1.moveTo i ThreadedReader.Pc.wait)
    else
      let s1 := { self with mtx := none }
      some (s1.moveTo i ThreadedReader.Pc.leave)
  | ThreadedReader.Pc.wait =>
    if self.running = false ∨ self.activeBuffer = i then
      some (self.moveTo i ThreadedReader.Pc.woken)
    else
      let s1 := { self with mtx := none }
      some (s1.moveTo i ThreadedReader.Pc.blocked)
  | ThreadedReader.Pc.blocked =>
    if self.mtx = none ∧ (self.running = false ∨ self.activeBuffer = i) then
      let s1 := { self with mtx := some i }
      some (s1.moveTo i ThreadedReader.Pc.woken)
    else none
  | ThreadedReader.Pc.woken =>
    if self.running = false then
      let s1 := { self with mtx := none }
      some (s1.moveTo i ThreadedReader.Pc.leave)
    else if self.size = 0 then some { self with crashed := true }
    else
      let s1 := { self with activeBuffer := (self.activeBuffer + 1) % self.size }
      let s2 := { s1 with advanced := s1.advanced ++ [i] }
      let s3 := { s2 with mtx := none }
      some (s3.moveTo i ThreadedReader.Pc.sleep)
  | ThreadedReader.Pc.sleep => some (self.moveTo i ThreadedReader.Pc.loop)
  | ThreadedReader.Pc.leave =>
    let s1 := { self with activeBufferCount := self.activeBufferCount - 1 }
    some (s1.moveTo i ThreadedReader.Pc.check)
  | ThreadedReader.Pc.check =>
    if self.activeBufferCount = 0 then
      let s1 := { self with eofCalls := self.eofCalls + 1 }
      some (s1.moveTo i ThreadedReader.Pc.done)
    else some (self.moveTo i ThreadedReader.Pc.done)
  | ThreadedReader.Pc.done => none

/-- What one thread does next: the thread that called `open()` enters it
(`running = true`), creates the next worker or pushes the worker it created
onto `bufferThreads`; a worker takes its next step; the destructor clears
`running` and notifies. -/
inductive ThreadedReader.Action where
  | enter
  | spawn
  | push
  | work (i : Nat) (readOk : Bool)
  | destroy
  deriving DecidableEq, Repr

/-- One step of one thread; `none` when that thread cannot take this step. After
a remainder by zero nothing runs any more. -/
def ThreadedReader.step (self : ThreadedReader) (action : ThreadedReader.Action) :
    Option ThreadedReader :=
  if self.crashed then none
  else
    match action with
    | ThreadedReader.Action.enter =>
      if self.opened then none
      else
        let s1 := { self with opened := true }
        some { s1 with running := true }
    | ThreadedReader.Action.spawn =>
      if self.opened = true ∧ self.spawned = self.size ∧ self.spawned < self.capacity then
        some { self with spawned := self.spawned + 1 }
      else none
    | ThreadedReader.Action.push =>
      if self.spawned = self.size + 1 then some { self with size := self.size + 1 }
      else none
    | ThreadedReader.Action.work i readOk =>
      if i < self.spawned then self.worker i readOk else none
    | ThreadedReader.Action.destroy => some { self with running := false }

/-- The reader after a schedule, a sequence of steps of its threads; `none`
when a step of the schedule cannot be taken. -/
def ThreadedReader.run (self : ThreadedReader) : List ThreadedReader.Action →
    Option ThreadedReader
  | [] => some self
  | action :: rest =>
    match self.step action with
    | none => none
    | some next => ThreadedReader.run next rest

/-- The steps of `open()` when no worker runs before it returns: it is entered,
then each of the `n` workers is created and pushed. -/
def ThreadedReader.openSchedule : Nat → List ThreadedReader.Action
  | 0 => [ThreadedReader.Action.enter]
  | n + 1 =>
    ThreadedReader.openSchedule n ++ [ThreadedReader.Action.spawn, ThreadedReader.Action.push]

/-- The steps that take a worker from its start once through the loop body with
a read that succeeds, up to and including the advance of `activeBuffer`. -/
def ThreadedReader.firstRound (i : Nat) : List ThreadedReader.Action :=
  List.replicate 6 (ThreadedReader.Action.work i true)

/-- The steps that take a worker from its start to its end when its first read fails. -/
def ThreadedReader.failingRun (i : Nat) : List ThreadedReader.Action :=
  List.replicate 6 (ThreadedReader.Action.work i false)

/-- The workers that count as live: those that have incremented
`activeBufferCount` and not yet decremented it. -/
def ThreadedReader.Pc.live : ThreadedReader.Pc → Bool
  | ThreadedReader.Pc.start => false
  | ThreadedReader.Pc.check => false
  | ThreadedReader.Pc.done => false
  | _ => true

/-- The number of live workers among the first `n`. -/
def ThreadedReader.liveCount (pc : Nat → ThreadedReader.Pc) : Nat → Nat
  | 0 => 0
  | n + 1 => ThreadedReader.liveCount pc n + (if (pc n).live then 1 else 0)

/-- The points at which a worker holds the lock. -/
def ThreadedReader.Pc.locked : ThreadedReader.Pc → Bool
  | ThreadedReader.Pc.read => true
  | ThreadedReader.Pc.wait => true
  | ThreadedReader.Pc.woken => true
  | _ => false

/-- The points between a worker handing a frame to `dataCallback` and its
advance of `activeBuffer`. -/
def ThreadedReader.Pc.delivering : ThreadedReader.Pc → Bool
  | ThreadedReader.Pc.wait => true
  | ThreadedReader.Pc.blocked => true
  | ThreadedReader.Pc.woken => true
  | _ => false

/-- The points of a worker that has left its loop. -/
def ThreadedReader.Pc.left : ThreadedReader.Pc → Bool
  | ThreadedReader.Pc.leave => true
  | ThreadedReader.Pc.check => true
  | ThreadedReader.Pc.done => true
  | _ => false

/-- What holds in every state of the reader, whatever its threads have done: the
workers not created yet are at their start, `activeBufferCount` is the number
of live workers, and once every created worker has ended `eofCallback` was
called. -/
def ThreadedReader.CountInvariant (s : ThreadedReader) : Prop :=
  (∀ w, s.spawned ≤ w → s.pc w = ThreadedReader.Pc.start) ∧
  s.activeBufferCount = ThreadedReader.liveCount s.pc s.spawned ∧
  (1 ≤ s.spawned → (∀ w, w < s.spawned → s.pc w = ThreadedReader.Pc.done) → 1 ≤ s.eofCalls)

/-- What holds of the frames in every state of the reader: a worker between its
delivery and its advance has handed over one frame more than it has made
advances, a worker elsewhere in its loop as many, and a worker that has left
its loop as many or one more. -/
def ThreadedReader.FrameInvariant (s : ThreadedReader) : Prop :=
  ∀ w, ((s.pc w).delivering = true → s.delivered.count w = s.advanced.count w + 1) ∧
    ((s.pc w).delivering = false → (s.pc w).left = false →
      s.delivered.count w = s.advanced.count w) ∧
    s.advanced.count w ≤ s.delivered.count w ∧ s.delivered.count w ≤ s.advanced.count w + 1

/-- The lock is held by every worker that is at a point under the lock. -/
def ThreadedReader.LockInvariant (s : ThreadedReader) : Prop :=
  ∀ w, (s.pc w).locked = true → s.mtx = some w

/-- What holds in every state of a reader with `n` workers whose `open()` has
returned before any worker ran: all `n` threads are in `bufferThreads`, no
remainder by zero was taken, the lock invariant holds, a worker about to advance
while the reader runs has the active slot, and the advances made so far went
through the slots in order. -/
def ThreadedReader.TurnInvariant (n : Nat) (s : ThreadedReader) : Prop :=
  s.size = n ∧ s.spawned = n ∧ s.capacity = n ∧ s.opened = true ∧ s.crashed = false ∧
  s.LockInvariant ∧
  (∀ w, s.pc w = ThreadedReader.Pc.woken → s.running = true → s.activeBuffer = w) ∧
  s.activeBuffer = s.advanced.length % n ∧
  (∀ k, k < s.advanced.length → s.advanced[k]? = some (k % n))

/-- The reader with `bufferCount` workers when `open()` has returned and no
worker has run yet. -/
def ThreadedReader.afterOpen (bufferCount : Nat) : ThreadedReader :=
  { capacity := bufferCount, size := bufferCount, spawned := bufferCount, opened := true,
    running := true, activeBuffer := 0, activeBufferCount := 0, mtx := none,
    pc := fun _ => ThreadedReader.Pc.start, delivered := [], advanced := [], eofCalls := 0,
    crashed := false }

/-! The byte-array conversions of `jni/utils.cpp`. -/

/-- A reference to a Java byte array (`jbyteArray`): null, or the bytes of the array. -/
abbrev jbyteArray := Option Bytes

/-- Embedding of `parseByteArray`: `result` is made with `length` elements, all
zero; the bytes of the array are copied into `byteVector`; `result` is returned. -/
def parseByteArray (byteArray : jbyteArray) : Bytes :=
  match byteArray with
  | none => []
  | some byteBuffer =>
    let length := byteBuffer.length
    let result : Bytes := List.replicate length 0
    let byteVector : Bytes := byteBuffer.take length
    (fun (_ : Bytes) => result) byteVector

/-- Embedding of `parseJByteArray`: a new array of `static_cast<jsize>(size)`
bytes, filled from the vector; no array when that size is negative. -/
def parseJByteArray (byteArray : Bytes) : jbyteArray :=
  let size := wrapInt32 byteArray.length
  if size < 0 then none else some (byteArray.take size.toNat)

/-- Embedding of `parseBinary`: the bytes of the array are copied into `result`,
which is returned. -/
def parseBinary (byteArray : jbyteArray) : Bytes :=
  match byteArray with
  | none => []
  | some byteBuffer =>
    let length := byteBuffer.length
    let result : Bytes := byteBuffer.take length
    result

/-- Embedding of `parseJBinary`. -/
def parseJBinary (binary : Bytes) : jbyteArray :=
  let size := wrapInt32 binary.length
  if size < 0 then none else some (binary.take size.toNat)

/-! Shared lemmas. -/

theorem init_of_isSome (P : Primitives) (s : P2PCall) (g : Int) (p r : Bytes)
    (h : Option Bytes) (hs : s.g_a_or_b.isSome = true) :
    s.init P g p r h = (.error (.ConnectionError "Connection already made"), s) := by
  simp [P2PCall.init, hs]

theorem init_ok_inv (P : Primitives) (s : P2PCall) (g : Int) (p r : Bytes)
    (h : Option Bytes) (out : Bytes) (hok : (s.init P g p r h).1 = .ok out) :
    s.g_a_or_b = none ∧ (P.ModExpFirst g p r).modexp ≠ [] ∧
      (s.init P g p r h).2.g_a_or_b = some (P.ModExpFirst g p r).modexp ∧
      (s.init P g p r h).2.randomPower = (P.ModExpFirst g p r).randomPower ∧
      (s.init P g p r h).2.prime = p ∧
      (s.init P g p r h).2.g_a_hash = (if h.isSome then h else s.g_a_hash) ∧
      (s.init P g p r h).2.key = s.key ∧
      (s.init P g p r h).2.connection = s.connection ∧
      out = (if h.isSome then (P.ModExpFirst g p r).modexp
        else P.Sha256Digest (P.ModExpFirst g p r).modexp) := by
  unfold P2PCall.init at hok ⊢
  by_cases h1 : s.g_a_or_b.isSome = true
  · simp [h1] at hok
  · by_cases h2 : (P.ModExpFirst g p r).modexp.isEmpty = true
    · simp [h1, h2] at hok
    · have h3 : (P.ModExpFirst g p r).modexp ≠ [] := by
        intro hc; apply h2; simp [hc]
      have h4 : s.g_a_or_b = none := by
        cases hg : s.g_a_or_b with
        | none => rfl
        | some x => simp [hg] at h1
      cases h with
      | none =>
        simp [h1, h2] at hok ⊢
        exact ⟨h4, h3, hok.symm⟩
      | some hv =>
        simp [h1, h2] at hok ⊢
        exact ⟨h4, h3, hok.symm⟩

theorem isEmpty_eq_false_of_ne_nil {l : Bytes} (h : l ≠ []) : l.isEmpty = false := by
  cases l with
  | nil => exact absurd rfl h
  | cons a t => rfl

theorem option_eq_none_of_not_isSome {α : Type} {o : Option α} (h : ¬ o.isSome = true) :
    o = none := by
  cases o with
  | none => rfl
  | some x => simp at h

theorem option_none_or_some {α : Type} (o : Option α) : o = none ∨ ∃ x, o = some x := by
  cases o with
  | none => exact Or.inl rfl
  | some x => exact Or.inr ⟨x, rfl⟩

theorem exchangeKeys_connection (P : Primitives) (s : P2PCall) (p v : Bytes) (f : Int)
    (hc : s.connection.isSome = true) :
    s.exchangeKeys P p v f = (.error (.ConnectionError "Connection already made"), s) := by
  simp [P2PCall.exchangeKeys, hc]

theorem exchangeKeys_not_found (P : Primitives) (s : P2PCall) (p v : Bytes) (f : Int)
    (hc : s.connection = none) (hg : s.g_a_or_b = none) :
    s.exchangeKeys P p v f = (.error (.ConnectionNotFound "Connection not initialized"), s) := by
  simp [P2PCall.exchangeKeys, hc, hg]

theorem exchangeKeys_key (P : Primitives) (s : P2PCall) (p v : Bytes) (f : Int) (own : Bytes)
    (hc : s.connection = none) (hg : s.g_a_or_b = some own) (hk : s.key.isSome = true) :
    s.exchangeKeys P p v f = (.error (.ConnectionError "Key already exchanged"), s) := by
  simp [P2PCall.exchangeKeys, hc, hg, hk]

theorem exchangeKeys_zero_fingerprint (P : Primitives) (s : P2PCall) (p v : Bytes) (own : Bytes)
    (hc : s.connection = none) (hg : s.g_a_or_b = some own) (hk : s.key = none)
    (hh : s.g_a_hash.isSome = true) :
    s.exchangeKeys P p v 0 = (.error (.InvalidParams "Fingerprint not found"), s) := by
  simp [P2PCall.exchangeKeys, hc, hg, hk, hh]

theorem exchangeKeys_hash_mismatch (P : Primitives) (s : P2PCall) (p v : Bytes) (f : Int)
    (own h : Bytes) (hc : s.connection = none) (hg : s.g_a_or_b = some own) (hk : s.key = none)
    (hh : s.g_a_hash = some h) (hf : f ≠ 0) (hd : P.Sha256Digest v ≠ h) :
    s.exchangeKeys P p v f = (.error (.InvalidParams "Hash mismatch"), s) := by
  have hd2 : ¬ h = P.Sha256Digest v := fun e => hd e.symm
  simp [P2PCall.exchangeKeys, hc, hg, hk, hh, hf, hd2]

theorem exchangeKeys_empty_secret (P : Primitives) (s : P2PCall) (p v : Bytes) (f : Int)
    (own : Bytes) (hc : s.connection = none) (hg : s.g_a_or_b = some own) (hk : s.key = none)
    (hh : s.g_a_hash = none ∨ (f ≠ 0 ∧ s.g_a_hash = some (P.Sha256Digest v)))
    (he : P.CreateAuthKey v s.randomPower (s.modulus p) = []) :
    s.exchangeKeys P p v f = (.error (.ConnectionError "Could not create auth key"), s) := by
  unfold P2PCall.modulus at he
  rcases hh with hh | ⟨hf, hh⟩
  · simp [hh] at he
    simp [P2PCall.exchangeKeys, hc, hg, hk, hh, he]
  · simp [hh] at he
    simp [P2PCall.exchangeKeys, hc, hg, hk, hh, hf, he]

theorem exchangeKeys_fingerprint_mismatch (P : Primitives) (s : P2PCall) (p v : Bytes) (f : Int)
    (own : Bytes) (hc : s.connection = none) (hg : s.g_a_or_b = some own) (hk : s.key = none)
    (hf : f ≠ 0) (hh : s.g_a_hash = some (P.Sha256Digest v))
    (he : P.CreateAuthKey v s.randomPower (s.modulus p) ≠ [])
    (hm : u64 (P.Fingerprint (P.FillData (P.CreateAuthKey v s.randomPower (s.modulus p))))
      ≠ toU64 f) :
    s.exchangeKeys P p v f = (.error (.InvalidParams "Fingerprint mismatch"), s) := by
  unfold P2PCall.modulus at he hm
  simp [hh] at he hm
  simp [P2PCall.exchangeKeys, hc, hg, hk, hh, hf, he, hm]

theorem exchangeKeys_success (P : Primitives) (s : P2PCall) (p v : Bytes) (f : Int)
    (own : Bytes) (hc : s.connection = none) (hg : s.g_a_or_b = some own) (hk : s.key = none)
    (hh : s.g_a_hash = none ∨ (f ≠ 0 ∧ s.g_a_hash = some (P.Sha256Digest v) ∧
      u64 (P.Fingerprint (P.FillData (P.CreateAuthKey v s.randomPower (s.modulus p)))) = toU64 f))
    (he : P.CreateAuthKey v s.randomPower (s.modulus p) ≠ []) :
    s.exchangeKeys P p v f =
      (.ok { key_fingerprint :=
              toI64 (u64 (P.Fingerprint (P.FillData (P.CreateAuthKey v s.randomPower (s.modulus p)))))
             g_a_or_b := own },
        { s with key := some (P.FillData (P.CreateAuthKey v s.randomPower (s.modulus p))) }) := by
  unfold P2PCall.modulus at he hh ⊢
  rcases hh with hh | ⟨hf, hh, hm⟩
  · simp [hh] at he ⊢
    simp [P2PCall.exchangeKeys, hc, hg, hk, hh, he]
  · simp [hh] at he hm ⊢
    simp [P2PCall.exchangeKeys, hc, hg, hk, hh, hf, he, hm]

/-- Every outcome of `exchangeKeys`: one of the seven throws, which leave the
session as it was, or the success, which stores the key. -/
theorem exchangeKeys_cases (P : Primitives) (s : P2PCall) (p v : Bytes) (f : Int) :
    (∃ e, s.exchangeKeys P p v f = (.error e, s)) ∨
    (∃ own, s.connection = none ∧ s.g_a_or_b = some own ∧ s.key = none ∧
      (s.g_a_hash = none ∨ (f ≠ 0 ∧ s.g_a_hash = some (P.Sha256Digest v) ∧
        u64 (P.Fingerprint (P.FillData (P.CreateAuthKey v s.randomPower (s.modulus p))))
          = toU64 f)) ∧
      P.CreateAuthKey v s.randomPower (s.modulus p) ≠ [] ∧
      s.exchangeKeys P p v f =
        (.ok { key_fingerprint :=
                toI64 (u64 (P.Fingerprint (P.FillData
                  (P.CreateAuthKey v s.randomPower (s.modulus p)))))
               g_a_or_b := own },
          { s with key := some (P.FillData (P.CreateAuthKey v s.randomPower (s.modulus p))) })) := by
  by_cases hc : s.connection.isSome = true
  · exact Or.inl ⟨_, exchangeKeys_connection P s p v f hc⟩
  have hc2 := option_eq_none_of_not_isSome hc
  obtain hg | ⟨own, hg⟩ := option_none_or_some s.g_a_or_b
  · exact Or.inl ⟨_, exchangeKeys_not_found P s p v f hc2 hg⟩
  by_cases hk : s.key.isSome = true
  · exact Or.inl ⟨_, exchangeKeys_key P s p v f own hc2 hg hk⟩
  have hk2 := option_eq_none_of_not_isSome hk
  by_cases he : P.CreateAuthKey v s.randomPower (s.modulus p) = []
  · obtain hh | ⟨h, hh⟩ := option_none_or_some s.g_a_hash
    · exact Or.inl ⟨_, exchangeKeys_empty_secret P s p v f own hc2 hg hk2 (Or.inl hh) he⟩
    by_cases hf : f = 0
    · subst hf
      exact Or.inl ⟨_, exchangeKeys_zero_fingerprint P s p v own hc2 hg hk2 (by simp [hh])⟩
    by_cases hd : P.Sha256Digest v = h
    · subst hd
      exact Or.inl ⟨_, exchangeKeys_empty_secret P s p v f own hc2 hg hk2 (Or.inr ⟨hf, hh⟩) he⟩
    · exact Or.inl ⟨_, exchangeKeys_hash_mismatch P s p v f own h hc2 hg hk2 hh hf hd⟩
  · obtain hh | ⟨h, hh⟩ := option_none_or_some s.g_a_hash
    · exact Or.inr ⟨own, hc2, hg, hk2, Or.inl hh, he,
        exchangeKeys_success P s p v f own hc2 hg hk2 (Or.inl hh) he⟩
    by_cases hf : f = 0
    · subst hf
      exact Or.inl ⟨_, exchangeKeys_zero_fingerprint P s p v own hc2 hg hk2 (by simp [hh])⟩
    by_cases hd : P.Sha256Digest v = h
    · subst hd
      by_cases hm : u64 (P.Fingerprint (P.FillData
          (P.CreateAuthKey v s.randomPower (s.modulus p)))) = toU64 f
      · exact Or.inr ⟨own, hc2, hg, hk2, Or.inr ⟨hf, hh, hm⟩, he,
          exchangeKeys_success P s p v f own hc2 hg hk2 (Or.inr ⟨hf, hh, hm⟩) he⟩
      · exact Or.inl ⟨_, exchangeKeys_fingerprint_mismatch P s p v f own hc2 hg hk2 hf hh he hm⟩
    · exact Or.inl ⟨_, exchangeKeys_hash_mismatch P s p v f own h hc2 hg hk2 hh hf hd⟩

theorem toI64_toU64 (f : Int) (hf : isInt64 f) : toI64 (toU64 f) = f := by
  unfold isInt64 at hf
  unfold toI64 toU64
  have h1 : (2 : Int) ^ 64 = 18446744073709551616 := by norm_num
  have h2 : (2 : Int) ^ 63 = 9223372036854775808 := by norm_num
  have h3 : (2 : Nat) ^ 64 = 18446744073709551616 := by norm_num
  have h4 : (2 : Nat) ^ 63 = 9223372036854775808 := by norm_num
  rw [h1, h2] at *
  rw [h3, h4]
  split_ifs <;> omega

theorem init_key (P : Primitives) (s : P2PCall) (g : Int) (p r : Bytes) (h : Option Bytes) :
    (s.init P g p r h).2.key = s.key := by
  unfold P2PCall.init
  by_cases h1 : s.g_a_or_b.isSome = true
  · simp [h1]
  · by_cases h2 : (P.ModExpFirst g p r).modexp.isEmpty = true
    · simp [h1, h2]
    · cases h <;> simp [h1, h2]

theorem exchangeKeys_of_key (P : Primitives) (s : P2PCall) (p v : Bytes) (f : Int) (k : RawKey)
    (hk : s.key = some k) : ∃ e, s.exchangeKeys P p v f = (.error e, s) := by
  rcases exchangeKeys_cases P s p v f with he | ⟨own, _, _, hnone, _⟩
  · exact he
  · rw [hk] at hnone
    simp at hnone

theorem step_key (P : Primitives) (s : P2PCall) (c : Call) (k : RawKey)
    (hk : s.key = some k) : (s.step P c).key = some k := by
  cases c with
  | init g p r h =>
    show (s.init P g p r h).2.key = some k
    rw [init_key, hk]
  | exchangeKeys p v f =>
    show (s.exchangeKeys P p v f).2.key = some k
    obtain ⟨e, he⟩ := exchangeKeys_of_key P s p v f k hk
    rw [he]
    exact hk

theorem run_key (P : Primitives) (cs : List Call) :
    ∀ (s : P2PCall) (k : RawKey), s.key = some k → (s.run P cs).key = some k := by
  induction cs with
  | nil => intro s k hk; exact hk
  | cons c cs ih =>
    intro s k hk
    show ((s.step P c).run P cs).key = some k
    exact ih (s.step P c) k (step_key P s c k hk)

theorem foldl_bytes (l : Bytes) : ∀ a : Nat,
    l.foldl (fun acc x => acc * 256 + x) a
      = a * 256 ^ l.length + l.foldl (fun acc x => acc * 256 + x) 0 := by
  induction l with
  | nil => intro a; simp
  | cons x t ih =>
    intro a
    simp only [List.foldl_cons, List.length_cons]
    rw [ih (a * 256 + x), ih (0 * 256 + x)]
    ring

theorem bytesToNat_cons (x : Nat) (l : Bytes) :
    bytesToNat (x :: l) = x * 256 ^ l.length + bytesToNat l := by
  unfold bytesToNat
  simp only [List.foldl_cons]
  rw [foldl_bytes l (0 * 256 + x)]
  ring

theorem bytesToNat_natToBytesAux (fuel : Nat) : ∀ (n : Nat) (acc : Bytes), n ≤ fuel →
    bytesToNat (natToBytesAux fuel n acc) = n * 256 ^ acc.length + bytesToNat acc := by
  induction fuel with
  | zero =>
    intro n acc hn
    have : n = 0 := by omega
    subst this
    simp [natToBytesAux]
  | succ fuel ih =>
    intro n acc hn
    unfold natToBytesAux
    by_cases h0 : n = 0
    · simp [h0]
    · simp only [h0, if_false]
      have hdiv : n / 256 ≤ fuel := by
        have : n / 256 < n := Nat.div_lt_self (Nat.pos_of_ne_zero h0) (by norm_num)
        omega
      rw [ih (n / 256) (n % 256 :: acc) hdiv, bytesToNat_cons]
      simp only [List.length_cons]
      have hn2 := Nat.div_add_mod n 256
      calc n / 256 * 256 ^ (acc.length + 1) + (n % 256 * 256 ^ acc.length + bytesToNat acc)
          = (256 * (n / 256) + n % 256) * 256 ^ acc.length + bytesToNat acc := by ring
        _ = n * 256 ^ acc.length + bytesToNat acc := by rw [hn2]

theorem bytesToNat_natToBytes (n : Nat) : bytesToNat (natToBytes n) = n := by
  unfold natToBytes
  rw [bytesToNat_natToBytesAux n n [] (le_refl n)]
  simp [bytesToNat]

theorem natToBytes_ne_nil {n : Nat} (h : n ≠ 0) : natToBytes n ≠ [] := by
  intro hc
  have := bytesToNat_natToBytes n
  rw [hc] at this
  exact h this.symm

theorem specFillData_length (kSize : Nat) (b : Bytes) : (specFillData kSize b).length = kSize := by
  unfold specFillData
  split_ifs with h
  · simp; omega
  · simp; omega

theorem toU64_toI64_u64 (n : Nat) : toU64 (toI64 (u64 n)) = u64 n := by
  unfold toU64 toI64 u64
  have h1 : (2 : Int) ^ 64 = 18446744073709551616 := by norm_num
  have h3 : (2 : Nat) ^ 64 = 18446744073709551616 := by norm_num
  have h4 : (2 : Nat) ^ 63 = 9223372036854775808 := by norm_num
  rw [h1, h3, h4]
  split_ifs <;> omega


theorem modexp_pow (g : Int) (x a pn : Nat) (hp : 0 < pn) :
    ((g ^ x % (pn : Int)).toNat) ^ a % pn = (g ^ (x * a) % (pn : Int)).toNat := by
  have hpz : (pn : Int) ≠ 0 := by omega
  have h1 : ((g ^ x % (pn : Int)).toNat : Int) = g ^ x % (pn : Int) :=
    Int.toNat_of_nonneg (Int.emod_nonneg _ hpz)
  have h2 : ((g ^ (x * a) % (pn : Int)).toNat : Int) = g ^ (x * a) % (pn : Int) :=
    Int.toNat_of_nonneg (Int.emod_nonneg _ hpz)
  apply Int.ofNat_inj.mp
  push_cast
  rw [h1, h2, pow_mul]
  exact (Int.mod_modEq (g ^ x) pn).pow a

theorem modexp_comm (g : Int) (a b pn : Nat) (hp : 0 < pn) :
    ((g ^ b % (pn : Int)).toNat) ^ a % pn = ((g ^ a % (pn : Int)).toNat) ^ b % pn := by
  rw [modexp_pow g b a pn hp, modexp_pow g a b pn hp, Nat.mul_comm]

theorem modexp_lt (g : Int) (x pn : Nat) (hp : 0 < pn) : (g ^ x % (pn : Int)).toNat < pn := by
  have hpz : (pn : Int) ≠ 0 := by omega
  have h1 := Int.emod_nonneg (g ^ x) hpz
  have h2 := Int.emod_lt_of_pos (g ^ x) (by omega : (0 : Int) < pn)
  omega

theorem pow_mod_prime_ne_zero (n a pn : Nat) (hp : Nat.Prime pn) (hn : n ≠ 0) (hlt : n < pn) :
    n ^ a % pn ≠ 0 := by
  intro hc
  have hdvd : pn ∣ n ^ a := Nat.dvd_of_mod_eq_zero hc
  have hdvd2 : pn ∣ n := hp.dvd_of_dvd_pow hdvd
  have := Nat.le_of_dvd (Nat.pos_of_ne_zero hn) hdvd2
  omega

theorem init_fresh_spec (kSize : Nat) (digest : Bytes → Bytes) (fingerprint : RawKey → Nat)
    (g : Int) (p r : Bytes) (h : Option Bytes) (x : Bytes)
    (hx : (P2PCall.fresh.init (specPrimitives kSize digest fingerprint) g p r h).2.g_a_or_b
      = some x) :
    x = natToBytes ((g ^ bytesToNat r % (bytesToNat p : Int)).toNat) ∧ x ≠ [] ∧
    P2PCall.fresh.init (specPrimitives kSize digest fingerprint) g p r h =
      (.ok (if h.isSome then x else digest x), P2PCall.afterInit r p h x) := by
  by_cases he : natToBytes ((g ^ bytesToNat r % (bytesToNat p : Int)).toNat) = []
  · have : P2PCall.fresh.init (specPrimitives kSize digest fingerprint) g p r h
        = (.error (.InvalidParams "Invalid modexp"), P2PCall.fresh) := by
      simp [P2PCall.init, P2PCall.fresh, specPrimitives, specModExpFirst, he]
    rw [this] at hx
    simp [P2PCall.fresh] at hx
  · have hemp := isEmpty_eq_false_of_ne_nil he
    have : P2PCall.fresh.init (specPrimitives kSize digest fingerprint) g p r h =
        (.ok (if h.isSome then natToBytes ((g ^ bytesToNat r % (bytesToNat p : Int)).toNat)
            else digest (natToBytes ((g ^ bytesToNat r % (bytesToNat p : Int)).toNat))),
          P2PCall.afterInit r p h
            (natToBytes ((g ^ bytesToNat r % (bytesToNat p : Int)).toNat))) := by
      cases h <;>
        simp [P2PCall.init, P2PCall.fresh, P2PCall.afterInit, specPrimitives, specModExpFirst,
          hemp]
    rw [this] at hx
    simp only [P2PCall.afterInit, Option.some.injEq] at hx
    subst hx
    exact ⟨rfl, he, this⟩

/-! Theorems about `P2PCall::init`. -/

/-- C1: a successful `init` sets `g_a_or_b`, and on every session whose
`g_a_or_b` is set a further `init`, whatever its arguments, throws
`ConnectionError` and leaves the whole session, so in particular `randomPower`,
`prime`, `g_a_hash` and `g_a_or_b`, as it was. -/
theorem init_twice_fails (P : Primitives) :
    (∀ (s0 : P2PCall) (g : Int) (p r : Bytes) (h : Option Bytes) (out : Bytes),
      (s0.init P g p r h).1 = .ok out → (s0.init P g p r h).2.g_a_or_b.isSome = true) ∧
    (∀ (s : P2PCall) (g : Int) (p r : Bytes) (h : Option Bytes),
      s.g_a_or_b.isSome = true →
        (s.init P g p r h).1 = .error (.ConnectionError "Connection already made") ∧
        (s.init P g p r h).2 = s ∧
        (s.init P g p r h).2.randomPower = s.randomPower ∧
        (s.init P g p r h).2.prime = s.prime ∧
        (s.init P g p r h).2.g_a_hash = s.g_a_hash ∧
        (s.init P g p r h).2.g_a_or_b = s.g_a_or_b) := by
  refine ⟨?_, ?_⟩
  · intro s0 g p r h out hok
    have hinv := init_ok_inv P s0 g p r h out hok
    rw [hinv.2.2.1]
    rfl
  · intro s g p r h hs
    rw [init_of_isSome P s g p r h hs]
    exact ⟨rfl, rfl, rfl, rfl, rfl, rfl⟩

/-- C1, on a concrete session: after `init(5, 23, 6)` the call `init(5, 23, 15, hash)` throws
and changes nothing. -/
theorem init_twice_fails_witness :
    (P2PCall.fresh.init samplePrimitives 5 [23] [6] none).2.g_a_or_b.isSome = true ∧
    ((P2PCall.fresh.init samplePrimitives 5 [23] [6] none).2.init samplePrimitives
        5 [23] [15] (some [1])).1 = .error (.ConnectionError "Connection already made") ∧
    ((P2PCall.fresh.init samplePrimitives 5 [23] [6] none).2.init samplePrimitives
        5 [23] [15] (some [1])).2 = (P2PCall.fresh.init samplePrimitives 5 [23] [6] none).2 :=
  have hs := (init_twice_fails samplePrimitives).1 P2PCall.fresh 5 [23] [6] none
    (sampleDigest [8]) rfl
  have h2 := (init_twice_fails samplePrimitives).2
    (P2PCall.fresh.init samplePrimitives 5 [23] [6] none).2 5 [23] [15] (some [1]) hs
  ⟨hs, h2.1, h2.2.1⟩

/-- C2, as the code has it: a successful `init` stores the public value
`ModExpFirst(g, p, r).modexp` in `g_a_or_b`; it returns that raw value when a
commitment hash is supplied, and the SHA-256 digest of it when none is. -/
theorem init_returns (P : Primitives) (s : P2PCall) (g : Int) (p r : Bytes)
    (h : Option Bytes) (out : Bytes) (hok : (s.init P g p r h).1 = .ok out) :
    (s.init P g p r h).2.g_a_or_b = some (P.ModExpFirst g p r).modexp ∧
    (h = none → out = P.Sha256Digest (P.ModExpFirst g p r).modexp) ∧
    (∀ hv, h = some hv → out = (P.ModExpFirst g p r).modexp) := by
  have hinv := init_ok_inv P s g p r h out hok
  refine ⟨hinv.2.2.1, ?_, ?_⟩
  · intro hn
    have := hinv.2.2.2.2.2.2.2.2
    simpa [hn] using this
  · intro hv hsome
    have := hinv.2.2.2.2.2.2.2.2
    simpa [hsome] using this

/-- C2, on concrete sessions: without a hash `init(5, 23, 6)` returns the digest
of the public value 8, with a hash it returns 8 itself. -/
theorem init_returns_witness :
    (P2PCall.fresh.init samplePrimitives 5 [23] [6] none).2.g_a_or_b = some [8] ∧
    (P2PCall.fresh.init samplePrimitives 5 [23] [6] none).1 = .ok (sampleDigest [8]) ∧
    (P2PCall.fresh.init samplePrimitives 5 [23] [6] (some [7])).1 = .ok [8] :=
  have h1 := init_returns samplePrimitives P2PCall.fresh 5 [23] [6] none (sampleDigest [8]) rfl
  ⟨h1.1, rfl, rfl⟩

/-- C2 as stated fails: without a commitment hash `init` returns the digest, which is
not the raw public value; with one it returns the raw value, which is not its digest. -/
theorem init_returns_counterexample :
    (P2PCall.fresh.init samplePrimitives 5 [23] [6] none).2.g_a_or_b = some [8] ∧
    (P2PCall.fresh.init samplePrimitives 5 [23] [6] none).1 ≠ .ok [8] ∧
    (P2PCall.fresh.init samplePrimitives 5 [23] [6] none).1
      = .ok (samplePrimitives.Sha256Digest [8]) ∧
    (P2PCall.fresh.init samplePrimitives 5 [23] [6] (some [7])).2.g_a_or_b = some [8] ∧
    (P2PCall.fresh.init samplePrimitives 5 [23] [6] (some [7])).1
      ≠ .ok (samplePrimitives.Sha256Digest [8]) ∧
    (P2PCall.fresh.init samplePrimitives 5 [23] [6] (some [7])).1 = .ok [8] := by
  refine ⟨rfl, ?_, rfl, rfl, ?_, rfl⟩ <;> decide

/-- C9: on a session not yet initialised, when `ModExpFirst(g, p, r).modexp` is
empty `init` throws `InvalidParams` and leaves the session as it was
(`randomPower`, `prime`, `g_a_hash`, `g_a_or_b` unchanged); `type()` is still
`P2P`; and a later `init` is never rejected with `ConnectionError`: it succeeds
as soon as its own public value is not empty. -/
theorem init_degenerate (P : Primitives) (s : P2PCall) (g : Int) (p r : Bytes)
    (h : Option Bytes) (hs : s.g_a_or_b = none) (hd : (P.ModExpFirst g p r).modexp = []) :
    (s.init P g p r h).1 = .error (.InvalidParams "Invalid modexp") ∧
    (s.init P g p r h).2 = s ∧
    (s.init P g p r h).2.randomPower = s.randomPower ∧
    (s.init P g p r h).2.prime = s.prime ∧
    (s.init P g p r h).2.g_a_hash = s.g_a_hash ∧
    (s.init P g p r h).2.g_a_or_b = s.g_a_or_b ∧
    (s.init P g p r h).2.type = CallType.P2P ∧
    (∀ (g2 : Int) (p2 r2 : Bytes) (h2 : Option Bytes),
      (∀ msg, ((s.init P g p r h).2.init P g2 p2 r2 h2).1 ≠ .error (.ConnectionError msg)) ∧
      ((P.ModExpFirst g2 p2 r2).modexp ≠ [] →
        ∃ out, ((s.init P g p r h).2.init P g2 p2 r2 h2).1 = .ok out)) := by
  have heq : s.init P g p r h = (.error (.InvalidParams "Invalid modexp"), s) := by
    simp [P2PCall.init, hs, hd]
  rw [heq]
  refine ⟨rfl, rfl, rfl, rfl, rfl, rfl, ?_, ?_⟩
  · simp [P2PCall.type, hs]
  · intro g2 p2 r2 h2
    constructor
    · intro msg
      by_cases he : (P.ModExpFirst g2 p2 r2).modexp = []
      · simp [P2PCall.init, hs, he]
      · simp [P2PCall.init, hs, isEmpty_eq_false_of_ne_nil he]
    · intro he
      simp [P2PCall.init, hs, isEmpty_eq_false_of_ne_nil he]

/-- C9, on a concrete session: `init(23, 23, 1)` has the public value 0, throws, and
`init(5, 23, 6)` then succeeds. -/
theorem init_degenerate_witness :
    (P2PCall.fresh.init samplePrimitives 23 [23] [1] none).1
      = .error (.InvalidParams "Invalid modexp") ∧
    (P2PCall.fresh.init samplePrimitives 23 [23] [1] none).2 = P2PCall.fresh ∧
    (P2PCall.fresh.init samplePrimitives 23 [23] [1] none).2.type = CallType.P2P ∧
    ∃ out, ((P2PCall.fresh.init samplePrimitives 23 [23] [1] none).2.init samplePrimitives
      5 [23] [6] none).1 = .ok out :=
  have h := init_degenerate samplePrimitives P2PCall.fresh 23 [23] [1] none rfl rfl
  ⟨h.1, h.2.1, h.2.2.2.2.2.2.1, (h.2.2.2.2.2.2.2 5 [23] [6] none).2 (by decide)⟩

/-! Theorems about `P2PCall::exchangeKeys`. -/

/-- C3: on a session that stores the commitment hash `h`, has a public value,
no transport and no key, `exchangeKeys(p, v, f)` throws `InvalidParams` for
every `p` whenever `f = 0` or the SHA-256 digest of `v` is not `h`; the session
is left as it was and its key stays unset. -/
theorem exchangeKeys_commitment_tampered (P : Primitives) (s : P2PCall) (h p v : Bytes)
    (f : Int) (hh : s.g_a_hash = some h) (hg : s.g_a_or_b.isSome = true)
    (hc : s.connection = none) (hk : s.key = none)
    (ht : f = 0 ∨ P.Sha256Digest v ≠ h) :
    (∃ msg, (s.exchangeKeys P p v f).1 = .error (.InvalidParams msg)) ∧
    (s.exchangeKeys P p v f).2 = s ∧
    (s.exchangeKeys P p v f).2.key = none := by
  obtain hg0 | ⟨own, hg1⟩ := option_none_or_some s.g_a_or_b
  · simp [hg0] at hg
  by_cases hf : f = 0
  · subst hf
    rw [exchangeKeys_zero_fingerprint P s p v own hc hg1 hk (by simp [hh])]
    exact ⟨⟨_, rfl⟩, rfl, hk⟩
  · have hd : P.Sha256Digest v ≠ h := by
      rcases ht with ht | ht
      · exact absurd ht hf
      · exact ht
    rw [exchangeKeys_hash_mismatch P s p v f own h hc hg1 hk hh hf hd]
    exact ⟨⟨_, rfl⟩, rfl, hk⟩

/-- C3, on the session made by `init(5, 23, 15, digest of 8)`: a zero fingerprint is
rejected, and so is the peer value 9, whose digest is not the stored hash. -/
theorem exchangeKeys_commitment_tampered_witness :
    (((P2PCall.fresh.init samplePrimitives 5 [23] [15] (some (sampleDigest [8]))).2.exchangeKeys
        samplePrimitives [23] [8] 0).1 = .error (.InvalidParams "Fingerprint not found")) ∧
    (∃ msg, ((P2PCall.fresh.init samplePrimitives 5 [23] [15]
        (some (sampleDigest [8]))).2.exchangeKeys
        samplePrimitives [29] [9] 2).1 = .error (.InvalidParams msg)) ∧
    ((P2PCall.fresh.init samplePrimitives 5 [23] [15] (some (sampleDigest [8]))).2.exchangeKeys
        samplePrimitives [29] [9] 2).2.key = none :=
  have h := exchangeKeys_commitment_tampered samplePrimitives
    (P2PCall.fresh.init samplePrimitives 5 [23] [15] (some (sampleDigest [8]))).2
    (sampleDigest [8]) [29] [9] 2 rfl rfl rfl rfl (Or.inr (by decide))
  ⟨rfl, h.1, h.2.2⟩

/-- C4: on a session with a commitment hash that gets as far as deriving a key
(no transport, public value set, no key yet, secret not empty), a computed
fingerprint that differs from `static_cast<uint64_t>(fingerprint)` makes
`exchangeKeys` throw `InvalidParams` and store no key; when `exchangeKeys`
succeeds on a session with a commitment hash, the `key_fingerprint` it returns
is the `int64_t` argument `fingerprint`; on a session without a commitment hash
the outcome does not depend on `fingerprint`. -/
theorem exchangeKeys_fingerprint_check (P : Primitives) (s : P2PCall) (p v : Bytes) (f : Int) :
    (s.g_a_hash.isSome = true → s.connection = none → s.g_a_or_b.isSome = true →
      s.key = none →
      P.CreateAuthKey v s.randomPower (if s.g_a_hash.isSome then s.prime else p) ≠ [] →
      u64 (P.Fingerprint (P.FillData
        (P.CreateAuthKey v s.randomPower (if s.g_a_hash.isSome then s.prime else p))))
        ≠ toU64 f →
      (∃ msg, (s.exchangeKeys P p v f).1 = .error (.InvalidParams msg)) ∧
      (s.exchangeKeys P p v f).2 = s ∧ (s.exchangeKeys P p v f).2.key = none) ∧
    (s.g_a_hash.isSome = true → isInt64 f →
      ∀ res, (s.exchangeKeys P p v f).1 = .ok res → res.key_fingerprint = f) ∧
    (s.g_a_hash = none → ∀ f2, s.exchangeKeys P p v f2 = s.exchangeKeys P p v f) := by
  refine ⟨?_, ?_, ?_⟩
  · intro hh hc hg hk he hm
    obtain hg0 | ⟨own, hg1⟩ := option_none_or_some s.g_a_or_b
    · simp [hg0] at hg
    obtain hh0 | ⟨h, hh1⟩ := option_none_or_some s.g_a_hash
    · simp [hh0] at hh
    by_cases hf : f = 0
    · subst hf
      rw [exchangeKeys_zero_fingerprint P s p v own hc hg1 hk hh]
      exact ⟨⟨_, rfl⟩, rfl, hk⟩
    by_cases hd : P.Sha256Digest v = h
    · subst hd
      rw [exchangeKeys_fingerprint_mismatch P s p v f own hc hg1 hk hf hh1 he hm]
      exact ⟨⟨_, rfl⟩, rfl, hk⟩
    · rw [exchangeKeys_hash_mismatch P s p v f own h hc hg1 hk hh1 hf hd]
      exact ⟨⟨_, rfl⟩, rfl, hk⟩
  · intro hh hf res hok
    rcases exchangeKeys_cases P s p v f with ⟨e, he⟩ | ⟨own, _, _, _, hgd, _, heq⟩
    · rw [he] at hok
      simp at hok
    · rw [heq] at hok
      rcases hgd with hn | ⟨_, _, hm⟩
      · simp [hn] at hh
      · simp only [Except.ok.injEq] at hok
        rw [← hok]
        show toI64 _ = f
        rw [hm]
        exact toI64_toU64 f hf
  · intro hh f2
    simp [P2PCall.exchangeKeys, hh]

set_option maxRecDepth 100000 in
/-- C4, on concrete sessions: with the stored commitment the declared fingerprint 3 is
rejected (the key's fingerprint is 2) and the declared fingerprint 2 is returned;
without a commitment the fingerprints 7 and 0 give the same outcome. -/
theorem exchangeKeys_fingerprint_check_witness :
    ((∃ msg, ((P2PCall.fresh.init samplePrimitives 5 [23] [15]
        (some (sampleDigest [8]))).2.exchangeKeys
        samplePrimitives [23] [8] 3).1 = .error (.InvalidParams msg)) ∧
      ((P2PCall.fresh.init samplePrimitives 5 [23] [15] (some (sampleDigest [8]))).2.exchangeKeys
        samplePrimitives [23] [8] 3).2.key = none) ∧
    (((P2PCall.fresh.init samplePrimitives 5 [23] [15] (some (sampleDigest [8]))).2.exchangeKeys
        samplePrimitives [23] [8] 2).1 = .ok { key_fingerprint := 2, g_a_or_b := [19] }) ∧
    ((P2PCall.fresh.init samplePrimitives 5 [23] [6] none).2.exchangeKeys
        samplePrimitives [23] [19] 7
      = (P2PCall.fresh.init samplePrimitives 5 [23] [6] none).2.exchangeKeys
        samplePrimitives [23] [19] 0) :=
  have h1 := (exchangeKeys_fingerprint_check samplePrimitives
    (P2PCall.fresh.init samplePrimitives 5 [23] [15] (some (sampleDigest [8]))).2
    [23] [8] 3).1 rfl rfl rfl rfl (by decide) (by decide)
  have h2 := (exchangeKeys_fingerprint_check samplePrimitives
    (P2PCall.fresh.init samplePrimitives 5 [23] [15] (some (sampleDigest [8]))).2
    [23] [8] 2).2.1 rfl (by decide) { key_fingerprint := 2, g_a_or_b := [19] } rfl
  have h3 := (exchangeKeys_fingerprint_check samplePrimitives
    (P2PCall.fresh.init samplePrimitives 5 [23] [6] none).2 [23] [19] 0).2.2 rfl 7
  ⟨⟨h1.1, h1.2.2⟩, rfl, h3⟩

/-- C5: a successful `exchangeKeys` stores the key filled from the secret
`CreateAuthKey(peer value, randomPower, m)`, where `m` is the stored `prime`
when a commitment hash is stored and the argument `p` otherwise; so on a session
with a commitment hash the outcome does not depend on `p`; a call that passes
the guards and computes an empty secret throws `ConnectionError` and stores no
key; and with the helpers as the spec describes them that secret is the peer
value raised to `randomPower` modulo `m`. -/
theorem exchangeKeys_shared_secret (P : Primitives) (s : P2PCall) (p v : Bytes) (f : Int) :
    (∀ res, (s.exchangeKeys P p v f).1 = .ok res →
      P.CreateAuthKey v s.randomPower (if s.g_a_hash.isSome then s.prime else p) ≠ [] ∧
      (s.exchangeKeys P p v f).2.key = some (P.FillData
        (P.CreateAuthKey v s.randomPower (if s.g_a_hash.isSome then s.prime else p)))) ∧
    (s.g_a_hash.isSome = true → ∀ p2, s.exchangeKeys P p2 v f = s.exchangeKeys P p v f) ∧
    (s.connection = none → s.g_a_or_b.isSome = true → s.key = none →
      (s.g_a_hash = none ∨ (f ≠ 0 ∧ s.g_a_hash = some (P.Sha256Digest v))) →
      P.CreateAuthKey v s.randomPower (if s.g_a_hash.isSome then s.prime else p) = [] →
      (s.exchangeKeys P p v f).1 = .error (.ConnectionError "Could not create auth key") ∧
      (s.exchangeKeys P p v f).2 = s ∧ (s.exchangeKeys P p v f).2.key = none) ∧
    (∀ (kSize : Nat) (digest : Bytes → Bytes) (fingerprint : RawKey → Nat) (res : AuthParams),
      (s.exchangeKeys (specPrimitives kSize digest fingerprint) p v f).1 = .ok res →
      (s.exchangeKeys (specPrimitives kSize digest fingerprint) p v f).2.key =
        some (specFillData kSize (natToBytes (bytesToNat v ^ bytesToNat s.randomPower %
          bytesToNat (if s.g_a_hash.isSome then s.prime else p))))) := by
  have key_of_ok : ∀ (Q : Primitives) (res : AuthParams),
      (s.exchangeKeys Q p v f).1 = .ok res →
      Q.CreateAuthKey v s.randomPower (if s.g_a_hash.isSome then s.prime else p) ≠ [] ∧
      (s.exchangeKeys Q p v f).2.key = some (Q.FillData
        (Q.CreateAuthKey v s.randomPower (if s.g_a_hash.isSome then s.prime else p))) := by
    intro Q res hok
    rcases exchangeKeys_cases Q s p v f with ⟨e, he⟩ | ⟨own, _, _, _, _, hne, heq⟩
    · rw [he] at hok
      simp at hok
    · rw [heq]
      exact ⟨hne, rfl⟩
  refine ⟨key_of_ok P, ?_, ?_, ?_⟩
  · intro hh p2
    simp [P2PCall.exchangeKeys, hh]
  · intro hc hg hk hh he
    obtain hg0 | ⟨own, hg1⟩ := option_none_or_some s.g_a_or_b
    · simp [hg0] at hg
    rw [exchangeKeys_empty_secret P s p v f own hc hg1 hk hh he]
    exact ⟨rfl, rfl, hk⟩
  · intro kSize digest fingerprint res hok
    exact (key_of_ok (specPrimitives kSize digest fingerprint) res hok).2

set_option maxRecDepth 100000 in
/-- C5, on concrete sessions: the session with a commitment made by
`init(5, 23, 15, digest of 8)` derives its key from `8 ^ 15 mod 23 = 2` whether the
peer sends the prime 23 or 29; and the peer value 23 gives the empty secret, `ConnectionError`
and no key. -/
theorem exchangeKeys_shared_secret_witness :
    ((P2PCall.fresh.init samplePrimitives 5 [23] [15] (some (sampleDigest [8]))).2.exchangeKeys
        samplePrimitives [29] [8] 2).2.key = some (specFillData 256 [2]) ∧
    ((P2PCall.fresh.init samplePrimitives 5 [23] [15] (some (sampleDigest [8]))).2.exchangeKeys
        samplePrimitives [23] [8] 2
      = (P2PCall.fresh.init samplePrimitives 5 [23] [15] (some (sampleDigest [8]))).2.exchangeKeys
        samplePrimitives [29] [8] 2) ∧
    ((P2PCall.fresh.init samplePrimitives 5 [23] [6] none).2.exchangeKeys
        samplePrimitives [23] [23] 0).1 = .error (.ConnectionError "Could not create auth key") ∧
    ((P2PCall.fresh.init samplePrimitives 5 [23] [6] none).2.exchangeKeys
        samplePrimitives [23] [23] 0).2.key = none :=
  have h1 := (exchangeKeys_shared_secret samplePrimitives
    (P2PCall.fresh.init samplePrimitives 5 [23] [15] (some (sampleDigest [8]))).2
    [29] [8] 2).1 { key_fingerprint := 2, g_a_or_b := [19] } rfl
  have h2 := (exchangeKeys_shared_secret samplePrimitives
    (P2PCall.fresh.init samplePrimitives 5 [23] [15] (some (sampleDigest [8]))).2
    [29] [8] 2).2.1 rfl [23]
  have h3 := (exchangeKeys_shared_secret samplePrimitives
    (P2PCall.fresh.init samplePrimitives 5 [23] [6] none).2
    [23] [23] 0).2.2.1 rfl rfl rfl (Or.inl rfl) rfl
  ⟨h1.2, h2, h3.1, h3.2.2⟩

/-- Key agreement of the two roles, with the helpers as the spec describes them
and for any fingerprint function: let `p` stand for a prime, let session A be
initialised without a commitment hash (public value `g_a`) and session B with
the commitment hash `digest g_a` (public value `g_b`). Then
`A.exchangeKeys(p, g_b, f0)` succeeds for every `f0`, returns the fingerprint
`F` of the key it stores, and that key has `kSize` bytes; when `F` is not zero
`B.exchangeKeys(p, g_a, F)` succeeds, returns `F` and stores the same key; when
`F` is zero that call throws `InvalidParams`, by the guard that takes a zero
fingerprint for a missing one. Whether a key agreed on can have the fingerprint
zero is up to `AuthKey::Fingerprint`, which is not among the sources. -/
theorem key_agreement (kSize : Nat) (digest : Bytes → Bytes) (fingerprint : RawKey → Nat)
    (g : Int) (p ra rb g_a g_b : Bytes) (f0 : Int)
    (hp : Nat.Prime (bytesToNat p))
    (hga : (P2PCall.fresh.init (specPrimitives kSize digest fingerprint) g p ra none).2.g_a_or_b
      = some g_a)
    (hgb : (P2PCall.fresh.init (specPrimitives kSize digest fingerprint) g p rb
      (some (digest g_a))).2.g_a_or_b = some g_b) :
    ∃ key : RawKey, key.length = kSize ∧
      (P2PCall.fresh.init (specPrimitives kSize digest fingerprint) g p ra none).2.exchangeKeys
          (specPrimitives kSize digest fingerprint) p g_b f0
        = (.ok { key_fingerprint := toI64 (u64 (fingerprint key)), g_a_or_b := g_a },
            { (P2PCall.fresh.init (specPrimitives kSize digest fingerprint) g p ra none).2
                with key := some key }) ∧
      (toI64 (u64 (fingerprint key)) ≠ 0 →
        (P2PCall.fresh.init (specPrimitives kSize digest fingerprint) g p rb
            (some (digest g_a))).2.exchangeKeys
            (specPrimitives kSize digest fingerprint) p g_a (toI64 (u64 (fingerprint key)))
          = (.ok { key_fingerprint := toI64 (u64 (fingerprint key)), g_a_or_b := g_b },
              { (P2PCall.fresh.init (specPrimitives kSize digest fingerprint) g p rb
                  (some (digest g_a))).2 with key := some key })) ∧
      (toI64 (u64 (fingerprint key)) = 0 →
        (P2PCall.fresh.init (specPrimitives kSize digest fingerprint) g p rb
            (some (digest g_a))).2.exchangeKeys
            (specPrimitives kSize digest fingerprint) p g_a (toI64 (u64 (fingerprint key)))
          = (.error (.InvalidParams "Fingerprint not found"),
              (P2PCall.fresh.init (specPrimitives kSize digest fingerprint) g p rb
                (some (digest g_a))).2)) := by
  obtain ⟨hga1, hga2, hA⟩ := init_fresh_spec kSize digest fingerprint g p ra none g_a hga
  obtain ⟨hgb1, hgb2, hB⟩ :=
    init_fresh_spec kSize digest fingerprint g p rb (some (digest g_a)) g_b hgb
  have hpos : 0 < bytesToNat p := hp.pos
  have hna : bytesToNat g_a = (g ^ bytesToNat ra % (bytesToNat p : Int)).toNat := by
    rw [hga1, bytesToNat_natToBytes]
  have hnb : bytesToNat g_b = (g ^ bytesToNat rb % (bytesToNat p : Int)).toNat := by
    rw [hgb1, bytesToNat_natToBytes]
  have hna0 : bytesToNat g_a ≠ 0 := by
    intro hc
    rw [hna] at hc
    rw [hga1, hc] at hga2
    exact hga2 rfl
  have hnb0 : bytesToNat g_b ≠ 0 := by
    intro hc
    rw [hnb] at hc
    rw [hgb1, hc] at hgb2
    exact hgb2 rfl
  have hlta : bytesToNat g_a < bytesToNat p := by
    rw [hna]; exact modexp_lt g _ _ hpos
  have hltb : bytesToNat g_b < bytesToNat p := by
    rw [hnb]; exact modexp_lt g _ _ hpos
  have hsecret : specCreateAuthKey g_b ra p = specCreateAuthKey g_a rb p := by
    unfold specCreateAuthKey
    rw [hna, hnb, modexp_comm g (bytesToNat ra) (bytesToNat rb) (bytesToNat p) hpos]
  have hne : specCreateAuthKey g_b ra p ≠ [] := by
    unfold specCreateAuthKey
    exact natToBytes_ne_nil (pow_mod_prime_ne_zero _ _ _ hp hnb0 hltb)
  rw [hA, hB]
  refine ⟨specFillData kSize (specCreateAuthKey g_b ra p), specFillData_length _ _, ?_, ?_, ?_⟩
  · exact exchangeKeys_success (specPrimitives kSize digest fingerprint) _ p g_b f0 g_a
      rfl rfl rfl (Or.inl rfl) hne
  · intro hF
    have hmod : (P2PCall.afterInit rb p (some (digest g_a)) g_b).modulus p = p := rfl
    have := exchangeKeys_success (specPrimitives kSize digest fingerprint)
      (P2PCall.afterInit rb p (some (digest g_a)) g_b) p g_a
      (toI64 (u64 (fingerprint (specFillData kSize (specCreateAuthKey g_b ra p))))) g_b
      rfl rfl rfl
      (Or.inr ⟨hF, rfl, by
        rw [hmod]
        show u64 (fingerprint (specFillData kSize (specCreateAuthKey g_a rb p))) = _
        rw [← hsecret, toU64_toI64_u64]⟩)
      (by rw [hmod]; show specCreateAuthKey g_a rb p ≠ []; rw [← hsecret]; exact hne)
    rw [this, hmod]
    have hs2 : (specPrimitives kSize digest fingerprint).CreateAuthKey g_a
        (P2PCall.afterInit rb p (some (digest g_a)) g_b).randomPower p
        = specCreateAuthKey g_b ra p := hsecret.symm
    rw [hs2]
    rfl
  · intro hF
    rw [hF]
    exact exchangeKeys_zero_fingerprint (specPrimitives kSize digest fingerprint) _ p g_a g_b
      rfl rfl rfl rfl


set_option maxRecDepth 100000 in
/-- Key agreement on concrete sessions: with `g = 5`, `p = 23` and the seeds 6
and 15 the public values are 8 and 19, both sides store the 256-byte key of the
secret 2 and return the fingerprint 2. -/
theorem key_agreement_witness :
    (∃ key : RawKey, key.length = 256 ∧
      ((P2PCall.fresh.init samplePrimitives 5 [23] [6] none).2.exchangeKeys
          samplePrimitives [23] [19] 0).1
        = .ok { key_fingerprint := toI64 (u64 (sampleFingerprint key)), g_a_or_b := [8] }) ∧
    ((P2PCall.fresh.init samplePrimitives 5 [23] [6] none).2.exchangeKeys
        samplePrimitives [23] [19] 0).1 = .ok { key_fingerprint := 2, g_a_or_b := [8] } ∧
    ((P2PCall.fresh.init samplePrimitives 5 [23] [15] (some (sampleDigest [8]))).2.exchangeKeys
        samplePrimitives [23] [8] 2).1 = .ok { key_fingerprint := 2, g_a_or_b := [19] } ∧
    ((P2PCall.fresh.init samplePrimitives 5 [23] [6] none).2.exchangeKeys
        samplePrimitives [23] [19] 0).2.key
      = ((P2PCall.fresh.init samplePrimitives 5 [23] [15]
          (some (sampleDigest [8]))).2.exchangeKeys samplePrimitives [23] [8] 2).2.key :=
  have h := key_agreement 256 sampleDigest sampleFingerprint 5 [23] [6] [15] [8] [19] 0
    (by show Nat.Prime 23; norm_num) rfl rfl
  match h with
  | ⟨key, hlen, hA, _, _⟩ => ⟨⟨key, hlen, congrArg Prod.fst hA⟩, rfl, rfl, rfl⟩

/-- C7: `exchangeKeys` throws `ConnectionError` when a transport exists, whatever
else holds; without a transport it throws `ConnectionNotFound` when `g_a_or_b`
is unset, whatever else holds; without a transport and with `g_a_or_b` set it
throws `ConnectionError` when a key is stored; each time the session is left as
it was. -/
theorem exchangeKeys_precondition_order (P : Primitives) (s : P2PCall) (p v : Bytes)
    (f : Int) :
    (s.connection.isSome = true →
      s.exchangeKeys P p v f = (.error (.ConnectionError "Connection already made"), s)) ∧
    (s.connection = none → s.g_a_or_b = none →
      s.exchangeKeys P p v f
        = (.error (.ConnectionNotFound "Connection not initialized"), s)) ∧
    (s.connection = none → s.g_a_or_b.isSome = true → s.key.isSome = true →
      s.exchangeKeys P p v f = (.error (.ConnectionError "Key already exchanged"), s)) := by
  refine ⟨exchangeKeys_connection P s p v f, exchangeKeys_not_found P s p v f, ?_⟩
  intro hc hg hk
  obtain hg0 | ⟨own, hg1⟩ := option_none_or_some s.g_a_or_b
  · simp [hg0] at hg
  · exact exchangeKeys_key P s p v f own hc hg1 hk

set_option maxRecDepth 100000 in
/-- C7, on concrete sessions: a session that has a transport but was never initialised
gets `ConnectionError`; a fresh session gets `ConnectionNotFound`; a session that
already exchanged its key gets `ConnectionError`. -/
theorem exchangeKeys_precondition_order_witness :
    ({ P2PCall.fresh with connection := some (PeerConnection.create []) }.exchangeKeys
        samplePrimitives [23] [19] 0).1 = .error (.ConnectionError "Connection already made") ∧
    (P2PCall.fresh.exchangeKeys samplePrimitives [23] [19] 0).1
      = .error (.ConnectionNotFound "Connection not initialized") ∧
    ((((P2PCall.fresh.init samplePrimitives 5 [23] [6] none).2.exchangeKeys
        samplePrimitives [23] [19] 0).2).exchangeKeys samplePrimitives [23] [19] 0).1
      = .error (.ConnectionError "Key already exchanged") :=
  have h1 := (exchangeKeys_precondition_order samplePrimitives
    { P2PCall.fresh with connection := some (PeerConnection.create []) } [23] [19] 0).1 rfl
  have h2 := (exchangeKeys_precondition_order samplePrimitives
    P2PCall.fresh [23] [19] 0).2.1 rfl rfl
  have h3 := (exchangeKeys_precondition_order samplePrimitives
    ((P2PCall.fresh.init samplePrimitives 5 [23] [6] none).2.exchangeKeys
        samplePrimitives [23] [19] 0).2 [23] [19] 0).2.2 rfl rfl rfl
  ⟨congrArg Prod.fst h1, congrArg Prod.fst h2, congrArg Prod.fst h3⟩

/-- C8: in every sequence of `init` and `exchangeKeys` calls on a session, an
`exchangeKeys` that succeeds finds the key unset and stores a key `k`; it returns
the fingerprint of `k` and the public value held in `g_a_or_b`; after it,
whatever calls follow, the stored key is still `k` and every `exchangeKeys`
throws. -/
theorem key_written_once (P : Primitives) (s0 : P2PCall) (before : List Call) (p v : Bytes)
    (f : Int) (res : AuthParams)
    (hok : ((s0.run P before).exchangeKeys P p v f).1 = .ok res) :
    (s0.run P before).key = none ∧
    ∃ k, ((s0.run P before).exchangeKeys P p v f).2.key = some k ∧
      res.key_fingerprint = toI64 (u64 (P.Fingerprint k)) ∧
      (s0.run P before).g_a_or_b = some res.g_a_or_b ∧
      ((s0.run P before).exchangeKeys P p v f).2.g_a_or_b = some res.g_a_or_b ∧
      ∀ later : List Call,
        ((((s0.run P before).exchangeKeys P p v f).2).run P later).key = some k ∧
        ∀ (p2 v2 : Bytes) (f2 : Int), ∃ e,
          (((((s0.run P before).exchangeKeys P p v f).2).run P later).exchangeKeys
            P p2 v2 f2).1 = .error e := by
  rcases exchangeKeys_cases P (s0.run P before) p v f with ⟨e, he⟩ | ⟨own, _, hg, hk, _, _, heq⟩
  · rw [he] at hok
    simp at hok
  · rw [heq] at hok ⊢
    simp only [Except.ok.injEq] at hok
    subst hok
    refine ⟨hk, _, rfl, rfl, hg, hg, ?_⟩
    intro later
    have hrun := run_key P later _ _
      (rfl : ({ s0.run P before with key := some (P.FillData
        (P.CreateAuthKey v (s0.run P before).randomPower ((s0.run P before).modulus p))) }
          : P2PCall).key = some _)
    refine ⟨hrun, ?_⟩
    intro p2 v2 f2
    obtain ⟨e, he⟩ := exchangeKeys_of_key P _ p2 v2 f2 _ hrun
    exact ⟨e, by rw [he]⟩

set_option maxRecDepth 100000 in
/-- C8, on a concrete sequence: after `init(5, 23, 6)` the call
`exchangeKeys(23, 19, 0)` returns the fingerprint 2 and the public value 8; after a
further `init` and `exchangeKeys` the key is the same and a third `exchangeKeys` throws. -/
theorem key_written_once_witness :
    ((P2PCall.fresh.run samplePrimitives [Call.init 5 [23] [6] none]).exchangeKeys
        samplePrimitives [23] [19] 0).1 = .ok { key_fingerprint := 2, g_a_or_b := [8] } ∧
    (P2PCall.fresh.run samplePrimitives [Call.init 5 [23] [6] none]).key = none ∧
    ((((P2PCall.fresh.run samplePrimitives [Call.init 5 [23] [6] none]).exchangeKeys
        samplePrimitives [23] [19] 0).2).run samplePrimitives
          [Call.init 5 [23] [15] none, Call.exchangeKeys [23] [4] 0]).key
      = some (specFillData 256 [2]) ∧
    ∃ e, (((((P2PCall.fresh.run samplePrimitives [Call.init 5 [23] [6] none]).exchangeKeys
        samplePrimitives [23] [19] 0).2).run samplePrimitives
          [Call.init 5 [23] [15] none, Call.exchangeKeys [23] [4] 0]).exchangeKeys
            samplePrimitives [23] [4] 0).1 = .error e :=
  have h := key_written_once samplePrimitives P2PCall.fresh [Call.init 5 [23] [6] none]
    [23] [19] 0 { key_fingerprint := 2, g_a_or_b := [8] } rfl
  ⟨rfl, h.1, rfl, ⟨_, rfl⟩⟩

/-! Theorems about `P2PCall::connect` and `Client::init`. -/

/-- C10: `P2PCall::connect` throws `ConnectionError` when a transport exists, and
without a transport throws `ConnectionNotFound` when `g_a_or_b` or `key` is
unset; both times the session is left as it was, so no transport and no
signaling channel is made. `Client::init(config)` throws `ConnectionError` when
a connection exists and leaves the client, its connection and its stream, as it
was. -/
theorem connect_guards (P : Primitives) (s : P2PCall) (servers : List RTCServer)
    (versions : List String) (waitConnection : Except Exception Unit) :
    (s.connection.isSome = true →
      s.connect P servers versions waitConnection
        = (.error (.ConnectionError "Connection already made"), s)) ∧
    (s.connection = none → (s.g_a_or_b = none ∨ s.key = none) →
      s.connect P servers versions waitConnection
        = (.error (.ConnectionNotFound "Connection not initialized"), s) ∧
      (s.connect P servers versions waitConnection).2.connection = none ∧
      (s.connect P servers versions waitConnection).2.signaling = s.signaling) ∧
    (∀ (StreamConfig : Type) (c : Client StreamConfig) (config : StreamConfig)
      (offer : GroupCallPayload), c.connection.isSome = true →
        c.init config offer = (.error (.ConnectionError "Connection already made"), c) ∧
        (c.init config offer).2.connection = c.connection ∧
        (c.init config offer).2.stream = c.stream) := by
  refine ⟨?_, ?_, ?_⟩
  · intro hc
    simp [P2PCall.connect, hc]
  · intro hc hn
    have heq : s.connect P servers versions waitConnection
        = (.error (.ConnectionNotFound "Connection not initialized"), s) := by
      unfold P2PCall.connect
      rcases hn with hg | hk
      · simp [hc, hg]
      · obtain hg0 | ⟨own, hg1⟩ := option_none_or_some s.g_a_or_b
        · simp [hc, hg0]
        · simp [hc, hg1, hk]
    rw [heq]
    exact ⟨rfl, hc, rfl⟩
  · intro StreamConfig c config offer hc
    have heq : c.init config offer
        = (.error (.ConnectionError "Connection already made"), c) := by
      simp [Client.init, hc]
    rw [heq]
    exact ⟨rfl, rfl, rfl⟩

set_option maxRecDepth 100000 in
/-- C10, on concrete sessions: a session with a transport gets `ConnectionError`; a
session initialised by `init(5, 23, 6)` that has no key gets `ConnectionNotFound` and
still has no transport and no signaling channel; a client that has a connection gets
`ConnectionError`. -/
theorem connect_guards_witness :
    ({ P2PCall.fresh with connection := some (PeerConnection.create []) }.connect
        samplePrimitives [] ["11.0.0"] (.ok ())).1
      = .error (.ConnectionError "Connection already made") ∧
    ((P2PCall.fresh.init samplePrimitives 5 [23] [6] none).2.connect
        samplePrimitives [] ["11.0.0"] (.ok ())).1
      = .error (.ConnectionNotFound "Connection not initialized") ∧
    ((P2PCall.fresh.init samplePrimitives 5 [23] [6] none).2.connect
        samplePrimitives [] ["11.0.0"] (.ok ())).2.connection = none ∧
    ((P2PCall.fresh.init samplePrimitives 5 [23] [6] none).2.connect
        samplePrimitives [] ["11.0.0"] (.ok ())).2.signaling = none ∧
    (({ connection := some { localDescription := none, remoteDescription := none },
        stream := none, audioSource := 0, sourceGroups := [] } : Client Nat).init 7
        { audioSource := 1, sourceGroups := [2], text := "offer" }).1
      = .error (.ConnectionError "Connection already made") :=
  have h1 := (connect_guards samplePrimitives
    { P2PCall.fresh with connection := some (PeerConnection.create []) }
    [] ["11.0.0"] (.ok ())).1 rfl
  have h2 := (connect_guards samplePrimitives
    (P2PCall.fresh.init samplePrimitives 5 [23] [6] none).2
    [] ["11.0.0"] (.ok ())).2.1 rfl (Or.inr rfl)
  have h3 := (connect_guards samplePrimitives P2PCall.fresh [] [] (.ok ())).2.2 Nat
    { connection := some { localDescription := none, remoteDescription := none },
      stream := none, audioSource := 0, sourceGroups := [] } 7
    { audioSource := 1, sourceGroups := [2], text := "offer" } rfl
  ⟨congrArg Prod.fst h1, congrArg Prod.fst h2.1, h2.2.1, h2.2.2, congrArg Prod.fst h3.1⟩

/-! Shared lemmas of the signaling negotiator. -/

theorem eqString_true {j : Json} {text : String} (h : j.eqString text = true) :
    j = Json.string text := by
  cases j <;> simp_all [Json.eqString]

theorem is_null_true {j : Json} (h : j.is_null = true) : j = Json.null := by
  cases j <;> simp_all [Json.is_null]

theorem eqString_candidate_of_offer_or_answer {j : Json}
    (h : j.eqString "offer" = true ∨ j.eqString "answer" = true) :
    j.eqString "candidate" = false := by
  rcases h with h | h <;> rw [eqString_true h] <;> simp [Json.eqString]

theorem eqString_of_is_null {j : Json} (h : j.is_null = true) (text : String) :
    j.eqString text = false := by
  rw [is_null_true h]; rfl

theorem getString_of_is_null {j : Json} (h : j.is_null = true) :
    j.getString = .error JsonException.type_error := by
  rw [is_null_true h]; rfl

theorem getInt_of_is_null {j : Json} (h : j.is_null = true) :
    j.getInt = .error JsonException.type_error := by
  rw [is_null_true h]; rfl

/-- Every outcome of `processSignalingData`: it throws and leaves the session as
it was, it drops the buffer, it hands a description to `applyRemoteSdp`, or it
takes the candidate of a well-formed candidate envelope. -/
theorem processSignalingData_cases (lib : JsonLibrary) (s : P2PCall) (buffer : String) :
    (wellFormedCandidate lib buffer = none ∧
      ((∃ e, s.processSignalingData lib buffer = (.error e, s)) ∨
        s.processSignalingData lib buffer = (.ok (), s) ∨
        ∃ sdpType sdp, s.processSignalingData lib buffer
          = (.ok (), s.applyRemoteSdp sdpType sdp))) ∨
    (∃ c, wellFormedCandidate lib buffer = some c ∧
      s.processSignalingData lib buffer = (.ok (), s.takeCandidate c)) := by
  unfold P2PCall.processSignalingData wellFormedCandidate
  cases hp : lib.parse buffer with
  | error e => exact Or.inl ⟨rfl, Or.inl ⟨e, rfl⟩⟩
  | ok data =>
    simp only []
    cases ht : data.get "@type" with
    | error e => exact Or.inl ⟨rfl, Or.inl ⟨e, rfl⟩⟩
    | ok ty =>
      simp only []
      by_cases hn : ty.is_null = true
      · left
        simp [hn, eqString_of_is_null hn]
      · by_cases ho : ty.eqString "offer" = true ∨ ty.eqString "answer" = true
        · left
          have hc := eqString_candidate_of_offer_or_answer ho
          refine ⟨by simp [hc], ?_⟩
          simp only [hn, ho]
          simp only [Bool.false_eq_true, if_false, if_true]
          cases hs : data.get "sdp" with
          | error e => exact Or.inl ⟨e, rfl⟩
          | ok jsonSdp =>
            simp only []
            split_ifs
            · exact Or.inr (Or.inl rfl)
            · exact Or.inr (Or.inl rfl)
            · cases h1 : ty.getString with
              | error e => exact Or.inl ⟨_, rfl⟩
              | ok typeText =>
                cases h2 : jsonSdp.getString with
                | error e => exact Or.inl ⟨_, rfl⟩
                | ok sdp => exact Or.inr (Or.inr ⟨_, _, rfl⟩)
        · by_cases hc : ty.eqString "candidate" = true
          · simp only [hn, ho, hc]
            simp only [Bool.false_eq_true, if_false, if_true]
            cases hm : data.get "mid" with
            | error e => exact Or.inl ⟨rfl, Or.inl ⟨_, rfl⟩⟩
            | ok jsonMid =>
              cases hl : data.get "mline" with
              | error e => exact Or.inl ⟨rfl, Or.inl ⟨_, rfl⟩⟩
              | ok jsonMLine =>
                cases hs : data.get "sdp" with
                | error e => exact Or.inl ⟨rfl, Or.inl ⟨_, rfl⟩⟩
                | ok jsonSdp =>
                  simp only []
                  by_cases n1 : jsonMid.is_null = true
                  · left
                    simp [n1, getString_of_is_null n1]
                  by_cases n2 : jsonMLine.is_null = true
                  · left
                    simp [n1, n2, getInt_of_is_null n2]
                  by_cases n3 : jsonSdp.is_null = true
                  · left
                    simp [n1, n2, n3, getString_of_is_null n3]
                  simp only [n1, n2, n3]
                  simp only [Bool.false_eq_true, if_false]
                  cases c1 : jsonMid.getString with
                  | error e => exact Or.inl ⟨rfl, Or.inl ⟨_, rfl⟩⟩
                  | ok mid =>
                    cases c2 : jsonMLine.getInt with
                    | error e => exact Or.inl ⟨rfl, Or.inl ⟨_, rfl⟩⟩
                    | ok mLine =>
                      cases c3 : jsonSdp.getString with
                      | error e => exact Or.inl ⟨rfl, Or.inl ⟨_, rfl⟩⟩
                      | ok sdp =>
                        right
                        refine ⟨{ mid := mid, mLine := mLine, sdp := sdp }, rfl, ?_⟩
                        unfold P2PCall.takeCandidate
                        split_ifs <;> rfl
          · left
            simp [hn, ho, hc]

theorem applyRemoteSdp_view (s : P2PCall) (c : PeerConnection) (sdpType : SdpType)
    (sdp : String) (hc : s.connection = some c)
    (hI : s.handshakeCompleted = true → s.pendingIceCandidates = []) :
    (s.applyRemoteSdp sdpType sdp).handshakeCompleted = true ∧
    (s.applyRemoteSdp sdpType sdp).pendingIceCandidates = [] ∧
    (s.applyRemoteSdp sdpType sdp).addedIceCandidates
      = s.addedIceCandidates ++ s.pendingIceCandidates ∧
    (s.applyRemoteSdp sdpType sdp).remoteDescriptions
      = s.remoteDescriptions ++ [{ type := sdpType, sdp := sdp }] ∧
    (s.applyRemoteSdp sdpType sdp).connection.isSome = true := by
  unfold P2PCall.applyRemoteSdp P2PCall.applyPendingIceCandidates
    P2PCall.addedIceCandidates P2PCall.remoteDescriptions
  by_cases hh : s.handshakeCompleted = true
  · have hp := hI hh
    simp [hc, hh, hp]
  · by_cases hp : s.pendingIceCandidates = []
    · simp [hc, hh, hp]
    · have hne : s.pendingIceCandidates.isEmpty = false := by
        cases hl : s.pendingIceCandidates with
        | nil => exact absurd hl hp
        | cons a t => rfl
      simp [hc, hh, hne]

theorem takeCandidate_view (s : P2PCall) (c : PeerConnection) (candidate : IceCandidate)
    (hc : s.connection = some c)
    (hI : s.handshakeCompleted = true → s.pendingIceCandidates = []) :
    (s.takeCandidate candidate).handshakeCompleted = s.handshakeCompleted ∧
    ((s.takeCandidate candidate).handshakeCompleted = true →
      (s.takeCandidate candidate).pendingIceCandidates = []) ∧
    (s.takeCandidate candidate).addedIceCandidates ++ (s.takeCandidate candidate).pendingIceCandidates
      = s.addedIceCandidates ++ s.pendingIceCandidates ++ [candidate] ∧
    ((s.takeCandidate candidate).handshakeCompleted = false →
      (s.takeCandidate candidate).addedIceCandidates = s.addedIceCandidates) ∧
    (s.takeCandidate candidate).remoteDescriptions = s.remoteDescriptions ∧
    (s.takeCandidate candidate).connection.isSome = true := by
  unfold P2PCall.takeCandidate P2PCall.addedIceCandidates P2PCall.remoteDescriptions
  by_cases hh : s.handshakeCompleted = true
  · have hp := hI hh
    simp [hc, hh, hp]
  · simp [hc, hh]


theorem sameCandidateView_refl (s : P2PCall) : s.sameCandidateView s :=
  ⟨rfl, rfl, rfl, rfl, rfl⟩

theorem sendLocalDescription_view (s : P2PCall) : s.sendLocalDescription.sameCandidateView s := by
  unfold P2PCall.sameCandidateView P2PCall.sendLocalDescription P2PCall.addedIceCandidates
    P2PCall.remoteDescriptions
  cases hc : s.connection <;> simp [hc]

theorem send_view (s : P2PCall) (text : String) : (s.send text).sameCandidateView s :=
  ⟨rfl, rfl, rfl, rfl, rfl⟩

theorem onRenegotiationNeeded_view (s : P2PCall) : s.onRenegotiationNeeded.sameCandidateView s := by
  unfold P2PCall.onRenegotiationNeeded
  split_ifs
  · exact sendLocalDescription_view s
  · exact sameCandidateView_refl s

theorem applyRemoteSdpTask_view (s : P2PCall) (sdpType : SdpType) :
    (s.applyRemoteSdpTask sdpType).sameCandidateView s := by
  unfold P2PCall.applyRemoteSdpTask
  split_ifs
  · exact sendLocalDescription_view { s with makingNegotation := true }
  · exact sameCandidateView_refl s

theorem sendLocalDescriptionTask_view (lib : JsonLibrary) (s : P2PCall) :
    (s.sendLocalDescriptionTask lib).sameCandidateView s := by
  unfold P2PCall.sendLocalDescriptionTask
  split
  · exact sameCandidateView_refl s
  · exact ⟨rfl, rfl, rfl, rfl, rfl⟩

/-- An event other than an inbound buffer changes neither the candidates handed
to the transport, nor the buffer, nor the handshake flag, nor the descriptions
handed to the transport. -/
theorem handle_other_view (lib : JsonLibrary) (s : P2PCall) (e : SignalingEvent)
    (he : ∀ buffer, e ≠ SignalingEvent.inbound buffer) :
    (s.handle lib e).sameCandidateView s := by
  cases e with
  | inbound buffer => exact absurd rfl (he buffer)
  | renegotiationNeeded => exact onRenegotiationNeeded_view s
  | iceCandidate candidate => exact send_view s _
  | remoteDescriptionApplied sdpType => exact applyRemoteSdpTask_view s sdpType
  | localDescriptionSet => exact sendLocalDescriptionTask_view lib s
  | transport signalingState localDescription =>
    unfold P2PCall.sameCandidateView P2PCall.handle P2PCall.addedIceCandidates
      P2PCall.remoteDescriptions
    cases hc : s.connection <;> simp [hc]

theorem receivedCandidates_other (lib : JsonLibrary) (e : SignalingEvent)
    (es : List SignalingEvent) (he : ∀ buffer, e ≠ SignalingEvent.inbound buffer) :
    receivedCandidates lib (e :: es) = receivedCandidates lib es := by
  cases e with
  | inbound buffer => exact absurd rfl (he buffer)
  | _ => rfl

/-- The invariant of the candidate buffer: there is a transport; once the
handshake flag is set the buffer is empty and a description has been handed to
the transport; before, no candidate has been handed to the transport. -/
theorem handle_invariant (lib : JsonLibrary) (s : P2PCall) (e : SignalingEvent)
    (hconn : s.connection.isSome = true)
    (hI : s.handshakeCompleted = true → s.pendingIceCandidates = [])
    (hJ : s.handshakeCompleted = true → s.remoteDescriptions ≠ [])
    (hK : s.handshakeCompleted = false → s.addedIceCandidates = []) :
    (s.handle lib e).connection.isSome = true ∧
    ((s.handle lib e).handshakeCompleted = true → (s.handle lib e).pendingIceCandidates = []) ∧
    ((s.handle lib e).handshakeCompleted = true → (s.handle lib e).remoteDescriptions ≠ []) ∧
    ((s.handle lib e).handshakeCompleted = false → (s.handle lib e).addedIceCandidates = []) ∧
    (s.handshakeCompleted = true → (s.handle lib e).handshakeCompleted = true) ∧
    (s.handle lib e).addedIceCandidates ++ (s.handle lib e).pendingIceCandidates
      = s.addedIceCandidates ++ s.pendingIceCandidates ++ receivedCandidates lib [e] := by
  obtain hn | ⟨c, hc⟩ := option_none_or_some s.connection
  · simp [hn] at hconn
  by_cases hin : ∃ buffer, e = SignalingEvent.inbound buffer
  · obtain ⟨buffer, rfl⟩ := hin
    show (s.processSignalingData lib buffer).2.connection.isSome = true ∧ _
    simp only [P2PCall.handle]
    rcases processSignalingData_cases lib s buffer with
      ⟨hw, ⟨e2, h⟩ | h | ⟨ty, sdp, h⟩⟩ | ⟨cand, hw, h⟩
    · rw [h]; simp only [receivedCandidates, hw]
      exact ⟨hconn, hI, hJ, hK, fun x => x, by simp⟩
    · rw [h]; simp only [receivedCandidates, hw]
      exact ⟨hconn, hI, hJ, hK, fun x => x, by simp⟩
    · rw [h]; simp only [receivedCandidates, hw]
      obtain ⟨v1, v2, v3, v4, v5⟩ := applyRemoteSdp_view s c ty sdp hc hI
      refine ⟨v5, fun _ => v2, ?_, ?_, fun _ => v1, ?_⟩
      · intro _; rw [v4]; simp
      · intro hf; rw [v1] at hf; simp at hf
      · rw [v2, v3]
    · rw [h]; simp only [receivedCandidates, hw]
      obtain ⟨v1, v2, v3, v4, v5, v6⟩ := takeCandidate_view s c cand hc hI
      refine ⟨v6, v2, ?_, ?_, ?_, v3⟩
      · intro hf; rw [v5]; rw [v1] at hf; exact hJ hf
      · intro hf; rw [v4 hf]; rw [v1] at hf; exact hK hf
      · intro hf; rw [v1]; exact hf
  · have he : ∀ buffer, e ≠ SignalingEvent.inbound buffer := fun b hb => hin ⟨b, hb⟩
    obtain ⟨v1, v2, v3, v4, v5⟩ := handle_other_view lib s e he
    rw [v1, v2, v3, v4, v5, receivedCandidates_other lib e [] he]
    exact ⟨hconn, hI, hJ, hK, fun x => x, by simp [receivedCandidates]⟩

theorem handleAll_invariant (lib : JsonLibrary) (events : List SignalingEvent) :
    ∀ (s : P2PCall), s.connection.isSome = true →
    (s.handshakeCompleted = true → s.pendingIceCandidates = []) →
    (s.handshakeCompleted = true → s.remoteDescriptions ≠ []) →
    (s.handshakeCompleted = false → s.addedIceCandidates = []) →
    (s.handleAll lib events).connection.isSome = true ∧
    ((s.handleAll lib events).handshakeCompleted = true →
      (s.handleAll lib events).pendingIceCandidates = []) ∧
    ((s.handleAll lib events).handshakeCompleted = true →
      (s.handleAll lib events).remoteDescriptions ≠ []) ∧
    ((s.handleAll lib events).handshakeCompleted = false →
      (s.handleAll lib events).addedIceCandidates = []) ∧
    (s.handshakeCompleted = true → (s.handleAll lib events).handshakeCompleted = true) ∧
    (s.handleAll lib events).addedIceCandidates ++ (s.handleAll lib events).pendingIceCandidates
      = s.addedIceCandidates ++ s.pendingIceCandidates ++ receivedCandidates lib events := by
  induction events with
  | nil =>
    intro s hconn hI hJ hK
    exact ⟨hconn, hI, hJ, hK, fun x => x, by simp [P2PCall.handleAll, receivedCandidates]⟩
  | cons e es ih =>
    intro s hconn hI hJ hK
    obtain ⟨a1, a2, a3, a4, a5, a6⟩ := handle_invariant lib s e hconn hI hJ hK
    obtain ⟨b1, b2, b3, b4, b5, b6⟩ := ih (s.handle lib e) a1 a2 a3 a4
    have hcons : P2PCall.handleAll lib s (e :: es) = P2PCall.handleAll lib (s.handle lib e) es :=
      rfl
    rw [hcons]
    refine ⟨b1, b2, b3, b4, fun hf => b5 (a5 hf), ?_⟩
    rw [b6, a6]
    have hsplit : receivedCandidates lib (e :: es)
        = receivedCandidates lib [e] ++ receivedCandidates lib es := by
      cases e with
      | inbound buffer =>
        simp only [receivedCandidates]
        cases wellFormedCandidate lib buffer <;> simp
      | _ => simp [receivedCandidates]
    rw [hsplit]
    simp

theorem wrapInt32_of_isInt32 (n : Int) (h : isInt32 n) : wrapInt32 n = n := by
  unfold isInt32 at h
  unfold wrapInt32
  have h1 : (2 : Int) ^ 31 = 2147483648 := by norm_num
  have h2 : (2 : Int) ^ 32 = 4294967296 := by norm_num
  rw [h1] at h
  rw [h1, h2]
  omega

theorem wellFormedCandidate_envelope (lib : JsonLibrary) (candidate : IceCandidate)
    (hrt : lib.parse (lib.to_string (candidateEnvelope candidate))
      = .ok (candidateEnvelope candidate))
    (hint : isInt32 candidate.mLine) :
    wellFormedCandidate lib (lib.to_string (candidateEnvelope candidate)) = some candidate := by
  unfold wellFormedCandidate
  rw [hrt]
  simp [candidateEnvelope, Json.get, fieldOf, List.lookup, Json.eqString, Json.getString,
    Json.getInt, wrapInt32_of_isInt32 _ hint]

/-! Theorems about `P2PCall::processSignalingData`. -/

/-- C11: on a session in the Outgoing role, an inbound envelope whose `@type` is
`"offer"`, received while `isMakingOffer` is true or while the transport's
signaling state is not `Stable`, is dropped: `processSignalingData` returns
normally and leaves the whole session as it was, so nothing is handed to
`setRemoteDescription`, `handshakeCompleted` and `pendingIceCandidates` are
unchanged, the transport is asked for no local description and nothing is sent
on the signaling channel. -/
theorem inbound_offer_glare (lib : JsonLibrary) (s : P2PCall) (buffer : String)
    (fields : List (String × Json))
    (hparse : lib.parse buffer = .ok (Json.object fields))
    (htype : fieldOf fields "@type" = Json.string "offer")
    (hrole : s.type = CallType.Outgoing)
    (hbusy : s.isMakingOffer = true ∨ s.signalingState ≠ SignalingState.Stable) :
    (s.processSignalingData lib buffer).1 = .ok () ∧
    (s.processSignalingData lib buffer).2 = s ∧
    (s.processSignalingData lib buffer).2.remoteDescriptions = s.remoteDescriptions ∧
    (s.processSignalingData lib buffer).2.handshakeCompleted = s.handshakeCompleted ∧
    (s.processSignalingData lib buffer).2.pendingIceCandidates = s.pendingIceCandidates ∧
    (s.processSignalingData lib buffer).2.connection = s.connection ∧
    (s.processSignalingData lib buffer).2.isMakingOffer = s.isMakingOffer ∧
    (s.processSignalingData lib buffer).2.signaling = s.signaling := by
  have heq : s.processSignalingData lib buffer = (.ok (), s) := by
    unfold P2PCall.processSignalingData
    simp only [hparse, Json.get, htype, Json.is_null, Json.eqString]
    simp only [hrole, hbusy]
    simp
  rw [heq]
  exact ⟨rfl, rfl, rfl, rfl, rfl, rfl, rfl, rfl⟩

set_option maxRecDepth 100000 in
/-- C11, on a concrete session: the connected Outgoing session has its own offer in
flight, and an inbound offer leaves it exactly as it was. -/
theorem inbound_offer_glare_witness :
    sampleOutgoing.type = CallType.Outgoing ∧ sampleOutgoing.isMakingOffer = true ∧
    (sampleOutgoing.processSignalingData sampleJson
      (sampleJson.to_string (descriptionEnvelope { type := SdpType.Offer, sdp := "v=0" }))).1
        = .ok () ∧
    (sampleOutgoing.processSignalingData sampleJson
      (sampleJson.to_string (descriptionEnvelope { type := SdpType.Offer, sdp := "v=0" }))).2
        = sampleOutgoing :=
  have h := inbound_offer_glare sampleJson sampleOutgoing
    (sampleJson.to_string (descriptionEnvelope { type := SdpType.Offer, sdp := "v=0" }))
    [("@type", Json.string "offer"), ("sdp", Json.string "v=0")] rfl rfl rfl (Or.inl rfl)
  ⟨rfl, rfl, h.1, h.2.1⟩

/-- C16: for a buffer that parses to a JSON object with no `@type` or a null
one, with an `@type` other than `"offer"`, `"answer"` and `"candidate"`, with
the type offer or answer and no (or a null) `sdp`, or with the type candidate
and no (or a null) `mid`, `mline` or `sdp`, `processSignalingData` returns
normally and leaves the whole session as it was: nothing goes to
`setRemoteDescription` or `addIceCandidate`, nothing is sent, and
`handshakeCompleted` and `pendingIceCandidates` are unchanged. -/
theorem malformed_envelope_dropped (lib : JsonLibrary) (s : P2PCall) (buffer : String)
    (fields : List (String × Json))
    (hparse : lib.parse buffer = .ok (Json.object fields))
    (hdrop : (fieldOf fields "@type").is_null = true ∨
      ((fieldOf fields "@type").eqString "offer" = false ∧
        (fieldOf fields "@type").eqString "answer" = false ∧
        (fieldOf fields "@type").eqString "candidate" = false) ∨
      (((fieldOf fields "@type").eqString "offer" = true ∨
          (fieldOf fields "@type").eqString "answer" = true) ∧
        (fieldOf fields "sdp").is_null = true) ∨
      ((fieldOf fields "@type").eqString "candidate" = true ∧
        ((fieldOf fields "mid").is_null = true ∨ (fieldOf fields "mline").is_null = true ∨
          (fieldOf fields "sdp").is_null = true))) :
    (s.processSignalingData lib buffer).1 = .ok () ∧
    (s.processSignalingData lib buffer).2 = s ∧
    (s.processSignalingData lib buffer).2.remoteDescriptions = s.remoteDescriptions ∧
    (s.processSignalingData lib buffer).2.addedIceCandidates = s.addedIceCandidates ∧
    (s.processSignalingData lib buffer).2.signaling = s.signaling ∧
    (s.processSignalingData lib buffer).2.handshakeCompleted = s.handshakeCompleted ∧
    (s.processSignalingData lib buffer).2.pendingIceCandidates = s.pendingIceCandidates := by
  have heq : s.processSignalingData lib buffer = (.ok (), s) := by
    unfold P2PCall.processSignalingData
    simp only [hparse, Json.get]
    rcases hdrop with h | ⟨h1, h2, h3⟩ | ⟨h1, h2⟩ | ⟨h1, h2⟩
    · simp [h]
    · simp [h1, h2, h3]
    · have hn : (fieldOf fields "@type").is_null = false := by
        rcases h1 with h1 | h1 <;> rw [eqString_true h1] <;> rfl
      simp [hn, h1, h2]
    · have ht := eqString_true h1
      rw [ht]
      have hn : (Json.string "candidate").is_null = false := rfl
      rcases h2 with h2 | h2 | h2 <;> simp [hn, Json.eqString, h2]
  rw [heq]
  exact ⟨rfl, rfl, rfl, rfl, rfl, rfl, rfl⟩


set_option maxRecDepth 100000 in
/-- C16, on a concrete session: a candidate envelope without `mline` and an
envelope of the unknown type `"bye"` leave the connected Incoming session as it was. -/
theorem malformed_envelope_dropped_witness :
    (sampleIncoming.processSignalingData sampleJson
      (sampleJson.to_string (Json.object [("@type", Json.string "candidate"),
        ("mid", Json.string "0"), ("sdp", Json.string "candidate:1 1 udp")]))).1 = .ok () ∧
    (sampleIncoming.processSignalingData sampleJson
      (sampleJson.to_string (Json.object [("@type", Json.string "candidate"),
        ("mid", Json.string "0"), ("sdp", Json.string "candidate:1 1 udp")]))).2
          = sampleIncoming ∧
    (sampleIncoming.processSignalingData sampleJson
      (sampleJson.to_string (Json.object [("@type", Json.string "bye")]))).2
          = sampleIncoming :=
  have h1 := malformed_envelope_dropped sampleJson sampleIncoming
    (sampleJson.to_string (Json.object [("@type", Json.string "candidate"),
        ("mid", Json.string "0"), ("sdp", Json.string "candidate:1 1 udp")]))
    [("@type", Json.string "candidate"), ("mid", Json.string "0"),
      ("sdp", Json.string "candidate:1 1 udp")] rfl
    (Or.inr (Or.inr (Or.inr ⟨rfl, Or.inr (Or.inl rfl)⟩)))
  have h2 := malformed_envelope_dropped sampleJson sampleIncoming
    (sampleJson.to_string (Json.object [("@type", Json.string "bye")]))
    [("@type", Json.string "bye")] rfl (Or.inr (Or.inl ⟨rfl, rfl, rfl⟩))
  ⟨h1.1, h1.2.1, h2.2.1⟩

/-- C15, as the code has it: `processSignalingData` has no handler for the
exceptions of the JSON library. A buffer that is not valid JSON makes it throw
the parse error; a buffer that parses to a value that is neither an object nor
null makes it throw a type error; so does an offer or answer, not dropped by
the glare test, whose `sdp` is present and not a string, and a candidate whose
`mid`, `mline` and `sdp` are present and one of which does not convert. Whenever
it throws, the session is left as it was. It returns normally for a buffer that
parses to null, or to an object whose `sdp` (type offer or answer) is missing,
null or a string and whose `mid`, `mline`, `sdp` (type candidate) are, unless
one is missing or null, a string, a number or boolean, and a string; and for an
offer that a session in the Outgoing role drops by the glare test, whatever its
`sdp`, with the session left as it was. -/
theorem processSignalingData_raises (lib : JsonLibrary) (s : P2PCall) (buffer : String) :
    (∀ e, lib.parse buffer = .error e → s.processSignalingData lib buffer = (.error e, s)) ∧
    (∀ data, lib.parse buffer = .ok data → data.get "@type" = .error JsonException.type_error →
      s.processSignalingData lib buffer = (.error JsonException.type_error, s)) ∧
    (∀ fields, lib.parse buffer = .ok (Json.object fields) →
      ((fieldOf fields "@type").eqString "offer" = true ∨
        (fieldOf fields "@type").eqString "answer" = true) →
      (fieldOf fields "sdp").is_null = false →
      ¬ (s.type = CallType.Outgoing ∧ (fieldOf fields "@type").eqString "offer" = true ∧
        (s.isMakingOffer = true ∨ s.signalingState ≠ SignalingState.Stable)) →
      (fieldOf fields "sdp").getString = .error JsonException.type_error →
      s.processSignalingData lib buffer = (.error JsonException.type_error, s)) ∧
    (∀ fields, lib.parse buffer = .ok (Json.object fields) →
      (fieldOf fields "@type").eqString "candidate" = true →
      (fieldOf fields "mid").is_null = false → (fieldOf fields "mline").is_null = false →
      (fieldOf fields "sdp").is_null = false →
      ((fieldOf fields "mid").getString = .error JsonException.type_error ∨
        (fieldOf fields "mline").getInt = .error JsonException.type_error ∨
        (fieldOf fields "sdp").getString = .error JsonException.type_error) →
      s.processSignalingData lib buffer = (.error JsonException.type_error, s)) ∧
    (∀ e, (s.processSignalingData lib buffer).1 = .error e →
      (s.processSignalingData lib buffer).2 = s) ∧
    (lib.parse buffer = .ok Json.null → s.processSignalingData lib buffer = (.ok (), s)) ∧
    (∀ fields, lib.parse buffer = .ok (Json.object fields) →
      (((fieldOf fields "@type").eqString "offer" = true ∨
          (fieldOf fields "@type").eqString "answer" = true) →
        (fieldOf fields "sdp").is_null = true ∨ ∃ sdp, fieldOf fields "sdp" = Json.string sdp) →
      ((fieldOf fields "@type").eqString "candidate" = true →
        (fieldOf fields "mid").is_null = true ∨ (fieldOf fields "mline").is_null = true ∨
        (fieldOf fields "sdp").is_null = true ∨
        ((∃ mid, (fieldOf fields "mid").getString = .ok mid) ∧
          (∃ mLine, (fieldOf fields "mline").getInt = .ok mLine) ∧
          (∃ sdp, (fieldOf fields "sdp").getString = .ok sdp))) →
      (s.processSignalingData lib buffer).1 = .ok ()) ∧
    (∀ fields, lib.parse buffer = .ok (Json.object fields) →
      (fieldOf fields "@type").eqString "offer" = true →
      s.type = CallType.Outgoing →
      (s.isMakingOffer = true ∨ s.signalingState ≠ SignalingState.Stable) →
      s.processSignalingData lib buffer = (.ok (), s)) := by
  refine ⟨?_, ?_, ?_, ?_, ?_, ?_, ?_, ?_⟩
  · intro e he
    simp [P2PCall.processSignalingData, he]
  · intro data hd hg
    simp [P2PCall.processSignalingData, hd, hg]
  · intro fields hp hty hnull hglare hconv
    have hn : (fieldOf fields "@type").is_null = false := by
      rcases hty with h | h <;> rw [eqString_true h] <;> rfl
    unfold P2PCall.processSignalingData
    simp only [hp, Json.get, hn, hty, hnull, hconv]
    simp only [Bool.false_eq_true, if_false, if_true]
    rw [if_neg hglare]
    split <;> simp_all
  · intro fields hp hty h1 h2 h3 hconv
    have hn : (fieldOf fields "@type").is_null = false := by
      rw [eqString_true hty]; rfl
    have ho : (fieldOf fields "@type").eqString "offer" = false := by
      rw [eqString_true hty]; simp [Json.eqString]
    have ha : (fieldOf fields "@type").eqString "answer" = false := by
      rw [eqString_true hty]; simp [Json.eqString]
    unfold P2PCall.processSignalingData
    simp only [hp, Json.get, hn, ho, ha, hty, h1, h2, h3]
    simp only [Bool.false_eq_true, if_false, if_true, or_self]
    split
    · rename_i c1 c2 c3
      rcases hconv with h | h | h <;> simp_all
    · rfl
  · intro e he
    rcases processSignalingData_cases lib s buffer with ⟨_, ⟨e2, h⟩ | h | ⟨ty, sdp, h⟩⟩ | ⟨c, _, h⟩
    · rw [h]
    · rw [h]
    · rw [h] at he; simp at he
    · rw [h] at he; simp at he
  · intro hp
    simp [P2PCall.processSignalingData, hp, Json.get, Json.is_null]
  · intro fields hp hdesc hcand
    unfold P2PCall.processSignalingData
    simp only [hp, Json.get]
    by_cases hn : (fieldOf fields "@type").is_null = true
    · simp [hn]
    by_cases ho : (fieldOf fields "@type").eqString "offer" = true ∨
        (fieldOf fields "@type").eqString "answer" = true
    · simp only [hn, ho]
      simp only [Bool.false_eq_true, if_false, if_true]
      rcases hdesc ho with h | ⟨sdp, h⟩
      · simp [h]
      · have hts : ∃ t, fieldOf fields "@type" = Json.string t := by
          rcases ho with h2 | h2
          · exact ⟨_, eqString_true h2⟩
          · exact ⟨_, eqString_true h2⟩
        obtain ⟨t, ht⟩ := hts
        rw [h, ht]
        simp only [Json.is_null, Json.getString]
        split_ifs <;> rfl
    · by_cases hc : (fieldOf fields "@type").eqString "candidate" = true
      · have ho1 : (fieldOf fields "@type").eqString "offer" = false := by
          rw [eqString_true hc]; simp [Json.eqString]
        have ho2 : (fieldOf fields "@type").eqString "answer" = false := by
          rw [eqString_true hc]; simp [Json.eqString]
        simp only [hn, ho1, ho2, hc]
        simp only [Bool.false_eq_true, if_false, if_true, or_self]
        rcases hcand hc with h | h | h | ⟨⟨mid, h1⟩, ⟨mLine, h2⟩, ⟨sdp, h3⟩⟩
        · simp [h]
        · simp [h]
        · simp [h]
        · rw [h1, h2, h3]
          simp only []
          split_ifs <;> rfl
      · simp [hn, ho, hc]
  · intro fields hp hty hrole hbusy
    have hn : (fieldOf fields "@type").is_null = false := by
      rw [eqString_true hty]; rfl
    unfold P2PCall.processSignalingData
    simp only [hp, Json.get, hn, hty]
    simp only [hrole, hbusy]
    simp

set_option maxRecDepth 100000 in
/-- C15, on concrete sessions: the text `not json` makes the call throw the parse
error and changes nothing; a well-formed answer envelope is processed normally;
the connected Outgoing session, with its own offer in flight, drops an offer
whose `sdp` is the number 5 without throwing. -/
theorem processSignalingData_raises_witness :
    sampleIncoming.processSignalingData sampleJson "not json"
      = (.error JsonException.parse_error, sampleIncoming) ∧
    (sampleIncoming.processSignalingData sampleJson "not json").2 = sampleIncoming ∧
    (sampleIncoming.processSignalingData sampleJson
      (sampleJson.to_string (descriptionEnvelope { type := SdpType.Answer, sdp := "v=0" }))).1
        = .ok () ∧
    sampleOutgoing.processSignalingData sampleJson
      (sampleJson.to_string (Json.object [("@type", Json.string "offer"),
        ("sdp", Json.number 5)])) = (.ok (), sampleOutgoing) :=
  have h := processSignalingData_raises sampleJson sampleIncoming "not json"
  have h2 := processSignalingData_raises sampleJson sampleIncoming
    (sampleJson.to_string (descriptionEnvelope { type := SdpType.Answer, sdp := "v=0" }))
  have h3 := processSignalingData_raises sampleJson sampleOutgoing
    (sampleJson.to_string (Json.object [("@type", Json.string "offer"),
      ("sdp", Json.number 5)]))
  ⟨h.1 JsonException.parse_error rfl,
    h.2.2.2.2.1 JsonException.parse_error rfl,
    h2.2.2.2.2.2.2.1 [("@type", Json.string "answer"), ("sdp", Json.string "v=0")] rfl
      (fun _ => Or.inr ⟨"v=0", rfl⟩) (fun hc => absurd hc (by decide)),
    h3.2.2.2.2.2.2.2 [("@type", Json.string "offer"), ("sdp", Json.number 5)] rfl rfl rfl
      (Or.inl rfl)⟩

set_option maxRecDepth 100000 in
/-- C15 as stated fails: on the connected Incoming session the text `not json`, the
array `[1]`, an answer whose `sdp` is the number 5 and a candidate whose `mid` is the
number 7 each make `processSignalingData` throw instead of being dropped. -/
theorem processSignalingData_raises_counterexample :
    (sampleIncoming.processSignalingData sampleJson "not json").1
      = .error JsonException.parse_error ∧
    (sampleIncoming.processSignalingData sampleJson "[1]").1
      = .error JsonException.type_error ∧
    (sampleIncoming.processSignalingData sampleJson
      (sampleJson.to_string (Json.object [("@type", Json.string "answer"),
        ("sdp", Json.number 5)]))).1 = .error JsonException.type_error ∧
    (sampleIncoming.processSignalingData sampleJson
      (sampleJson.to_string (Json.object [("@type", Json.string "candidate"),
        ("mid", Json.number 7), ("mline", Json.number 0),
        ("sdp", Json.string "candidate:1 1 udp")]))).1 = .error JsonException.type_error := by
  refine ⟨rfl, rfl, rfl, rfl⟩

/-- C12, as the code has it: start from a session that has a transport, has not
completed the handshake and has handed over and buffered no candidate. After
every sequence of events (inbound buffers, callbacks of the transport, posted
tasks), the candidates handed to `addIceCandidate` followed by
`pendingIceCandidates` are the well-formed candidate envelopes received, in
arrival order; a candidate has been handed to the transport only if a
description has been handed to `setRemoteDescription`, whether or not the
transport has applied it; and once `handshakeCompleted` is true the buffer is
empty and stays empty, with the flag still set, whatever events follow. -/
theorem candidates_in_arrival_order (lib : JsonLibrary) (s : P2PCall)
    (events : List SignalingEvent)
    (hconn : s.connection.isSome = true) (hhc : s.handshakeCompleted = false)
    (hadd : s.addedIceCandidates = []) (hpend : s.pendingIceCandidates = []) :
    (s.handleAll lib events).addedIceCandidates ++ (s.handleAll lib events).pendingIceCandidates
      = receivedCandidates lib events ∧
    ((s.handleAll lib events).addedIceCandidates ≠ [] →
      (s.handleAll lib events).remoteDescriptions ≠ []) ∧
    ((s.handleAll lib events).handshakeCompleted = true →
      (s.handleAll lib events).pendingIceCandidates = [] ∧
      ∀ more : List SignalingEvent,
        ((s.handleAll lib events).handleAll lib more).handshakeCompleted = true ∧
        ((s.handleAll lib events).handleAll lib more).pendingIceCandidates = []) := by
  have hI : s.handshakeCompleted = true → s.pendingIceCandidates = [] := fun _ => hpend
  have hJ : s.handshakeCompleted = true → s.remoteDescriptions ≠ [] := by
    intro h; rw [hhc] at h; simp at h
  have hK : s.handshakeCompleted = false → s.addedIceCandidates = [] := fun _ => hadd
  obtain ⟨a1, a2, a3, a4, _, a6⟩ := handleAll_invariant lib events s hconn hI hJ hK
  refine ⟨?_, ?_, ?_⟩
  · rw [a6, hadd, hpend]; simp
  · intro hne
    by_cases hf : (s.handleAll lib events).handshakeCompleted = true
    · exact a3 hf
    · have hf2 : (s.handleAll lib events).handshakeCompleted = false := by
        cases hv : (s.handleAll lib events).handshakeCompleted
        · rfl
        · exact absurd hv hf
      exact absurd (a4 hf2) hne
  · intro hf
    refine ⟨a2 hf, ?_⟩
    intro more
    obtain ⟨_, b2, _, _, b5, _⟩ :=
      handleAll_invariant lib more (s.handleAll lib events) a1 a2 a3 a4
    exact ⟨b5 hf, b2 (b5 hf)⟩

set_option maxRecDepth 100000 in
/-- C12, on a concrete session: the connected Incoming session receives two
candidates, which are buffered, then an answer, which flushes them in order, then a
third candidate, which goes to the transport directly. -/
theorem candidates_in_arrival_order_witness :
    (sampleIncoming.handleAll sampleJson
      [SignalingEvent.inbound (sampleJson.to_string
          (candidateEnvelope { mid := "0", mLine := 0, sdp := "candidate:1" })),
        SignalingEvent.inbound (sampleJson.to_string
          (candidateEnvelope { mid := "0", mLine := 0, sdp := "candidate:2" }))]).pendingIceCandidates
      = [{ mid := "0", mLine := 0, sdp := "candidate:1" },
          { mid := "0", mLine := 0, sdp := "candidate:2" }] ∧
    (sampleIncoming.handleAll sampleJson
      [SignalingEvent.inbound (sampleJson.to_string
          (candidateEnvelope { mid := "0", mLine := 0, sdp := "candidate:1" })),
        SignalingEvent.inbound (sampleJson.to_string
          (candidateEnvelope { mid := "0", mLine := 0, sdp := "candidate:2" })),
        SignalingEvent.inbound (sampleJson.to_string
          (descriptionEnvelope { type := SdpType.Answer, sdp := "v=0" })),
        SignalingEvent.inbound (sampleJson.to_string
          (candidateEnvelope { mid := "1", mLine := 1, sdp := "candidate:3" }))]).addedIceCandidates
      = [{ mid := "0", mLine := 0, sdp := "candidate:1" },
          { mid := "0", mLine := 0, sdp := "candidate:2" },
          { mid := "1", mLine := 1, sdp := "candidate:3" }] ∧
    (sampleIncoming.handleAll sampleJson
      [SignalingEvent.inbound (sampleJson.to_string
          (candidateEnvelope { mid := "0", mLine := 0, sdp := "candidate:1" })),
        SignalingEvent.inbound (sampleJson.to_string
          (candidateEnvelope { mid := "0", mLine := 0, sdp := "candidate:2" })),
        SignalingEvent.inbound (sampleJson.to_string
          (descriptionEnvelope { type := SdpType.Answer, sdp := "v=0" })),
        SignalingEvent.inbound (sampleJson.to_string
          (candidateEnvelope { mid := "1", mLine := 1, sdp := "candidate:3" }))]).pendingIceCandidates
      = [] :=
  have h := candidates_in_arrival_order sampleJson sampleIncoming
      [SignalingEvent.inbound (sampleJson.to_string
          (candidateEnvelope { mid := "0", mLine := 0, sdp := "candidate:1" })),
        SignalingEvent.inbound (sampleJson.to_string
          (candidateEnvelope { mid := "0", mLine := 0, sdp := "candidate:2" })),
        SignalingEvent.inbound (sampleJson.to_string
          (descriptionEnvelope { type := SdpType.Answer, sdp := "v=0" })),
        SignalingEvent.inbound (sampleJson.to_string
          (candidateEnvelope { mid := "1", mLine := 1, sdp := "candidate:3" }))]
      rfl rfl rfl rfl
  ⟨rfl, rfl, (h.2.2 rfl).1⟩

set_option maxRecDepth 100000 in
/-- C12 as stated fails: the connected Incoming session receives an offer and then
a candidate. The candidate is handed to the transport although the transport
has not applied the offer: among the events there is no success callback of
`setRemoteDescription`. -/
theorem candidates_in_arrival_order_counterexample :
    ¬ (∀ events : List SignalingEvent,
        (sampleIncoming.handleAll sampleJson events).addedIceCandidates ≠ [] →
        ∃ sdpType, SignalingEvent.remoteDescriptionApplied sdpType ∈ events) := by
  intro h
  have hadded : (sampleIncoming.handleAll sampleJson
      [SignalingEvent.inbound (sampleJson.to_string
          (descriptionEnvelope { type := SdpType.Offer, sdp := "v=0" })),
        SignalingEvent.inbound (sampleJson.to_string
          (candidateEnvelope { mid := "0", mLine := 0, sdp := "candidate:1" }))]).addedIceCandidates
      = [{ mid := "0", mLine := 0, sdp := "candidate:1" }] := rfl
  obtain ⟨sdpType, hmem⟩ := h _ (by rw [hadded]; simp)
  simp at hmem

/-- C13, as the code has it: `applyRemoteSdp` sets `handshakeCompleted` and
flushes the buffered candidates to the transport, in order, as soon as it has
handed the description to `setRemoteDescription`, without waiting for the
transport to apply it; the task of the success callback, which runs only when
the transport has applied the description, changes neither the flag nor the
buffer nor the candidates handed over. -/
theorem handshake_on_first_remote_description (s : P2PCall) (c : PeerConnection)
    (sdpType : SdpType) (sdp : String) (hc : s.connection = some c)
    (hI : s.handshakeCompleted = true → s.pendingIceCandidates = []) :
    (s.applyRemoteSdp sdpType sdp).remoteDescriptions
      = s.remoteDescriptions ++ [{ type := sdpType, sdp := sdp }] ∧
    (s.applyRemoteSdp sdpType sdp).handshakeCompleted = true ∧
    (s.applyRemoteSdp sdpType sdp).pendingIceCandidates = [] ∧
    (s.applyRemoteSdp sdpType sdp).addedIceCandidates
      = s.addedIceCandidates ++ s.pendingIceCandidates ∧
    (∀ (t : P2PCall) (applied : SdpType),
      (t.applyRemoteSdpTask applied).handshakeCompleted = t.handshakeCompleted ∧
      (t.applyRemoteSdpTask applied).pendingIceCandidates = t.pendingIceCandidates ∧
      (t.applyRemoteSdpTask applied).addedIceCandidates = t.addedIceCandidates) := by
  obtain ⟨v1, v2, v3, v4, _⟩ := applyRemoteSdp_view s c sdpType sdp hc hI
  refine ⟨v4, v1, v2, v3, ?_⟩
  intro t applied
  obtain ⟨w1, w2, w3, _, _⟩ := applyRemoteSdpTask_view t applied
  exact ⟨w1, w2, w3⟩

set_option maxRecDepth 100000 in
/-- C13, on a concrete session: on the connected Incoming session with one
buffered candidate, `applyRemoteSdp` sets the flag and hands the candidate over. -/
theorem handshake_on_first_remote_description_witness :
    ((sampleIncoming.takeCandidate { mid := "0", mLine := 0, sdp := "candidate:1" }).applyRemoteSdp
        SdpType.Offer "v=0").handshakeCompleted = true ∧
    ((sampleIncoming.takeCandidate { mid := "0", mLine := 0, sdp := "candidate:1" }).applyRemoteSdp
        SdpType.Offer "v=0").pendingIceCandidates = [] ∧
    ((sampleIncoming.takeCandidate { mid := "0", mLine := 0, sdp := "candidate:1" }).applyRemoteSdp
        SdpType.Offer "v=0").addedIceCandidates
      = [{ mid := "0", mLine := 0, sdp := "candidate:1" }] :=
  have h := handshake_on_first_remote_description
    (sampleIncoming.takeCandidate { mid := "0", mLine := 0, sdp := "candidate:1" })
    { PeerConnection.create [] with tracksAdded := true } SdpType.Offer "v=0" rfl
    (fun hf => absurd hf (by decide))
  ⟨h.2.1, h.2.2.1, h.2.2.2.1⟩

set_option maxRecDepth 100000 in
/-- C13 as stated fails: the connected Incoming session receives a candidate and
then an offer, and no event reports that the transport applied the offer (the
sequence has no `remoteDescriptionApplied`); all the same `handshakeCompleted` is
true, the buffer is empty and the candidate has been handed to the transport. -/
theorem handshake_on_first_remote_description_counterexample :
    (sampleIncoming.handleAll sampleJson
      [SignalingEvent.inbound (sampleJson.to_string
          (candidateEnvelope { mid := "0", mLine := 0, sdp := "candidate:1" }))]).pendingIceCandidates
      = [{ mid := "0", mLine := 0, sdp := "candidate:1" }] ∧
    (sampleIncoming.handleAll sampleJson
      [SignalingEvent.inbound (sampleJson.to_string
          (candidateEnvelope { mid := "0", mLine := 0, sdp := "candidate:1" })),
        SignalingEvent.inbound (sampleJson.to_string
          (descriptionEnvelope { type := SdpType.Offer, sdp := "v=0" }))]).handshakeCompleted
      = true ∧
    (sampleIncoming.handleAll sampleJson
      [SignalingEvent.inbound (sampleJson.to_string
          (candidateEnvelope { mid := "0", mLine := 0, sdp := "candidate:1" })),
        SignalingEvent.inbound (sampleJson.to_string
          (descriptionEnvelope { type := SdpType.Offer, sdp := "v=0" }))]).pendingIceCandidates
      = [] ∧
    (sampleIncoming.handleAll sampleJson
      [SignalingEvent.inbound (sampleJson.to_string
          (candidateEnvelope { mid := "0", mLine := 0, sdp := "candidate:1" })),
        SignalingEvent.inbound (sampleJson.to_string
          (descriptionEnvelope { type := SdpType.Offer, sdp := "v=0" }))]).addedIceCandidates
      = [{ mid := "0", mLine := 0, sdp := "candidate:1" }] := by
  refine ⟨rfl, rfl, rfl, rfl⟩

/-- C14, as the code has it: the renegotiation handler looks only at
`makingNegotation`. When it is true the handler calls `sendLocalDescription`,
which marks the offer in flight and asks the transport for a local description,
also when an offer is already in flight; when it is false the handler does
nothing, also when no offer is in flight. The handler itself sends nothing and
records no pending request: apart from `isMakingOffer` and the request made of
the transport it leaves the session as it was. -/
theorem renegotiation_handler (s : P2PCall) :
    (s.makingNegotation = true →
      s.onRenegotiationNeeded = s.sendLocalDescription ∧
      s.onRenegotiationNeeded.isMakingOffer = true ∧
      ∀ c, s.connection = some c →
        s.onRenegotiationNeeded.connection
          = some { c with localDescriptionRequests := c.localDescriptionRequests + 1 }) ∧
    (s.makingNegotation = false → s.onRenegotiationNeeded = s) ∧
    s.onRenegotiationNeeded.signaling = s.signaling ∧
    s.onRenegotiationNeeded.makingNegotation = s.makingNegotation ∧
    s.onRenegotiationNeeded.handshakeCompleted = s.handshakeCompleted ∧
    s.onRenegotiationNeeded.pendingIceCandidates = s.pendingIceCandidates := by
  have h1 : s.makingNegotation = true → s.onRenegotiationNeeded = s.sendLocalDescription := by
    intro h
    simp [P2PCall.onRenegotiationNeeded, h]
  have h2 : s.makingNegotation = false → s.onRenegotiationNeeded = s := by
    intro h
    simp [P2PCall.onRenegotiationNeeded, h]
  refine ⟨?_, h2, ?_⟩
  · intro hm
    refine ⟨h1 hm, ?_, ?_⟩
    · rw [h1 hm]; rfl
    · intro c hc
      rw [h1 hm]
      simp [P2PCall.sendLocalDescription, hc]
  · rcases Bool.eq_false_or_eq_true s.makingNegotation with hm | hm
    · rw [h1 hm]
      exact ⟨rfl, rfl, rfl, rfl⟩
    · rw [h2 hm]
      exact ⟨rfl, rfl, rfl, rfl⟩

set_option maxRecDepth 100000 in
/-- C14, on concrete sessions: the connected Outgoing session (`makingNegotation`
true) asks the transport a second time; the connected Incoming session
(`makingNegotation` false) is left as it was. -/
theorem renegotiation_handler_witness :
    sampleOutgoing.onRenegotiationNeeded.isMakingOffer = true ∧
    sampleOutgoing.onRenegotiationNeeded.connection.map (fun c => c.localDescriptionRequests)
      = some 2 ∧
    sampleIncoming.onRenegotiationNeeded = sampleIncoming :=
  have h1 := (renegotiation_handler sampleOutgoing).1 rfl
  have h2 := (renegotiation_handler sampleIncoming).2.1 rfl
  ⟨h1.2.1, rfl, h2⟩

set_option maxRecDepth 100000 in
/-- C14 as stated fails: on the connected Outgoing session an offer is in flight
(`isMakingOffer` is true, one local description was requested), and the renegotiation
event makes the handler request a second one; on the connected Incoming session no
offer is in flight, and the renegotiation event marks none and requests nothing. -/
theorem renegotiation_handler_counterexample :
    sampleOutgoing.isMakingOffer = true ∧
    sampleOutgoing.connection.map (fun c => c.localDescriptionRequests) = some 1 ∧
    sampleOutgoing.onRenegotiationNeeded.connection.map (fun c => c.localDescriptionRequests)
      = some 2 ∧
    sampleIncoming.isMakingOffer = false ∧
    sampleIncoming.onRenegotiationNeeded.isMakingOffer = false ∧
    sampleIncoming.onRenegotiationNeeded.connection.map (fun c => c.localDescriptionRequests)
      = some 0 := by
  refine ⟨rfl, rfl, rfl, rfl, rfl, rfl⟩

/-- C17: for a candidate whose `mLine` is an `int` and whose envelope the JSON
library parses back from its own text: the `onIceCandidate` handler sends the
text of an envelope with exactly the fields `@type` = `"candidate"`, `mid`,
`mline` and `sdp`; given that text, `processSignalingData` of a session with a
transport hands a candidate with the same `mid`, `mLine` and `sdp` to
`addIceCandidate` when the handshake is completed, and appends it to
`pendingIceCandidates` when it is not. -/
theorem candidate_envelope_roundtrip (lib : JsonLibrary) (sender receiver : P2PCall)
    (candidate : IceCandidate) (channel : Signaling) (c : PeerConnection)
    (hrt : lib.parse (lib.to_string (candidateEnvelope candidate))
      = .ok (candidateEnvelope candidate))
    (hint : isInt32 candidate.mLine)
    (hs : sender.signaling = some channel) (hc : receiver.connection = some c) :
    (sender.onIceCandidate lib candidate).signaling
      = some { channel with sent := channel.sent ++ [lib.to_string (candidateEnvelope candidate)] } ∧
    (∃ fields, candidateEnvelope candidate = Json.object fields ∧
      fields.map Prod.fst = ["@type", "mid", "mline", "sdp"] ∧
      fieldOf fields "@type" = Json.string "candidate" ∧
      fieldOf fields "sdp" = Json.string candidate.sdp ∧
      fieldOf fields "mid" = Json.string candidate.mid ∧
      fieldOf fields "mline" = Json.number candidate.mLine) ∧
    (receiver.processSignalingData lib (lib.to_string (candidateEnvelope candidate))).1
      = .ok () ∧
    (receiver.handshakeCompleted = true →
      (receiver.processSignalingData lib
        (lib.to_string (candidateEnvelope candidate))).2.addedIceCandidates
          = receiver.addedIceCandidates ++ [candidate] ∧
      (receiver.processSignalingData lib
        (lib.to_string (candidateEnvelope candidate))).2.pendingIceCandidates
          = receiver.pendingIceCandidates) ∧
    (receiver.handshakeCompleted = false →
      (receiver.processSignalingData lib
        (lib.to_string (candidateEnvelope candidate))).2.pendingIceCandidates
          = receiver.pendingIceCandidates ++ [candidate] ∧
      (receiver.processSignalingData lib
        (lib.to_string (candidateEnvelope candidate))).2.addedIceCandidates
          = receiver.addedIceCandidates) := by
  have hw := wellFormedCandidate_envelope lib candidate hrt hint
  have hp : receiver.processSignalingData lib (lib.to_string (candidateEnvelope candidate))
      = (.ok (), receiver.takeCandidate candidate) := by
    rcases processSignalingData_cases lib receiver (lib.to_string (candidateEnvelope candidate))
      with ⟨hn, _⟩ | ⟨cand, hsome, h⟩
    · rw [hw] at hn; simp at hn
    · rw [hw] at hsome
      simp only [Option.some.injEq] at hsome
      rw [h, hsome]
  rw [hp]
  refine ⟨?_, ⟨_, rfl, rfl, rfl, rfl, rfl, rfl⟩, rfl, ?_, ?_⟩
  · simp [P2PCall.onIceCandidate, P2PCall.send, hs]
  · intro hh
    simp [P2PCall.takeCandidate, P2PCall.addedIceCandidates, hh, hc]
  · intro hh
    simp [P2PCall.takeCandidate, P2PCall.addedIceCandidates, hh, hc]

set_option maxRecDepth 100000 in
/-- C17, on concrete sessions: the connected Outgoing session sends the envelope of a
candidate; the connected Incoming session buffers it before the handshake and hands
it to the transport after an answer has completed the handshake. -/
theorem candidate_envelope_roundtrip_witness :
    sampleJson.parse (sampleJson.to_string
      (candidateEnvelope { mid := "0", mLine := 3, sdp := "candidate:1 1 udp" }))
        = .ok (candidateEnvelope { mid := "0", mLine := 3, sdp := "candidate:1 1 udp" }) ∧
    (sampleOutgoing.onIceCandidate sampleJson
      { mid := "0", mLine := 3, sdp := "candidate:1 1 udp" }).signaling.map (fun g => g.sent)
        = some [sampleJson.to_string
          (candidateEnvelope { mid := "0", mLine := 3, sdp := "candidate:1 1 udp" })] ∧
    (sampleIncoming.processSignalingData sampleJson (sampleJson.to_string
      (candidateEnvelope { mid := "0", mLine := 3, sdp := "candidate:1 1 udp" }))).2.pendingIceCandidates
        = [{ mid := "0", mLine := 3, sdp := "candidate:1 1 udp" }] ∧
    ((sampleIncoming.applyRemoteSdp SdpType.Answer "v=0").processSignalingData sampleJson
      (sampleJson.to_string
        (candidateEnvelope { mid := "0", mLine := 3, sdp := "candidate:1 1 udp" }))).2.addedIceCandidates
        = [{ mid := "0", mLine := 3, sdp := "candidate:1 1 udp" }] :=
  have h1 := candidate_envelope_roundtrip sampleJson sampleOutgoing sampleIncoming
    { mid := "0", mLine := 3, sdp := "candidate:1 1 udp" }
    { versions := ["11.0.0"], encryptionKey := specFillData 256 [2], isOutgoing := true, sent := [] }
    { PeerConnection.create [] with tracksAdded := true } rfl (by decide) rfl rfl
  have h2 := candidate_envelope_roundtrip sampleJson sampleOutgoing
    (sampleIncoming.applyRemoteSdp SdpType.Answer "v=0")
    { mid := "0", mLine := 3, sdp := "candidate:1 1 udp" }
    { versions := ["11.0.0"], encryptionKey := specFillData 256 [2], isOutgoing := true, sent := [] }
    { servers := [], signalingState := SignalingState.Stable, localDescription := none,
      localDescriptionRequests := 0,
      remoteDescriptions := [{ type := SdpType.Answer, sdp := "v=0" }],
      iceCandidates := [], tracksAdded := true }
    rfl (by decide) rfl rfl
  ⟨rfl, rfl, (h1.2.2.2.2 rfl).1, (h2.2.2.2.1 rfl).1⟩

/-! Shared lemmas of the connection observer. -/

theorem cancelNetworkListener_fields (s : CallInterface) :
    s.cancelNetworkListener.connected = s.connected ∧
    s.cancelNetworkListener.isExiting = s.isExiting ∧
    s.cancelNetworkListener.streamManager = s.streamManager ∧
    s.cancelNetworkListener.notified = s.notified ∧
    s.cancelNetworkListener.observer = s.observer ∧
    s.cancelNetworkListener.updateThreadTasks = s.updateThreadTasks ∧
    s.cancelNetworkListener.networkThread = none := by
  unfold CallInterface.cancelNetworkListener
  cases h : s.networkThread <;> simp [h]

theorem onConnectionChange_not_exiting (s : CallInterface) (kind : CallNetworkState.Kind)
    (state : wrtc.ConnectionState) (hex : s.isExiting = false) :
    s.onConnectionChange kind state = (s.switchState kind state).cancelNetworkListener := by
  simp [CallInterface.onConnectionChange, hex]

theorem switchState_first_connected (s : CallInterface) (kind : CallNetworkState.Kind)
    (m : StreamManager) (hconn : s.connected = false) (hsm : s.streamManager = some m) :
    (s.switchState kind wrtc.ConnectionState.Connected).connected = true ∧
    (s.switchState kind wrtc.ConnectionState.Connected).isExiting = s.isExiting ∧
    (s.switchState kind wrtc.ConnectionState.Connected).streamManager
      = some { starts := m.starts + 1 } ∧
    (s.switchState kind wrtc.ConnectionState.Connected).notified
      = s.notified ++ [⟨CallNetworkState.ConnectionState.Connected, kind⟩] := by
  simp [CallInterface.switchState, CallInterface.notify, hconn, hsm]

theorem switchState_again_connected (s : CallInterface) (kind : CallNetworkState.Kind)
    (hconn : s.connected = true) :
    s.switchState kind wrtc.ConnectionState.Connected = s := by
  simp [CallInterface.switchState, hconn]

theorem switchState_failed (s : CallInterface) (kind : CallNetworkState.Kind) :
    (s.switchState kind wrtc.ConnectionState.Failed).connected = s.connected ∧
    (s.switchState kind wrtc.ConnectionState.Failed).isExiting = s.isExiting ∧
    (s.switchState kind wrtc.ConnectionState.Failed).streamManager = s.streamManager ∧
    (s.switchState kind wrtc.ConnectionState.Failed).notified
      = s.notified ++ [⟨CallNetworkState.ConnectionState.Failed, kind⟩] := by
  simp [CallInterface.switchState, CallInterface.notify]

theorem switchState_closed (s : CallInterface) (kind : CallNetworkState.Kind)
    (state : wrtc.ConnectionState)
    (hst : state = wrtc.ConnectionState.Disconnected ∨ state = wrtc.ConnectionState.Closed) :
    (s.switchState kind state).connected = s.connected ∧
    (s.switchState kind state).isExiting = s.isExiting ∧
    (s.switchState kind state).streamManager = s.streamManager ∧
    (s.switchState kind state).notified
      = s.notified ++ [⟨CallNetworkState.ConnectionState.Closed, kind⟩] := by
  rcases hst with h | h <;> subst h <;> simp [CallInterface.switchState, CallInterface.notify]

theorem switchState_quiet (s : CallInterface) (kind : CallNetworkState.Kind)
    (state : wrtc.ConnectionState)
    (hst : state = wrtc.ConnectionState.New ∨ state = wrtc.ConnectionState.Connecting) :
    s.switchState kind state = s := by
  rcases hst with h | h <;> subst h <;> rfl

theorem countNotified_append (l : List CallNetworkState) (n : CallNetworkState)
    (state : CallNetworkState.ConnectionState) (s : CallInterface)
    (h : s.notified = l ++ [n]) :
    s.countNotified state
      = (l.filter (fun x => decide (x.connectionState = state))).length
        + (if n.connectionState = state then 1 else 0) := by
  unfold CallInterface.countNotified
  rw [h, List.filter_append, List.length_append]
  by_cases hn : n.connectionState = state <;> simp [List.filter, hn]

/-- The handler on an event other than `Connected`: the flag and the stream
manager are untouched and no `Connected` notification is made. -/
theorem onConnectionChange_other (s : CallInterface) (kind : CallNetworkState.Kind)
    (state : wrtc.ConnectionState) (hne : state ≠ wrtc.ConnectionState.Connected) :
    (s.onConnectionChange kind state).connected = s.connected ∧
    (s.onConnectionChange kind state).isExiting = s.isExiting ∧
    (s.onConnectionChange kind state).streamManager = s.streamManager ∧
    (s.onConnectionChange kind state).countNotified CallNetworkState.ConnectionState.Connected
      = s.countNotified CallNetworkState.ConnectionState.Connected := by
  rcases Bool.eq_false_or_eq_true s.isExiting with hex | hex
  · simp [CallInterface.onConnectionChange, hex]
  · rw [onConnectionChange_not_exiting s kind state hex]
    obtain ⟨c1, c2, c3, c4, _⟩ := cancelNetworkListener_fields (s.switchState kind state)
    have hcount : ∀ t : CallInterface, t.notified = (s.switchState kind state).notified →
        t.countNotified CallNetworkState.ConnectionState.Connected
          = (s.switchState kind state).countNotified CallNetworkState.ConnectionState.Connected := by
      intro t ht; unfold CallInterface.countNotified; rw [ht]
    rw [c1, c2, c3, hcount _ c4]
    cases state with
    | Connected => exact absurd rfl hne
    | New => rw [switchState_quiet s kind _ (Or.inl rfl)]; exact ⟨rfl, rfl, rfl, rfl⟩
    | Connecting => rw [switchState_quiet s kind _ (Or.inr rfl)]; exact ⟨rfl, rfl, rfl, rfl⟩
    | Disconnected =>
      obtain ⟨d1, d2, d3, d4⟩ := switchState_closed s kind _ (Or.inl rfl)
      refine ⟨d1, d2, d3, ?_⟩
      rw [countNotified_append _ _ _ _ d4]
      simp [CallInterface.countNotified]
    | Failed =>
      obtain ⟨d1, d2, d3, d4⟩ := switchState_failed s kind
      refine ⟨d1, d2, d3, ?_⟩
      rw [countNotified_append _ _ _ _ d4]
      simp [CallInterface.countNotified]
    | Closed =>
      obtain ⟨d1, d2, d3, d4⟩ := switchState_closed s kind _ (Or.inr rfl)
      refine ⟨d1, d2, d3, ?_⟩
      rw [countNotified_append _ _ _ _ d4]
      simp [CallInterface.countNotified]

/-- The handler on an event of a call that is already connected: the flag stays
set, the streams are not started again and no `Connected` notification is made. -/
theorem onConnectionChange_connected (s : CallInterface) (kind : CallNetworkState.Kind)
    (state : wrtc.ConnectionState) (hconn : s.connected = true) :
    (s.onConnectionChange kind state).connected = true ∧
    (s.onConnectionChange kind state).isExiting = s.isExiting ∧
    (s.onConnectionChange kind state).streamManager = s.streamManager ∧
    (s.onConnectionChange kind state).countNotified CallNetworkState.ConnectionState.Connected
      = s.countNotified CallNetworkState.ConnectionState.Connected := by
  by_cases hst : state = wrtc.ConnectionState.Connected
  · subst hst
    rcases Bool.eq_false_or_eq_true s.isExiting with hex | hex
    · simp [CallInterface.onConnectionChange, hex, hconn]
    · rw [onConnectionChange_not_exiting s kind _ hex, switchState_again_connected s kind hconn]
      obtain ⟨c1, c2, c3, c4, _⟩ := cancelNetworkListener_fields s
      refine ⟨by rw [c1]; exact hconn, c2, c3, ?_⟩
      unfold CallInterface.countNotified; rw [c4]
  · obtain ⟨o1, o2, o3, o4⟩ := onConnectionChange_other s kind state hst
    exact ⟨by rw [o1]; exact hconn, o2, o3, o4⟩

theorem deliver_before_connected (kind : CallNetworkState.Kind)
    (states : List wrtc.ConnectionState) :
    ∀ (s : CallInterface), wrtc.ConnectionState.Connected ∉ states →
      (s.deliver kind states).connected = s.connected ∧
      (s.deliver kind states).isExiting = s.isExiting ∧
      (s.deliver kind states).streamManager = s.streamManager ∧
      (s.deliver kind states).countNotified CallNetworkState.ConnectionState.Connected
        = s.countNotified CallNetworkState.ConnectionState.Connected := by
  induction states with
  | nil => intro s _; exact ⟨rfl, rfl, rfl, rfl⟩
  | cons st rest ih =>
    intro s hno
    have h1 : st ≠ wrtc.ConnectionState.Connected := by
      intro h; apply hno; rw [h]; exact List.mem_cons_self _ _
    have h2 : wrtc.ConnectionState.Connected ∉ rest := by
      intro h; exact hno (List.mem_cons_of_mem _ h)
    obtain ⟨o1, o2, o3, o4⟩ := onConnectionChange_other s kind st h1
    obtain ⟨i1, i2, i3, i4⟩ := ih (s.onConnectionChange kind st) h2
    have hcons : s.deliver kind (st :: rest) = (s.onConnectionChange kind st).deliver kind rest :=
      rfl
    rw [hcons]
    exact ⟨i1.trans o1, i2.trans o2, i3.trans o3, i4.trans o4⟩

theorem deliver_after_connected (kind : CallNetworkState.Kind)
    (states : List wrtc.ConnectionState) :
    ∀ (s : CallInterface), s.connected = true →
      (s.deliver kind states).connected = true ∧
      (s.deliver kind states).isExiting = s.isExiting ∧
      (s.deliver kind states).streamManager = s.streamManager ∧
      (s.deliver kind states).countNotified CallNetworkState.ConnectionState.Connected
        = s.countNotified CallNetworkState.ConnectionState.Connected := by
  induction states with
  | nil => intro s h; exact ⟨h, rfl, rfl, rfl⟩
  | cons st rest ih =>
    intro s hconn
    obtain ⟨o1, o2, o3, o4⟩ := onConnectionChange_connected s kind st hconn
    obtain ⟨i1, i2, i3, i4⟩ := ih (s.onConnectionChange kind st) o1
    have hcons : s.deliver kind (st :: rest) = (s.onConnectionChange kind st).deliver kind rest :=
      rfl
    rw [hcons]
    exact ⟨i1, i2.trans o2, i3.trans o3, i4.trans o4⟩

/-- A transport state never makes the handler notify `Timeout`. -/
theorem step_transport_timeout (s : CallInterface) (state : wrtc.ConnectionState) :
    (s.step (CallEvent.transport state)).countNotified CallNetworkState.ConnectionState.Timeout
      = s.countNotified CallNetworkState.ConnectionState.Timeout := by
  unfold CallInterface.step
  obtain hobs | ⟨kind, hobs⟩ := option_none_or_some s.observer
  · simp [hobs]
  simp only [hobs]
  rcases Bool.eq_false_or_eq_true s.isExiting with hex | hex
  · simp [CallInterface.onConnectionChange, hex]
  · rw [onConnectionChange_not_exiting s kind state hex]
    obtain ⟨_, _, _, c4, _⟩ := cancelNetworkListener_fields (s.switchState kind state)
    have hcount : (s.switchState kind state).cancelNetworkListener.countNotified
        CallNetworkState.ConnectionState.Timeout
        = (s.switchState kind state).countNotified
          CallNetworkState.ConnectionState.Timeout := by
      unfold CallInterface.countNotified; rw [c4]
    rw [hcount]
    cases state with
    | New => rw [switchState_quiet s kind _ (Or.inl rfl)]
    | Connecting => rw [switchState_quiet s kind _ (Or.inr rfl)]
    | Connected =>
      rcases Bool.eq_false_or_eq_true s.connected with hconn | hconn
      · rw [switchState_again_connected s kind hconn]
      · obtain hsm | ⟨m, hsm⟩ := option_none_or_some s.streamManager
        · simp [CallInterface.switchState, hconn, hsm]
        · obtain ⟨_, _, _, d4⟩ := switchState_first_connected s kind m hconn hsm
          rw [countNotified_append _ _ _ _ d4]
          simp [CallInterface.countNotified]
    | Disconnected =>
      obtain ⟨_, _, _, d4⟩ := switchState_closed s kind _ (Or.inl rfl)
      rw [countNotified_append _ _ _ _ d4]
      simp [CallInterface.countNotified]
    | Failed =>
      obtain ⟨_, _, _, d4⟩ := switchState_failed s kind
      rw [countNotified_append _ _ _ _ d4]
      simp [CallInterface.countNotified]
    | Closed =>
      obtain ⟨_, _, _, d4⟩ := switchState_closed s kind _ (Or.inr rfl)
      rw [countNotified_append _ _ _ _ d4]
      simp [CallInterface.countNotified]

/-- Once the network thread is stopped it stays stopped and no event notifies
`Timeout`. -/
theorem step_thread_stopped (s : CallInterface) (e : CallEvent)
    (hthread : s.networkThread = none) :
    (s.step e).networkThread = none ∧
    (s.step e).countNotified CallNetworkState.ConnectionState.Timeout
      = s.countNotified CallNetworkState.ConnectionState.Timeout := by
  cases e with
  | timer => simp [CallInterface.step, hthread]
  | updateTask =>
    unfold CallInterface.step
    split_ifs
    · exact ⟨hthread, rfl⟩
    · exact ⟨hthread, rfl⟩
  | transport state =>
    refine ⟨?_, step_transport_timeout s state⟩
    unfold CallInterface.step
    obtain hobs | ⟨kind, hobs⟩ := option_none_or_some s.observer
    · simp [hobs, hthread]
    simp only [hobs]
    rcases Bool.eq_false_or_eq_true s.isExiting with hex | hex
    · simp [CallInterface.onConnectionChange, hex, hthread]
    · rw [onConnectionChange_not_exiting s kind state hex]
      exact (cancelNetworkListener_fields (s.switchState kind state)).2.2.2.2.2.2

theorem stepAll_thread_stopped (events : List CallEvent) :
    ∀ (s : CallInterface), s.networkThread = none →
      (s.stepAll events).countNotified CallNetworkState.ConnectionState.Timeout
        = s.countNotified CallNetworkState.ConnectionState.Timeout := by
  induction events with
  | nil => intro s _; rfl
  | cons e es ih =>
    intro s hthread
    obtain ⟨h1, h2⟩ := step_thread_stopped s e hthread
    have hcons : s.stepAll (e :: es) = (s.step e).stepAll es := rfl
    rw [hcons, ih (s.step e) h1, h2]

/-! Theorems about `CallInterface::setConnectionObserver`. -/

/-- C18: on a call that is not exiting, is not yet connected and has a stream
manager, deliver to the handler any states without `Connected`, then
`Connected`, then any states at all. Before the `Connected` event `connected`
is false, the streams are not started and no `Connected` notification is made;
the `Connected` event sets `connected`, starts the streams once and notifies
`Connected` for the call leg; after it `connected` stays true, the streams are
not started again and no further `Connected` notification is made. -/
theorem media_started_once (s : CallInterface) (kind : CallNetworkState.Kind)
    (m : StreamManager) (before later : List wrtc.ConnectionState)
    (hex : s.isExiting = false) (hconn : s.connected = false)
    (hsm : s.streamManager = some m)
    (hno : wrtc.ConnectionState.Connected ∉ before) :
    ((s.deliver kind before).connected = false ∧
      (s.deliver kind before).streamManager = some m ∧
      (s.deliver kind before).countNotified CallNetworkState.ConnectionState.Connected
        = s.countNotified CallNetworkState.ConnectionState.Connected) ∧
    (((s.deliver kind before).onConnectionChange kind wrtc.ConnectionState.Connected).connected
        = true ∧
      ((s.deliver kind before).onConnectionChange kind
        wrtc.ConnectionState.Connected).streamManager = some { starts := m.starts + 1 } ∧
      ((s.deliver kind before).onConnectionChange kind wrtc.ConnectionState.Connected).notified
        = (s.deliver kind before).notified
          ++ [⟨CallNetworkState.ConnectionState.Connected, kind⟩]) ∧
    ((((s.deliver kind before).onConnectionChange kind
        wrtc.ConnectionState.Connected).deliver kind later).connected = true ∧
      (((s.deliver kind before).onConnectionChange kind
        wrtc.ConnectionState.Connected).deliver kind later).streamManager
          = some { starts := m.starts + 1 } ∧
      (((s.deliver kind before).onConnectionChange kind
        wrtc.ConnectionState.Connected).deliver kind later).countNotified
          CallNetworkState.ConnectionState.Connected
        = s.countNotified CallNetworkState.ConnectionState.Connected + 1) := by
  obtain ⟨b1, b2, b3, b4⟩ := deliver_before_connected kind before s hno
  have hex1 : (s.deliver kind before).isExiting = false := b2.trans hex
  have hconn1 : (s.deliver kind before).connected = false := b1.trans hconn
  have hsm1 : (s.deliver kind before).streamManager = some m := b3.trans hsm
  have heq := onConnectionChange_not_exiting (s.deliver kind before) kind
    wrtc.ConnectionState.Connected hex1
  obtain ⟨d1, _, d3, d4⟩ := switchState_first_connected (s.deliver kind before) kind m hconn1 hsm1
  obtain ⟨c1, _, c3, c4, _⟩ := cancelNetworkListener_fields
    ((s.deliver kind before).switchState kind wrtc.ConnectionState.Connected)
  have e1 : ((s.deliver kind before).onConnectionChange kind
      wrtc.ConnectionState.Connected).connected = true := by rw [heq, c1, d1]
  have e3 : ((s.deliver kind before).onConnectionChange kind
      wrtc.ConnectionState.Connected).streamManager = some { starts := m.starts + 1 } := by
    rw [heq, c3, d3]
  have e4 : ((s.deliver kind before).onConnectionChange kind
      wrtc.ConnectionState.Connected).notified
      = (s.deliver kind before).notified
        ++ [⟨CallNetworkState.ConnectionState.Connected, kind⟩] := by
    rw [heq, c4, d4]
  obtain ⟨a1, _, a3, a4⟩ := deliver_after_connected kind later
    ((s.deliver kind before).onConnectionChange kind wrtc.ConnectionState.Connected) e1
  refine ⟨⟨hconn1, hsm1, b4⟩, ⟨e1, e3, e4⟩, ⟨a1, a3.trans e3, ?_⟩⟩
  rw [a4, countNotified_append _ _ _ _ e4]
  simp only [if_true]
  have : (s.deliver kind before).countNotified CallNetworkState.ConnectionState.Connected
      = (List.filter (fun x => decide (x.connectionState
          = CallNetworkState.ConnectionState.Connected)) (s.deliver kind before).notified).length :=
    rfl
  rw [← this, b4]

/-- C18, on a concrete call: the states `Connecting`, `Connected`, `Disconnected`,
`Connected` start the streams once and notify `Connected` once. -/
theorem media_started_once_witness :
    ((CallInterface.fresh.deliver 0 [wrtc.ConnectionState.Connecting]).onConnectionChange 0
        wrtc.ConnectionState.Connected).streamManager = some { starts := 1 } ∧
    (((CallInterface.fresh.deliver 0 [wrtc.ConnectionState.Connecting]).onConnectionChange 0
        wrtc.ConnectionState.Connected).deliver 0
          [wrtc.ConnectionState.Disconnected, wrtc.ConnectionState.Connected]).streamManager
      = some { starts := 1 } ∧
    (((CallInterface.fresh.deliver 0 [wrtc.ConnectionState.Connecting]).onConnectionChange 0
        wrtc.ConnectionState.Connected).deliver 0
          [wrtc.ConnectionState.Disconnected, wrtc.ConnectionState.Connected]).countNotified
            CallNetworkState.ConnectionState.Connected = 1 :=
  have h := media_started_once CallInterface.fresh 0 { starts := 0 }
    [wrtc.ConnectionState.Connecting]
    [wrtc.ConnectionState.Disconnected, wrtc.ConnectionState.Connected] rfl rfl rfl (by decide)
  ⟨h.2.1.2.1, h.2.2.2.1, h.2.2.2.2⟩

/-- C19, as the code has it: the handler of a call that is not exiting notifies
`Failed` on every `Failed` event and `Closed` on every `Disconnected` or `Closed`
event, for its call leg, whether `connected` is true or false; `connected`
itself is left as it was. -/
theorem failed_closed_notified (s : CallInterface) (kind : CallNetworkState.Kind)
    (hex : s.isExiting = false) :
    ((s.onConnectionChange kind wrtc.ConnectionState.Failed).notified
        = s.notified ++ [⟨CallNetworkState.ConnectionState.Failed, kind⟩] ∧
      (s.onConnectionChange kind wrtc.ConnectionState.Failed).connected = s.connected) ∧
    ((s.onConnectionChange kind wrtc.ConnectionState.Disconnected).notified
        = s.notified ++ [⟨CallNetworkState.ConnectionState.Closed, kind⟩] ∧
      (s.onConnectionChange kind wrtc.ConnectionState.Disconnected).connected = s.connected) ∧
    ((s.onConnectionChange kind wrtc.ConnectionState.Closed).notified
        = s.notified ++ [⟨CallNetworkState.ConnectionState.Closed, kind⟩] ∧
      (s.onConnectionChange kind wrtc.ConnectionState.Closed).connected = s.connected) := by
  refine ⟨?_, ?_, ?_⟩
  · rw [onConnectionChange_not_exiting s kind _ hex]
    obtain ⟨c1, _, _, c4, _⟩ := cancelNetworkListener_fields
      (s.switchState kind wrtc.ConnectionState.Failed)
    obtain ⟨d1, _, _, d4⟩ := switchState_failed s kind
    exact ⟨c4.trans d4, c1.trans d1⟩
  · rw [onConnectionChange_not_exiting s kind _ hex]
    obtain ⟨c1, _, _, c4, _⟩ := cancelNetworkListener_fields
      (s.switchState kind wrtc.ConnectionState.Disconnected)
    obtain ⟨d1, _, _, d4⟩ := switchState_closed s kind _ (Or.inl rfl)
    exact ⟨c4.trans d4, c1.trans d1⟩
  · rw [onConnectionChange_not_exiting s kind _ hex]
    obtain ⟨c1, _, _, c4, _⟩ := cancelNetworkListener_fields
      (s.switchState kind wrtc.ConnectionState.Closed)
    obtain ⟨d1, _, _, d4⟩ := switchState_closed s kind _ (Or.inr rfl)
    exact ⟨c4.trans d4, c1.trans d1⟩

/-- C19, on a concrete call: a call that never connected notifies `Failed` on a
`Failed` event. -/
theorem failed_closed_notified_witness :
    CallInterface.fresh.connected = false ∧
    (CallInterface.fresh.onConnectionChange 0 wrtc.ConnectionState.Failed).notified
      = [⟨CallNetworkState.ConnectionState.Failed, 0⟩] :=
  ⟨rfl, (failed_closed_notified CallInterface.fresh 0 rfl).1.1⟩

/-- C19 as stated fails: after `setConnectionObserver` a `Failed` event arrives
before any `Connected` event (`connected` is false) and `Failed` is notified; in the
same way a `Disconnected` event is notified as `Closed`. -/
theorem failed_closed_notified_counterexample :
    (CallInterface.fresh.setConnectionObserver 0).connected = false ∧
    ((CallInterface.fresh.setConnectionObserver 0).stepAll
        [CallEvent.transport wrtc.ConnectionState.Failed]).notified
      = [⟨CallNetworkState.ConnectionState.Connecting, 0⟩,
          ⟨CallNetworkState.ConnectionState.Failed, 0⟩] ∧
    ((CallInterface.fresh.setConnectionObserver 0).stepAll
        [CallEvent.transport wrtc.ConnectionState.Failed]).connected = false ∧
    ((CallInterface.fresh.setConnectionObserver 0).stepAll
        [CallEvent.transport wrtc.ConnectionState.Disconnected]).notified
      = [⟨CallNetworkState.ConnectionState.Connecting, 0⟩,
          ⟨CallNetworkState.ConnectionState.Closed, 0⟩] := by
  refine ⟨rfl, rfl, rfl, rfl⟩

/-- C20, as the code has it: arm the watchdog with `setConnectionObserver` on a
call that is not exiting and whose network thread is alive and idle. If the
delay runs out before any transport state has been handled and `connected` is
false, exactly one `Timeout` is notified for the call leg, and the task does not
run again; if `connected` is true then, nothing is notified. The handler ends
with `cancelNetworkListener()`, so once a `Connected`, `Disconnected`, `Failed`
or `Closed` state has been handled the network thread is stopped and no
`Timeout` is ever notified. After a `Timeout`, a `Connected` event still sets
`connected`, starts the streams and notifies `Connected`. -/
theorem watchdog_timeout (s : CallInterface) (kind : CallNetworkState.Kind)
    (hex : s.isExiting = false) (hthread : s.networkThread = some []) :
    (s.connected = false →
      ((s.setConnectionObserver kind).step CallEvent.timer).notified
        = (s.setConnectionObserver kind).notified
          ++ [⟨CallNetworkState.ConnectionState.Timeout, kind⟩] ∧
      (((s.setConnectionObserver kind).step CallEvent.timer).step CallEvent.timer)
        = ((s.setConnectionObserver kind).step CallEvent.timer)) ∧
    (s.connected = true →
      ((s.setConnectionObserver kind).step CallEvent.timer).notified
        = (s.setConnectionObserver kind).notified) ∧
    (∀ (state : wrtc.ConnectionState) (later : List CallEvent),
      (state = wrtc.ConnectionState.Connected ∨ state = wrtc.ConnectionState.Disconnected ∨
        state = wrtc.ConnectionState.Failed ∨ state = wrtc.ConnectionState.Closed) →
      ((s.setConnectionObserver kind).step (CallEvent.transport state)).networkThread = none ∧
      (((s.setConnectionObserver kind).step (CallEvent.transport state)).stepAll
          later).countNotified CallNetworkState.ConnectionState.Timeout
        = s.countNotified CallNetworkState.ConnectionState.Timeout) ∧
    (∀ m, s.connected = false → s.streamManager = some m →
      (((s.setConnectionObserver kind).step CallEvent.timer).step
          (CallEvent.transport wrtc.ConnectionState.Connected)).connected = true ∧
      (((s.setConnectionObserver kind).step CallEvent.timer).step
          (CallEvent.transport wrtc.ConnectionState.Connected)).streamManager
        = some { starts := m.starts + 1 } ∧
      (((s.setConnectionObserver kind).step CallEvent.timer).step
          (CallEvent.transport wrtc.ConnectionState.Connected)).notified
        = (s.setConnectionObserver kind).notified
          ++ [⟨CallNetworkState.ConnectionState.Timeout, kind⟩,
            ⟨CallNetworkState.ConnectionState.Connected, kind⟩]) := by
  have harm : (s.setConnectionObserver kind).networkThread = some [kind] := by
    simp [CallInterface.setConnectionObserver, CallInterface.notify, hthread]
  have hobs : (s.setConnectionObserver kind).observer = some kind := by
    simp [CallInterface.setConnectionObserver, CallInterface.notify]
  have hconn : (s.setConnectionObserver kind).connected = s.connected := by
    simp [CallInterface.setConnectionObserver, CallInterface.notify]
  have hexa : (s.setConnectionObserver kind).isExiting = false := by
    simp [CallInterface.setConnectionObserver, CallInterface.notify, hex]
  have hsma : (s.setConnectionObserver kind).streamManager = s.streamManager := by
    simp [CallInterface.setConnectionObserver, CallInterface.notify]
  refine ⟨?_, ?_, ?_, ?_⟩
  · intro hc
    have hstep : ((s.setConnectionObserver kind).step CallEvent.timer)
        = CallInterface.notify { s.setConnectionObserver kind with networkThread := some [] }
            CallNetworkState.ConnectionState.Timeout kind := by
      simp [CallInterface.step, harm, CallInterface.watchdogTask, hconn, hc]
    rw [hstep]
    refine ⟨rfl, ?_⟩
    simp [CallInterface.step, CallInterface.notify]
  · intro hc
    simp [CallInterface.step, harm, CallInterface.watchdogTask, hconn, hc]
  · intro state later _
    have hstep : (s.setConnectionObserver kind).step (CallEvent.transport state)
        = ((s.setConnectionObserver kind).switchState kind state).cancelNetworkListener := by
      simp only [CallInterface.step, hobs]
      exact onConnectionChange_not_exiting _ kind state hexa
    obtain ⟨_, _, _, _, _, _, c7⟩ := cancelNetworkListener_fields
      ((s.setConnectionObserver kind).switchState kind state)
    have hnone : ((s.setConnectionObserver kind).step (CallEvent.transport state)).networkThread
        = none := by rw [hstep]; exact c7
    refine ⟨hnone, ?_⟩
    rw [stepAll_thread_stopped later _ hnone, step_transport_timeout]
    simp [CallInterface.countNotified, CallInterface.setConnectionObserver, CallInterface.notify,
      List.filter_append]
  · intro m hc hsm
    have hstep : ((s.setConnectionObserver kind).step CallEvent.timer)
        = CallInterface.notify { s.setConnectionObserver kind with networkThread := some [] }
            CallNetworkState.ConnectionState.Timeout kind := by
      simp [CallInterface.step, harm, CallInterface.watchdogTask, hconn, hc]
    rw [hstep]
    have hobs2 : (CallInterface.notify
        { s.setConnectionObserver kind with networkThread := some [] }
        CallNetworkState.ConnectionState.Timeout kind).observer = some kind := hobs
    simp only [CallInterface.step, hobs2]
    rw [onConnectionChange_not_exiting _ kind _ (by exact hexa)]
    obtain ⟨c1, _, c3, c4, _⟩ := cancelNetworkListener_fields
      (CallInterface.switchState (CallInterface.notify
        { s.setConnectionObserver kind with networkThread := some [] }
        CallNetworkState.ConnectionState.Timeout kind) kind wrtc.ConnectionState.Connected)
    obtain ⟨d1, _, d3, d4⟩ := switchState_first_connected (CallInterface.notify
        { s.setConnectionObserver kind with networkThread := some [] }
        CallNetworkState.ConnectionState.Timeout kind) kind m (hconn.trans hc) (hsma.trans hsm)
    refine ⟨c1.trans d1, c3.trans d3, ?_⟩
    rw [c4, d4]
    simp [CallInterface.notify]

/-- C20, on a concrete call: when the delay runs out before any transport state is
handled, `Timeout` is notified once, and a later `Connected` event still starts the
streams and notifies `Connected`; when `Failed` is handled first, the thread is stopped. -/
theorem watchdog_timeout_witness :
    ((CallInterface.fresh.setConnectionObserver 0).stepAll
        [CallEvent.timer, CallEvent.timer]).notified
      = [⟨CallNetworkState.ConnectionState.Connecting, 0⟩,
          ⟨CallNetworkState.ConnectionState.Timeout, 0⟩] ∧
    (((CallInterface.fresh.setConnectionObserver 0).step CallEvent.timer).step
        (CallEvent.transport wrtc.ConnectionState.Connected)).streamManager
      = some { starts := 1 } ∧
    (((CallInterface.fresh.setConnectionObserver 0).step CallEvent.timer).step
        (CallEvent.transport wrtc.ConnectionState.Connected)).notified
      = [⟨CallNetworkState.ConnectionState.Connecting, 0⟩,
          ⟨CallNetworkState.ConnectionState.Timeout, 0⟩,
          ⟨CallNetworkState.ConnectionState.Connected, 0⟩] ∧
    ((CallInterface.fresh.setConnectionObserver 0).step
        (CallEvent.transport wrtc.ConnectionState.Failed)).networkThread = none :=
  have h := watchdog_timeout CallInterface.fresh 0 rfl rfl
  have h1 := h.1 rfl
  have h3 := h.2.2.1 wrtc.ConnectionState.Failed [] (Or.inr (Or.inr (Or.inl rfl)))
  have h4 := h.2.2.2 { starts := 0 } rfl rfl
  ⟨(congrArg CallInterface.notified h1.2).trans h1.1, h4.2.1, h4.2.2, h3.1⟩

/-- C20 as stated fails: after `setConnectionObserver` the transport reports
`Failed`, which the handler notifies and which stops the network thread; when the
delay of the watchdog then runs out, no `Connected` event has been handled
(`connected` is false) and yet no `Timeout` is notified. -/
theorem watchdog_timeout_counterexample :
    ((CallInterface.fresh.setConnectionObserver 0).stepAll
        [CallEvent.transport wrtc.ConnectionState.Failed, CallEvent.timer]).connected
      = false ∧
    ((CallInterface.fresh.setConnectionObserver 0).stepAll
        [CallEvent.transport wrtc.ConnectionState.Failed, CallEvent.timer]).notified
      = [⟨CallNetworkState.ConnectionState.Connecting, 0⟩,
          ⟨CallNetworkState.ConnectionState.Failed, 0⟩] ∧
    ((CallInterface.fresh.setConnectionObserver 0).stepAll
        [CallEvent.transport wrtc.ConnectionState.Failed,
          CallEvent.timer]).countNotified CallNetworkState.ConnectionState.Timeout = 0 := by
  refine ⟨rfl, rfl, rfl⟩

/-! Shared lemmas of the description exchange. -/

theorem processSignalingData_applies (lib : JsonLibrary) (s : P2PCall) (buffer : String)
    (fields : List (String × Json)) (typeText sdp : String)
    (hparse : lib.parse buffer = .ok (Json.object fields))
    (htype : fieldOf fields "@type" = Json.string typeText)
    (hkind : typeText = "offer" ∨ typeText = "answer")
    (hsdp : fieldOf fields "sdp" = Json.string sdp)
    (hglare : ¬ (s.type = CallType.Outgoing ∧ typeText = "offer" ∧
      (s.isMakingOffer = true ∨ s.signalingState ≠ SignalingState.Stable))) :
    s.processSignalingData lib buffer
      = (.ok (), s.applyRemoteSdp (Description.parseType typeText) sdp) := by
  unfold P2PCall.processSignalingData
  simp only [hparse, Json.get, htype, hsdp, Json.is_null, Json.eqString, Json.getString]
  rcases hkind with rfl | rfl
  · have hg : ¬ (s.type = CallType.Outgoing ∧
        (s.isMakingOffer = true ∨ s.signalingState ≠ SignalingState.Stable)) := by
      intro h
      exact hglare ⟨h.1, rfl, h.2⟩
    simp [hg]
  · simp

theorem applyRemoteSdp_remoteDescriptions (s : P2PCall) (c : PeerConnection) (sdpType : SdpType)
    (sdp : String) (hc : s.connection = some c) :
    (s.applyRemoteSdp sdpType sdp).remoteDescriptions
      = s.remoteDescriptions ++ [{ type := sdpType, sdp := sdp }] := by
  unfold P2PCall.applyRemoteSdp P2PCall.applyPendingIceCandidates P2PCall.remoteDescriptions
  simp only [hc, Option.map]
  split_ifs <;> rfl

theorem sendLocalDescriptionTask_sends (lib : JsonLibrary) (s : P2PCall) (c : PeerConnection)
    (g : Signaling) (d : Description) (hc : s.connection = some c)
    (hd : c.localDescription = some d) (hg : s.signaling = some g) :
    (s.sendLocalDescriptionTask lib).signaling
      = some { g with sent := g.sent ++ [lib.to_string (descriptionEnvelope d)] } ∧
    (s.sendLocalDescriptionTask lib).isMakingOffer = false := by
  simp [P2PCall.sendLocalDescriptionTask, hc, hd, P2PCall.send, hg]

theorem sendLocalDescriptionTask_nothing (lib : JsonLibrary) (s : P2PCall)
    (hd : s.connection.bind (fun c => c.localDescription) = none) :
    s.sendLocalDescriptionTask lib = s := by
  simp [P2PCall.sendLocalDescriptionTask, hd]

/-! Theorems about the description exchange of `p2p_call.cpp`. -/

/-- C26, as the code has it: an inbound envelope whose `@type` is `"offer"` or
`"answer"`, whose `sdp` is a string and which does not meet the glare condition (the session is in the
Outgoing role, the type is offer, and an offer is in flight or the signaling
state is not `Stable`) is handed to `applyRemoteSdp`, and so to the transport's
`setRemoteDescription`, with the type and the sdp of the envelope. The task
posted when the transport has applied it, run on whatever the session is by
then, does nothing for an answer; for an offer it asks the transport for a
local description, and the completion task then sends the description the
transport has set on the signaling channel. -/
theorem remote_description_applied (lib : JsonLibrary) (s : P2PCall) (c : PeerConnection)
    (buffer : String) (fields : List (String × Json)) (typeText sdp : String)
    (hparse : lib.parse buffer = .ok (Json.object fields))
    (htype : fieldOf fields "@type" = Json.string typeText)
    (hkind : typeText = "offer" ∨ typeText = "answer")
    (hsdp : fieldOf fields "sdp" = Json.string sdp)
    (hglare : ¬ (s.type = CallType.Outgoing ∧ typeText = "offer" ∧
      (s.isMakingOffer = true ∨ s.signalingState ≠ SignalingState.Stable)))
    (hc : s.connection = some c) :
    s.processSignalingData lib buffer
      = (.ok (), s.applyRemoteSdp (Description.parseType typeText) sdp) ∧
    (s.processSignalingData lib buffer).2.remoteDescriptions
      = s.remoteDescriptions ++
        [{ type := if typeText = "offer" then SdpType.Offer else SdpType.Answer, sdp := sdp }] ∧
    ∀ (t : P2PCall) (ct : PeerConnection) (g : Signaling),
      t.connection = some ct → t.signaling = some g →
      (typeText = "answer" →
        t.handle lib (SignalingEvent.remoteDescriptionApplied (Description.parseType typeText))
          = t) ∧
      (typeText = "offer" →
        (t.handle lib (SignalingEvent.remoteDescriptionApplied
            (Description.parseType typeText))).connection
          = some { ct with localDescriptionRequests := ct.localDescriptionRequests + 1 } ∧
        ∀ (signalingState : SignalingState) (d : Description),
          (P2PCall.handleAll lib t
            [SignalingEvent.remoteDescriptionApplied (Description.parseType typeText),
              SignalingEvent.transport signalingState (some d),
              SignalingEvent.localDescriptionSet]).signaling
            = some { g with sent := g.sent ++ [lib.to_string (descriptionEnvelope d)] }) := by
  have heq := processSignalingData_applies lib s buffer fields typeText sdp hparse htype hkind
    hsdp hglare
  refine ⟨heq, ?_, ?_⟩
  · rw [heq]
    exact applyRemoteSdp_remoteDescriptions s c _ sdp hc
  · intro t ct g hct hg
    constructor
    · intro ha
      subst ha
      rfl
    · intro ho
      subst ho
      constructor
      · simp [P2PCall.handle, P2PCall.applyRemoteSdpTask, Description.parseType,
          P2PCall.sendLocalDescription, hct]
      · intro st d
        simp [P2PCall.handleAll, P2PCall.handle, P2PCall.applyRemoteSdpTask,
          Description.parseType, P2PCall.sendLocalDescription, hct,
          P2PCall.sendLocalDescriptionTask, P2PCall.send, hg]

set_option maxRecDepth 100000 in
/-- C26, on concrete sessions: the connected Incoming session applies an inbound
offer and, once the transport has applied it and set its answer, sends the
answer; the connected Outgoing session applies an inbound answer and sends
nothing for it. -/
theorem remote_description_applied_witness :
    (sampleIncoming.processSignalingData sampleJson
      (sampleJson.to_string (descriptionEnvelope { type := SdpType.Offer, sdp := "v=0" }))).2.remoteDescriptions
        = [{ type := SdpType.Offer, sdp := "v=0" }] ∧
    (P2PCall.handleAll sampleJson sampleIncoming
      [SignalingEvent.inbound
          (sampleJson.to_string (descriptionEnvelope { type := SdpType.Offer, sdp := "v=0" })),
        SignalingEvent.remoteDescriptionApplied SdpType.Offer,
        SignalingEvent.transport SignalingState.Stable (some { type := SdpType.Answer, sdp := "v=1" }),
        SignalingEvent.localDescriptionSet]).signaling.map (fun g => g.sent)
      = some ["\x7b\"@type\":\"answer\",\"sdp\":\"v=1\"\x7d"] ∧
    (sampleOutgoing.processSignalingData sampleJson
      (sampleJson.to_string (descriptionEnvelope { type := SdpType.Answer, sdp := "v=2" }))).2.remoteDescriptions
        = [{ type := SdpType.Answer, sdp := "v=2" }] ∧
    (sampleOutgoing.processSignalingData sampleJson
      (sampleJson.to_string (descriptionEnvelope { type := SdpType.Answer, sdp := "v=2" }))).2.handle
        sampleJson (SignalingEvent.remoteDescriptionApplied SdpType.Answer)
      = (sampleOutgoing.processSignalingData sampleJson
      (sampleJson.to_string (descriptionEnvelope { type := SdpType.Answer, sdp := "v=2" }))).2 :=
  have h1 := remote_description_applied sampleJson sampleIncoming
    ({ PeerConnection.create [] with tracksAdded := true } : PeerConnection)
    (sampleJson.to_string (descriptionEnvelope { type := SdpType.Offer, sdp := "v=0" }))
    [("@type", Json.string "offer"), ("sdp", Json.string "v=0")] "offer" "v=0" rfl rfl
    (Or.inl rfl) rfl (by decide) rfl
  ⟨h1.2.1, rfl, rfl, rfl⟩

set_option maxRecDepth 100000 in
/-- C26 as stated fails: the connected Incoming session receives an answer, and an
offer, that carry the number 5 as their `sdp`. Neither meets the glare
condition, yet `processSignalingData` throws the type error of the conversion
and nothing is handed to the transport. -/
theorem remote_description_applied_counterexample :
    sampleJson.parse (sampleJson.to_string (Json.object [("@type", Json.string "answer"),
        ("sdp", Json.number 5)]))
      = .ok (Json.object [("@type", Json.string "answer"), ("sdp", Json.number 5)]) ∧
    (Json.number 5).is_null = false ∧
    sampleIncoming.type = CallType.Incoming ∧
    (sampleIncoming.processSignalingData sampleJson
      (sampleJson.to_string (Json.object [("@type", Json.string "answer"),
        ("sdp", Json.number 5)]))) = (.error JsonException.type_error, sampleIncoming) ∧
    (sampleIncoming.processSignalingData sampleJson
      (sampleJson.to_string (Json.object [("@type", Json.string "offer"),
        ("sdp", Json.number 5)]))) = (.error JsonException.type_error, sampleIncoming) ∧
    sampleIncoming.remoteDescriptions = [] := by
  refine ⟨rfl, rfl, rfl, rfl, rfl, rfl⟩

/-- C29, the code where the claim fails: when the transport has no local
description, the completion task of `sendLocalDescription` returns before it
clears the flag, so after `sendLocalDescription` and its completion task
`isMakingOffer` is still true, nothing was sent, and a session in the Outgoing
role goes on dropping every inbound offer. -/
theorem isMakingOffer_left_set (lib : JsonLibrary) (s : P2PCall) (buffer : String)
    (fields : List (String × Json))
    (hd : s.connection.bind (fun c => c.localDescription) = none)
    (hrole : s.type = CallType.Outgoing)
    (hparse : lib.parse buffer = .ok (Json.object fields))
    (htype : fieldOf fields "@type" = Json.string "offer") :
    (s.sendLocalDescription.sendLocalDescriptionTask lib).isMakingOffer = true ∧
    (s.sendLocalDescription.sendLocalDescriptionTask lib).signaling = s.signaling ∧
    ((s.sendLocalDescription.sendLocalDescriptionTask lib).processSignalingData lib buffer).2
      = s.sendLocalDescription.sendLocalDescriptionTask lib := by
  have hd2 : s.sendLocalDescription.connection.bind (fun c => c.localDescription) = none := by
    unfold P2PCall.sendLocalDescription
    cases hc : s.connection with
    | none => rfl
    | some c => simpa [hc] using hd
  rw [sendLocalDescriptionTask_nothing lib _ hd2]
  refine ⟨rfl, rfl, ?_⟩
  unfold P2PCall.processSignalingData
  have hrole2 : s.sendLocalDescription.type = CallType.Outgoing := hrole
  have hflag : s.sendLocalDescription.isMakingOffer = true := rfl
  simp only [hparse, Json.get, htype, Json.is_null, Json.eqString]
  simp only [hrole2, hflag]
  simp

set_option maxRecDepth 100000 in
/-- C29, on a concrete session: the connected Outgoing session, whose transport
has no local description, still has `isMakingOffer` set after the completion
task has run. -/
theorem isMakingOffer_left_set_witness :
    (sampleOutgoing.handle sampleJson SignalingEvent.localDescriptionSet).isMakingOffer = true ∧
    (sampleOutgoing.sendLocalDescription.sendLocalDescriptionTask sampleJson).isMakingOffer
      = true :=
  have h := isMakingOffer_left_set sampleJson sampleOutgoing
    (sampleJson.to_string (descriptionEnvelope { type := SdpType.Offer, sdp := "v=0" }))
    [("@type", Json.string "offer"), ("sdp", Json.string "v=0")] rfl rfl rfl rfl
  ⟨rfl, h.1⟩

/-! Shared lemmas of the connection wait. -/

theorem ConnectingCall.run_events_append (w : ConnectingCall)
    (xs ys : List (ConnectEvent wrtc.PeerConnectionState)) :
    w.run (xs ++ ys) = (w.run xs).run ys := by
  induction xs generalizing w with
  | nil => rfl
  | cons x rest ih => exact ih (w.step x)

theorem ConnectingCall.step_flag_clear (w : ConnectingCall)
    (event : ConnectEvent wrtc.PeerConnectionState) (hflag : w.call.connected = false) :
    (w.step event).call = w.call ∧ (w.step event).registered = w.registered ∧
    (w.step event).closeConnections = w.closeConnections := by
  cases event with
  | leave => exact ⟨rfl, rfl, rfl⟩
  | report state =>
    unfold ConnectingCall.step ConnectingCall.onConnectionChange
    cases state <;> simp [hflag] <;> split_ifs <;> simp

theorem ConnectingCall.run_flag_clear (w : ConnectingCall)
    (events : List (ConnectEvent wrtc.PeerConnectionState))
    (hflag : w.call.connected = false) :
    (w.run events).call = w.call ∧ (w.run events).registered = w.registered ∧
    (w.run events).closeConnections = w.closeConnections := by
  induction events generalizing w with
  | nil => exact ⟨rfl, rfl, rfl⟩
  | cons event rest ih =>
    have h1 := ConnectingCall.step_flag_clear w event hflag
    have h2 := ih (w.step event) (by rw [h1.1]; exact hflag)
    show (ConnectingCall.run (w.step event) rest).call = w.call ∧ _
    exact ⟨h2.1.trans h1.1, h2.2.1.trans h1.2.1, h2.2.2.trans h1.2.2⟩

theorem ConnectingCall.run_detached (w : ConnectingCall)
    (events : List (ConnectEvent wrtc.PeerConnectionState)) (hreg : w.registered = false) :
    (w.run events).call = w.call ∧ (w.run events).registered = false ∧
    (w.run events).closeConnections = w.closeConnections := by
  induction events generalizing w with
  | nil => exact ⟨rfl, hreg, rfl⟩
  | cons event rest ih =>
    have hs : (w.step event).call = w.call ∧ (w.step event).registered = false ∧
        (w.step event).closeConnections = w.closeConnections := by
      cases event with
      | leave => exact ⟨rfl, hreg, rfl⟩
      | report state => simp [ConnectingCall.step, hreg]
    have h2 := ih (w.step event) hs.2.1
    show (ConnectingCall.run (w.step event) rest).call = w.call ∧ _
    exact ⟨h2.1.trans hs.1, h2.2.1, h2.2.2.trans hs.2.2⟩

/-- While `connect` is inside its wait and no `Connected` state is reported to
the handler of a session that is not marked connected, the local is alive and
unused after destruction, and the wait is unresolved or failed with the error
of the handler. -/
theorem ConnectingCall.run_no_connected (w : ConnectingCall)
    (states : List wrtc.PeerConnectionState) (hflag : w.call.connected = false)
    (hreg : w.registered = true) (halive : w.waitConnection.alive = true)
    (hdang : w.waitConnection.dangling = false)
    (hnone : wrtc.PeerConnectionState.Connected ∉ states)
    (hw : w.waitConnection.wait.outcome = none ∨ w.waitConnection.wait.outcome
      = some (.error (.TelegramServerError "Error while connecting to the P2P call server"))) :
    (w.run (states.map ConnectEvent.report)).waitConnection.alive = true ∧
    (w.run (states.map ConnectEvent.report)).waitConnection.dangling = false ∧
    ((w.run (states.map ConnectEvent.report)).waitConnection.wait.outcome = none ∨
      (w.run (states.map ConnectEvent.report)).waitConnection.wait.outcome
        = some (.error (.TelegramServerError "Error while connecting to the P2P call server"))) := by
  induction states generalizing w with
  | nil => exact ⟨halive, hdang, hw⟩
  | cons state rest ih =>
    have h1 := ConnectingCall.step_flag_clear w (ConnectEvent.report state) hflag
    have hne : state ≠ wrtc.PeerConnectionState.Connected := by
      intro h
      exact hnone (by simp [h])
    have hrest : wrtc.PeerConnectionState.Connected ∉ rest := by
      intro h
      exact hnone (List.mem_cons_of_mem _ h)
    have hs : (w.step (ConnectEvent.report state)).waitConnection.alive = true ∧
        (w.step (ConnectEvent.report state)).waitConnection.dangling = false ∧
        ((w.step (ConnectEvent.report state)).waitConnection.wait.outcome = none ∨
          (w.step (ConnectEvent.report state)).waitConnection.wait.outcome
            = some (.error
              (.TelegramServerError "Error while connecting to the P2P call server"))) := by
      unfold ConnectingCall.step ConnectingCall.onConnectionChange
      rcases hw with hw | hw
      · cases state <;>
          simp [hflag, hreg, halive, hdang, hw, WaitReference.onFailed, Sync.onFailed] at hne ⊢
      · cases state <;>
          simp [hflag, hreg, halive, hdang, hw, WaitReference.onFailed, Sync.onFailed] at hne ⊢
    exact ih (w.step (ConnectEvent.report state)) (by rw [h1.1]; exact hflag)
      (by rw [h1.2.1]; exact hreg) hs.1 hs.2.1 hrest hs.2.2

/-- A failure state reported while `connect` is inside its wait fails the wait
with the error of the handler; when `connect` has then left, the handler is
still registered, and the next failure state makes it use the destroyed local. -/
theorem ConnectingCall.failure_then_leave (w : ConnectingCall)
    (failure later : wrtc.PeerConnectionState) (hflag : w.call.connected = false)
    (hreg : w.registered = true) (halive : w.waitConnection.alive = true)
    (hdang : w.waitConnection.dangling = false)
    (hf : failure = wrtc.PeerConnectionState.Disconnected ∨
      failure = wrtc.PeerConnectionState.Failed ∨ failure = wrtc.PeerConnectionState.Closed)
    (hl : later = wrtc.PeerConnectionState.Disconnected ∨
      later = wrtc.PeerConnectionState.Failed ∨ later = wrtc.PeerConnectionState.Closed)
    (hw : w.waitConnection.wait.outcome = none ∨ w.waitConnection.wait.outcome
      = some (.error (.TelegramServerError "Error while connecting to the P2P call server"))) :
    (w.run [ConnectEvent.report failure]).waitConnection.wait.outcome
      = some (.error (.TelegramServerError "Error while connecting to the P2P call server")) ∧
    (w.run [ConnectEvent.report failure]).waitConnection.dangling = false ∧
    (w.run [ConnectEvent.report failure, ConnectEvent.leave,
      ConnectEvent.report later]).registered = true ∧
    (w.run [ConnectEvent.report failure, ConnectEvent.leave,
      ConnectEvent.report later]).waitConnection.alive = false ∧
    (w.run [ConnectEvent.report failure, ConnectEvent.leave,
      ConnectEvent.report later]).waitConnection.dangling = true := by
  simp only [ConnectingCall.run, ConnectingCall.step, ConnectingCall.onConnectionChange]
  rcases hw with hw | hw <;> rcases hf with rfl | rfl | rfl <;> rcases hl with rfl | rfl | rfl <;>
    simp [hflag, hreg, halive, hdang, hw, WaitReference.onFailed, Sync.onFailed,
      WaitReference.leave]

theorem connect_started (P : Primitives) (s : P2PCall) (servers : List RTCServer)
    (versions : List String) (own : Bytes) (key : RawKey) (w : Except Exception Unit)
    (hconn : s.connection = none) (hg : s.g_a_or_b = some own) (hk : s.key = some key) :
    (s.connect P servers versions w).1 = w ∧
    (s.connect P servers versions w).2.connected = s.connected := by
  unfold P2PCall.connect
  simp only [hconn, hg, hk]
  constructor
  · rfl
  · simp only [Option.isSome_none, Bool.false_eq_true, if_false]
    split_ifs <;> rfl

theorem Client.watch_append (w : WaitReference) (xs ys : List (ConnectEvent wrtc.IceState)) :
    Client.watch w (xs ++ ys) = Client.watch (Client.watch w xs) ys := by
  induction xs generalizing w with
  | nil => rfl
  | cons x rest ih =>
    cases x with
    | report state => exact ih (Client.onIceStateChange w state)
    | leave => exact ih w.leave

theorem Client.watch_no_connected (w : WaitReference) (states : List wrtc.IceState)
    (halive : w.alive = true) (hdang : w.dangling = false)
    (hnone : wrtc.IceState.Connected ∉ states)
    (hw : w.wait.outcome = none ∨ w.wait.outcome
      = some (.error (.ConnectionError "Connection failed to Telegram WebRTC"))) :
    (Client.watch w (states.map ConnectEvent.report)).alive = true ∧
    (Client.watch w (states.map ConnectEvent.report)).dangling = false ∧
    ((Client.watch w (states.map ConnectEvent.report)).wait.outcome = none ∨
      (Client.watch w (states.map ConnectEvent.report)).wait.outcome
        = some (.error (.ConnectionError "Connection failed to Telegram WebRTC"))) := by
  induction states generalizing w with
  | nil => exact ⟨halive, hdang, hw⟩
  | cons state rest ih =>
    have hne : state ≠ wrtc.IceState.Connected := by
      intro h
      exact hnone (by simp [h])
    have hrest : wrtc.IceState.Connected ∉ rest := by
      intro h
      exact hnone (List.mem_cons_of_mem _ h)
    have hs : (Client.onIceStateChange w state).alive = true ∧
        (Client.onIceStateChange w state).dangling = false ∧
        ((Client.onIceStateChange w state).wait.outcome = none ∨
          (Client.onIceStateChange w state).wait.outcome
            = some (.error (.ConnectionError "Connection failed to Telegram WebRTC"))) := by
      unfold Client.onIceStateChange
      rcases hw with hw | hw
      · cases state <;>
          simp [halive, hdang, hw, WaitReference.onFailed, Sync.onFailed] at hne ⊢
      · cases state <;>
          simp [halive, hdang, hw, WaitReference.onFailed, Sync.onFailed] at hne ⊢
    exact ih (Client.onIceStateChange w state) hs.1 hs.2.1 hrest hs.2.2

theorem Client.ice_failure_then_leave (w : WaitReference) (failure later : wrtc.IceState)
    (halive : w.alive = true) (hdang : w.dangling = false)
    (hf : failure = wrtc.IceState.Disconnected ∨ failure = wrtc.IceState.Failed ∨
      failure = wrtc.IceState.Closed)
    (hl : later = wrtc.IceState.Disconnected ∨ later = wrtc.IceState.Failed ∨
      later = wrtc.IceState.Closed)
    (hw : w.wait.outcome = none ∨ w.wait.outcome
      = some (.error (.ConnectionError "Connection failed to Telegram WebRTC"))) :
    (Client.watch w [ConnectEvent.report failure]).wait.outcome
      = some (.error (.ConnectionError "Connection failed to Telegram WebRTC")) ∧
    (Client.watch w [ConnectEvent.report failure]).dangling = false ∧
    (Client.watch w [ConnectEvent.report failure, ConnectEvent.leave,
      ConnectEvent.report later]).alive = false ∧
    (Client.watch w [ConnectEvent.report failure, ConnectEvent.leave,
      ConnectEvent.report later]).dangling = true := by
  simp only [Client.watch, Client.onIceStateChange]
  rcases hw with hw | hw <;> rcases hf with rfl | rfl | rfl <;> rcases hl with rfl | rfl | rfl <;>
    simp [halive, hdang, hw, WaitReference.onFailed, Sync.onFailed, WaitReference.leave]
/-! Theorems about the connection wait of `P2PCall::connect` and `Client::connect`. -/

/-- C21, the code where the claim fails: in `P2PCall::connect` on a session that
passes the guards and is not marked connected, and in `Client::connect` on a
payload that passes the validation, a disconnected, failed or closed state
reported before any connected state fails the wait with the error of the
handler (`TelegramServerError` for the P2P call, `ConnectionError` for the group
call), `connect` throws it, and the group call has not started its stream. But
`connect` leaves without detaching the handler, which holds a reference to the
local `waitConnection`: when the transport then reports a failure state once
more, the handler is still registered and calls `onFailed` on the destroyed
local. -/
theorem wait_used_after_connect_left {StreamConfig : Type} (P : Primitives) (s : P2PCall)
    (servers : List RTCServer) (versions : List String) (own : Bytes) (key : RawKey)
    (lib : JsonLibrary) (fromConference : wrtc.Conference → String)
    (client : Client StreamConfig) (jsonData : String) (conference : wrtc.Conference)
    (before : List wrtc.PeerConnectionState) (failure later : wrtc.PeerConnectionState)
    (iceBefore : List wrtc.IceState) (iceFailure iceLater : wrtc.IceState)
    (hconn : s.connection = none) (hg : s.g_a_or_b = some own) (hk : s.key = some key)
    (hflag : s.connected = false)
    (hbefore : wrtc.PeerConnectionState.Connected ∉ before)
    (hfailure : failure = wrtc.PeerConnectionState.Disconnected ∨
      failure = wrtc.PeerConnectionState.Failed ∨ failure = wrtc.PeerConnectionState.Closed)
    (hlater : later = wrtc.PeerConnectionState.Disconnected ∨
      later = wrtc.PeerConnectionState.Failed ∨ later = wrtc.PeerConnectionState.Closed)
    (hpayload : client.readPayload lib jsonData = .ok conference)
    (hiceBefore : wrtc.IceState.Connected ∉ iceBefore)
    (hiceFailure : iceFailure = wrtc.IceState.Disconnected ∨
      iceFailure = wrtc.IceState.Failed ∨ iceFailure = wrtc.IceState.Closed)
    (hiceLater : iceLater = wrtc.IceState.Disconnected ∨
      iceLater = wrtc.IceState.Failed ∨ iceLater = wrtc.IceState.Closed) :
    s.connectWith P servers versions (before ++ [failure])
      = some (.error (.TelegramServerError "Error while connecting to the P2P call server")) ∧
    ((ConnectingCall.waiting (s.connect P servers versions (.ok ())).2).run
      (before.map ConnectEvent.report ++ [ConnectEvent.report failure])).waitConnection.dangling
        = false ∧
    ((ConnectingCall.waiting (s.connect P servers versions (.ok ())).2).run
      (before.map ConnectEvent.report ++ [ConnectEvent.report failure, ConnectEvent.leave,
        ConnectEvent.report later])).registered = true ∧
    ((ConnectingCall.waiting (s.connect P servers versions (.ok ())).2).run
      (before.map ConnectEvent.report ++ [ConnectEvent.report failure, ConnectEvent.leave,
        ConnectEvent.report later])).waitConnection.alive = false ∧
    ((ConnectingCall.waiting (s.connect P servers versions (.ok ())).2).run
      (before.map ConnectEvent.report ++ [ConnectEvent.report failure, ConnectEvent.leave,
        ConnectEvent.report later])).waitConnection.dangling = true ∧
    (client.connect lib fromConference jsonData (iceBefore ++ [iceFailure])).1
      = some (.error (Thrown.exception
          (.ConnectionError "Connection failed to Telegram WebRTC"))) ∧
    (client.connect lib fromConference jsonData (iceBefore ++ [iceFailure])).2.stream
      = client.stream ∧
    (Client.watch WaitReference.fresh
      (iceBefore.map ConnectEvent.report ++ [ConnectEvent.report iceFailure, ConnectEvent.leave,
        ConnectEvent.report iceLater])).alive = false ∧
    (Client.watch WaitReference.fresh
      (iceBefore.map ConnectEvent.report ++ [ConnectEvent.report iceFailure, ConnectEvent.leave,
        ConnectEvent.report iceLater])).dangling = true := by
  have hstart := connect_started P s servers versions own key (.ok ()) hconn hg hk
  -- the P2P call
  have hflag0 : (ConnectingCall.waiting (s.connect P servers versions (.ok ())).2).call.connected
      = false := hstart.2.trans hflag
  have hb := ConnectingCall.run_flag_clear
    (ConnectingCall.waiting (s.connect P servers versions (.ok ())).2)
    (before.map ConnectEvent.report) hflag0
  have hw1 := ConnectingCall.run_no_connected
    (ConnectingCall.waiting (s.connect P servers versions (.ok ())).2) before hflag0 rfl rfl rfl
    hbefore (Or.inl rfl)
  have hf := ConnectingCall.failure_then_leave
    ((ConnectingCall.waiting (s.connect P servers versions (.ok ())).2).run
      (before.map ConnectEvent.report)) failure later
    (by rw [hb.1]; exact hflag0) (by rw [hb.2.1]; rfl) hw1.1 hw1.2.1 hfailure hlater hw1.2.2
  -- the group call
  have hi1 := Client.watch_no_connected WaitReference.fresh iceBefore rfl rfl hiceBefore
    (Or.inl rfl)
  have hif := Client.ice_failure_then_leave
    (Client.watch WaitReference.fresh (iceBefore.map ConnectEvent.report)) iceFailure iceLater
    hi1.1 hi1.2.1 hiceFailure hiceLater hi1.2.2
  have hiout : (Client.watch WaitReference.fresh
      ((iceBefore ++ [iceFailure]).map ConnectEvent.report)).wait.outcome
      = some (.error (.ConnectionError "Connection failed to Telegram WebRTC")) := by
    rw [List.map_append, Client.watch_append]
    exact hif.1
  refine ⟨?_, ?_, ?_, ?_, ?_, ?_, ?_, ?_, ?_⟩
  · unfold P2PCall.connectWith
    have h1 : s.connect P servers versions (.ok ())
        = (.ok (), (s.connect P servers versions (.ok ())).2) := Prod.ext hstart.1 rfl
    rw [h1]
    simp only []
    rw [List.map_append, ConnectingCall.run_events_append]
    exact hf.1
  · rw [ConnectingCall.run_events_append]
    exact hf.2.1
  · rw [ConnectingCall.run_events_append]
    exact hf.2.2.1
  · rw [ConnectingCall.run_events_append]
    exact hf.2.2.2.1
  · rw [ConnectingCall.run_events_append]
    exact hf.2.2.2.2
  · unfold Client.connect
    simp only [hpayload, hiout]
  · unfold Client.connect
    simp only [hpayload, hiout]
  · rw [Client.watch_append]
    exact hif.2.2.1
  · rw [Client.watch_append]
    exact hif.2.2.2

set_option maxRecDepth 100000 in
/-- C21, on concrete inputs: the transport of the keyed Outgoing session reports
`New` and `Failed`, `connect` throws `TelegramServerError` and leaves, the
transport reports `Closed`, and the handler has used the destroyed local; the
same for the group-call client with `Disconnected`, then `Failed`. -/
theorem wait_used_after_connect_left_witness :
    sampleKeyed.connectWith samplePrimitives [] ["11.0.0"]
        [wrtc.PeerConnectionState.New, wrtc.PeerConnectionState.Failed]
      = some (.error (.TelegramServerError "Error while connecting to the P2P call server")) ∧
    ((ConnectingCall.waiting (sampleKeyed.connect samplePrimitives [] ["11.0.0"] (.ok ())).2).run
      [ConnectEvent.report wrtc.PeerConnectionState.New,
        ConnectEvent.report wrtc.PeerConnectionState.Failed, ConnectEvent.leave,
        ConnectEvent.report wrtc.PeerConnectionState.Closed]).waitConnection.dangling = true ∧
    (sampleClient.connect sampleJson (fun _ => "v=0") samplePayload
        [wrtc.IceState.Disconnected]).1
      = some (.error (Thrown.exception
          (.ConnectionError "Connection failed to Telegram WebRTC"))) ∧
    (Client.watch WaitReference.fresh
      [ConnectEvent.report wrtc.IceState.Disconnected, ConnectEvent.leave,
        ConnectEvent.report wrtc.IceState.Failed]).dangling = true :=
  have h := wait_used_after_connect_left samplePrimitives sampleKeyed [] ["11.0.0"] _ _
    sampleJson (fun _ => "v=0") sampleClient samplePayload sampleConference
    [wrtc.PeerConnectionState.New] wrtc.PeerConnectionState.Failed
    wrtc.PeerConnectionState.Closed [] wrtc.IceState.Disconnected wrtc.IceState.Failed
    rfl rfl rfl rfl (by decide) (Or.inr (Or.inl rfl)) (Or.inr (Or.inr rfl)) rfl (by decide)
    (Or.inl rfl) (Or.inr (Or.inl rfl))
  ⟨h.1, h.2.2.2.2.1, h.2.2.2.2.2.1, h.2.2.2.2.2.2.2.2⟩

/-- C22, the code where the claim fails: the handler installed by
`P2PCall::connect` never sets `connected`. On a session that is not marked
connected, as `connect` has it, whatever states the transport reports (a
failure state after a connected one among them) and whenever `connect` leaves,
the flag stays false, the handler stays registered and `onCloseConnection` is
not called. The teardown branch is reached only on a session marked connected
by other means: there the first failure state detaches the handler and calls
`onCloseConnection` once, and no later state reaches the handler. -/
theorem teardown_not_reached (w : ConnectingCall)
    (events : List (ConnectEvent wrtc.PeerConnectionState)) :
    (w.call.connected = false →
      (w.run events).closeConnections = w.closeConnections ∧
      (w.run events).registered = w.registered ∧
      (w.run events).call.connected = false) ∧
    (w.call.connected = true → w.registered = true →
      ∀ failure : wrtc.PeerConnectionState,
        failure = wrtc.PeerConnectionState.Disconnected ∨
          failure = wrtc.PeerConnectionState.Failed ∨
          failure = wrtc.PeerConnectionState.Closed →
        (w.run (ConnectEvent.report failure :: events)).closeConnections
          = w.closeConnections + 1 ∧
        (w.run (ConnectEvent.report failure :: events)).registered = false) := by
  constructor
  · intro hflag
    have h := ConnectingCall.run_flag_clear w events hflag
    exact ⟨h.2.2, h.2.1, by rw [h.1]; exact hflag⟩
  · intro hflag hreg failure hf
    have hs : (w.step (ConnectEvent.report failure)).registered = false ∧
        (w.step (ConnectEvent.report failure)).closeConnections = w.closeConnections + 1 := by
      unfold ConnectingCall.step ConnectingCall.onConnectionChange
      rcases hf with rfl | rfl | rfl <;> simp [hflag, hreg]
    have hd := ConnectingCall.run_detached (w.step (ConnectEvent.report failure)) events hs.1
    show (ConnectingCall.run (w.step (ConnectEvent.report failure)) events).closeConnections = _ ∧
      (ConnectingCall.run (w.step (ConnectEvent.report failure)) events).registered = false
    exact ⟨hd.2.2.trans hs.2, hd.2.1⟩

set_option maxRecDepth 100000 in
/-- C22, on a concrete session: the connected Outgoing session, as `connect`
leaves it, handles `Connected`, `connect` returns, and it handles `Failed`;
`onCloseConnection` was not called and the handler is still registered. -/
theorem teardown_not_reached_witness :
    ((ConnectingCall.waiting sampleOutgoing).run
      [ConnectEvent.report wrtc.PeerConnectionState.Connected, ConnectEvent.leave,
        ConnectEvent.report wrtc.PeerConnectionState.Failed]).closeConnections = 0 ∧
    ((ConnectingCall.waiting sampleOutgoing).run
      [ConnectEvent.report wrtc.PeerConnectionState.Connected, ConnectEvent.leave,
        ConnectEvent.report wrtc.PeerConnectionState.Failed]).registered = true ∧
    ((ConnectingCall.waiting sampleOutgoing).run
      [ConnectEvent.report wrtc.PeerConnectionState.Connected, ConnectEvent.leave,
        ConnectEvent.report wrtc.PeerConnectionState.Failed]).call.connected = false :=
  (teardown_not_reached (ConnectingCall.waiting sampleOutgoing)
    [ConnectEvent.report wrtc.PeerConnectionState.Connected, ConnectEvent.leave,
      ConnectEvent.report wrtc.PeerConnectionState.Failed]).1 rfl

/-! Shared lemmas of the payload reader of `Client::connect`. -/

theorem Json.stringAt_object_none (fields : List (String × Json)) (key : String)
    (h : ∀ s, fieldOf fields key ≠ Json.string s) : (Json.object fields).stringAt key = none := by
  unfold Json.stringAt Json.get
  simp only []
  cases hv : fieldOf fields key with
  | string s => exact absurd hv (h s)
  | _ => rfl

theorem Client.readFingerprints_none (items : List Json)
    (h : ∃ item ∈ items, item.stringAt "hash" = none ∨ item.stringAt "fingerprint" = none) :
    Client.readFingerprints items = none := by
  induction items with
  | nil =>
    obtain ⟨item, hmem, _⟩ := h
    simp at hmem
  | cons first rest ih =>
    obtain ⟨item, hmem, hbad⟩ := h
    unfold Client.readFingerprints
    rcases List.mem_cons.mp hmem with rfl | hrest
    · rcases hbad with hb | hb
      · simp [hb]
      · cases hh : item.stringAt "hash" <;> simp [hb]
    · rw [ih ⟨item, hrest, hbad⟩]
      cases first.stringAt "hash" <;> cases first.stringAt "fingerprint" <;> rfl

theorem Client.readCandidate_none (item : Json) (key : String)
    (hkey : key ∈ Client.candidateFields) (h : item.stringAt key = none) :
    Client.readCandidate item = none := by
  unfold Client.readCandidate
  simp only [Client.candidateFields, List.mem_cons, List.mem_singleton, List.not_mem_nil,
    or_false] at hkey
  rcases hkey with rfl | rfl | rfl | rfl | rfl | rfl | rfl | rfl | rfl | rfl <;>
    simp [h, Option.bind_eq_none]

theorem Client.readCandidates_none (items : List Json)
    (h : ∃ item ∈ items, Client.readCandidate item = none) :
    Client.readCandidates items = none := by
  induction items with
  | nil =>
    obtain ⟨item, hmem, _⟩ := h
    simp at hmem
  | cons first rest ih =>
    obtain ⟨item, hmem, hbad⟩ := h
    unfold Client.readCandidates
    rcases List.mem_cons.mp hmem with rfl | hrest
    · simp [hbad]
    · rw [ih ⟨item, hrest, hbad⟩]
      cases Client.readCandidate first <;> rfl

/-- The transport object makes the `try` block of `Client::connect` throw when
`ufrag` or `pwd` does not convert to a string, when an item of `fingerprints`
lacks a string `hash` or `fingerprint`, or when an item of `candidates` lacks
one of the ten strings. -/
theorem Client.readConference_none {StreamConfig : Type} (self : Client StreamConfig)
    (data : Json)
    (h : data.stringAt "ufrag" = none ∨ data.stringAt "pwd" = none ∨
      (∃ jsonFingerprints, data.get "fingerprints" = .ok jsonFingerprints ∧
        ∃ item ∈ jsonFingerprints.items,
          item.stringAt "hash" = none ∨ item.stringAt "fingerprint" = none) ∨
      (∃ jsonCandidates, data.get "candidates" = .ok jsonCandidates ∧
        ∃ item ∈ jsonCandidates.items, ∃ key ∈ Client.candidateFields,
          item.stringAt key = none)) :
    self.readConference data = none := by
  unfold Client.readConference
  rcases h with h | h | ⟨fp, hfp, hitem⟩ | ⟨cs, hcs, item, hmem, key, hkey, hbad⟩
  · simp [h]
  · cases data.stringAt "ufrag" <;> simp [h]
  · cases data.stringAt "ufrag" <;> cases data.stringAt "pwd" <;>
      simp [hfp, Client.readFingerprints_none _ hitem]
  · have hc := Client.readCandidates_none cs.items
      ⟨item, hmem, Client.readCandidate_none item key hkey hbad⟩
    cases data.stringAt "ufrag" <;> cases data.stringAt "pwd" <;>
      cases data.get "fingerprints" with
      | error e => simp
      | ok fp =>
        first
          | (simp only [hcs, hc]; done)
          | (simp only [hcs, hc]; split <;> rfl)

/-! Theorems about `Client::connect`. -/

/-- C25: on a payload that parses to a JSON object, `Client::connect` throws
`RTMPNeeded` when `rtmp` is not null; else `InvalidParams` when `transport` is
missing or null; else `InvalidParams` when, in the transport, `ufrag` or `pwd`,
the `hash` or `fingerprint` of a fingerprint, or one of the ten fields of a
candidate does not convert to a string, as is the case of a field of an object
that is missing or is not a string. Each time the client is left as it was: no
remote description is applied and the stream is not started. -/
theorem connect_validation {StreamConfig : Type} (lib : JsonLibrary)
    (fromConference : wrtc.Conference → String) (client : Client StreamConfig)
    (jsonData : String) (fields : List (String × Json)) (events : List wrtc.IceState)
    (hparse : lib.parse jsonData = .ok (Json.object fields)) :
    ((fieldOf fields "rtmp").is_null = false →
      client.connect lib fromConference jsonData events
        = (some (.error (Thrown.exception (.RTMPNeeded "Needed rtmp connection"))), client)) ∧
    ((fieldOf fields "rtmp").is_null = true → (fieldOf fields "transport").is_null = true →
      client.connect lib fromConference jsonData events
        = (some (.error (Thrown.exception (.InvalidParams "Transport not found"))), client)) ∧
    ((fieldOf fields "rtmp").is_null = true → (fieldOf fields "transport").is_null = false →
      ((fieldOf fields "transport").stringAt "ufrag" = none ∨
        (fieldOf fields "transport").stringAt "pwd" = none ∨
        (∃ jsonFingerprints,
          (fieldOf fields "transport").get "fingerprints" = .ok jsonFingerprints ∧
          ∃ item ∈ jsonFingerprints.items,
            item.stringAt "hash" = none ∨ item.stringAt "fingerprint" = none) ∨
        (∃ jsonCandidates,
          (fieldOf fields "transport").get "candidates" = .ok jsonCandidates ∧
          ∃ item ∈ jsonCandidates.items, ∃ key ∈ Client.candidateFields,
            item.stringAt key = none)) →
      client.connect lib fromConference jsonData events
        = (some (.error (Thrown.exception (.InvalidParams "Invalid transport"))), client)) ∧
    (∀ (item : List (String × Json)) (key : String),
      (∀ text, fieldOf item key ≠ Json.string text) →
      (Json.object item).stringAt key = none) := by
  refine ⟨?_, ?_, ?_, Json.stringAt_object_none⟩
  · intro hr
    simp [Client.connect, Client.readPayload, hparse, Json.get, hr]
  · intro hr ht
    simp [Client.connect, Client.readPayload, hparse, Json.get, hr, ht]
  · intro hr ht hbad
    simp [Client.connect, Client.readPayload, hparse, Json.get, hr, ht,
      Client.readConference_none client _ hbad]

set_option maxRecDepth 100000 in
/-- C25, on concrete payloads: a payload with `rtmp` gets `RTMPNeeded`, an empty
object gets `InvalidParams` for the missing transport, a transport without
`pwd` and a transport whose candidate has a number for `port` get
`InvalidParams`; the client is left without a remote description. -/
theorem connect_validation_witness :
    sampleClient.connect sampleJson (fun _ => "v=0") "\x7b\"rtmp\":1\x7d" []
      = (some (.error (Thrown.exception (.RTMPNeeded "Needed rtmp connection"))),
          sampleClient) ∧
    sampleClient.connect sampleJson (fun _ => "v=0") "\x7b\x7d" []
      = (some (.error (Thrown.exception (.InvalidParams "Transport not found"))),
          sampleClient) ∧
    sampleClient.connect sampleJson (fun _ => "v=0")
        "\x7b\"transport\":\x7b\"ufrag\":\"u\"\x7d\x7d" []
      = (some (.error (Thrown.exception (.InvalidParams "Invalid transport"))),
          sampleClient) ∧
    sampleClient.connect sampleJson (fun _ => "v=0")
        "\x7b\"transport\":\x7b\"ufrag\":\"u\",\"pwd\":\"p\",\"candidates\":[\x7b\"port\":1\x7d]\x7d\x7d" []
      = (some (.error (Thrown.exception (.InvalidParams "Invalid transport"))),
          sampleClient) ∧
    sampleClient.connection.map (fun c => c.remoteDescription) = some none :=
  have h1 := (connect_validation sampleJson (fun _ => "v=0") sampleClient
    "\x7b\"rtmp\":1\x7d" [("rtmp", Json.number 1)] [] rfl).1 rfl
  have h2 := (connect_validation sampleJson (fun _ => "v=0") sampleClient
    "\x7b\x7d" [] [] rfl).2.1 rfl rfl
  have h3 := (connect_validation sampleJson (fun _ => "v=0") sampleClient
    "\x7b\"transport\":\x7b\"ufrag\":\"u\"\x7d\x7d"
    [("transport", Json.object [("ufrag", Json.string "u")])] [] rfl).2.2.1 rfl rfl
    (Or.inr (Or.inl rfl))
  have h4 := (connect_validation sampleJson (fun _ => "v=0") sampleClient
    "\x7b\"transport\":\x7b\"ufrag\":\"u\",\"pwd\":\"p\",\"candidates\":[\x7b\"port\":1\x7d]\x7d\x7d"
    [("transport", Json.object [("ufrag", Json.string "u"), ("pwd", Json.string "p"),
      ("candidates", Json.array [Json.object [("port", Json.number 1)]])])] [] rfl).2.2.1 rfl rfl
    (Or.inr (Or.inr (Or.inr ⟨_, rfl, _, List.mem_singleton.mpr rfl, "port", by decide, rfl⟩)))
  ⟨h1, h2, h3, h4, rfl⟩

/-! Shared lemmas of the threaded reader. -/

theorem ThreadedReader.liveCount_moveTo_ge (pc : Nat → ThreadedReader.Pc) (i n : Nat)
    (p : ThreadedReader.Pc) (h : n ≤ i) :
    ThreadedReader.liveCount (fun j => if j = i then p else pc j) n
      = ThreadedReader.liveCount pc n := by
  induction n with
  | zero => rfl
  | succ n ih =>
    have hne : n ≠ i := by omega
    simp [ThreadedReader.liveCount, ih (by omega), hne]

theorem ThreadedReader.liveCount_moveTo_lt (pc : Nat → ThreadedReader.Pc) (i n : Nat)
    (p : ThreadedReader.Pc) (h : i < n) :
    ThreadedReader.liveCount (fun j => if j = i then p else pc j) n
        + (if (pc i).live then 1 else 0)
      = ThreadedReader.liveCount pc n + (if p.live then 1 else 0) := by
  induction n with
  | zero => omega
  | succ n ih =>
    by_cases hn : n = i
    · subst hn
      simp only [ThreadedReader.liveCount, if_true]
      rw [ThreadedReader.liveCount_moveTo_ge pc n n p (le_refl n)]
      omega
    · have hlt : i < n := by omega
      have := ih hlt
      simp only [ThreadedReader.liveCount, hn, if_false]
      omega

theorem ThreadedReader.liveCount_eq_zero (pc : Nat → ThreadedReader.Pc) (n : Nat)
    (h : ∀ w, w < n → (pc w).live = false) : ThreadedReader.liveCount pc n = 0 := by
  induction n with
  | zero => rfl
  | succ n ih =>
    simp [ThreadedReader.liveCount, ih (fun w hw => h w (by omega)), h n (by omega)]

theorem ThreadedReader.liveCount_succ_start (pc : Nat → ThreadedReader.Pc) (n : Nat)
    (h : pc n = .start) :
    ThreadedReader.liveCount pc (n + 1) = ThreadedReader.liveCount pc n := by
  simp [ThreadedReader.liveCount, h, ThreadedReader.Pc.live]

/-- Moving a worker keeps the count invariant when the counter follows the
move and, if the worker ends as the last one, `eofCallback` was called. -/
theorem ThreadedReader.moveTo_count (s s1 : ThreadedReader) (i : Nat) (p : ThreadedReader.Pc)
    (hi : i < s.spawned) (hinv : s.CountInvariant)
    (hspawned : s1.spawned = s.spawned) (hpc : s1.pc = s.pc)
    (hcount : s1.activeBufferCount + (if (s.pc i).live then 1 else 0)
      = s.activeBufferCount + (if p.live then 1 else 0))
    (heof : p = .done → (∀ w, w < s.spawned → w ≠ i → s.pc w = .done) → 1 ≤ s1.eofCalls) :
    (s1.moveTo i p).CountInvariant := by
  obtain ⟨h0, h1, h2⟩ := hinv
  have hlt := ThreadedReader.liveCount_moveTo_lt s.pc i s.spawned p hi
  refine ⟨?_, ?_, ?_⟩
  · intro w hw
    have hw2 : s.spawned ≤ w := by simpa [ThreadedReader.moveTo, hspawned] using hw
    have hne : w ≠ i := by omega
    simp [ThreadedReader.moveTo, hne, hpc]
    exact h0 w hw2
  · simp only [ThreadedReader.moveTo, hspawned, hpc]
    omega
  · intro _ hall
    simp only [ThreadedReader.moveTo, hspawned, hpc] at hall ⊢
    have hp : p = .done := by simpa using hall i hi
    refine heof hp ?_
    intro w hw hne
    simpa [hne] using hall w hw

theorem ThreadedReader.worker_count (s t : ThreadedReader) (i : Nat) (readOk : Bool)
    (hi : i < s.spawned) (hinv : s.CountInvariant) (h : s.worker i readOk = some t) :
    t.CountInvariant := by
  have hlive := ThreadedReader.liveCount_moveTo_lt s.pc i s.spawned .done hi
  unfold ThreadedReader.worker at h
  cases hpc : s.pc i <;> simp only [hpc] at h
  case start =>
    simp only [Option.some.injEq] at h
    subst h
    exact ThreadedReader.moveTo_count s _ i _ hi hinv rfl rfl (by simp [hpc, ThreadedReader.Pc.live])
      (by simp)
  case loop =>
    split_ifs at h <;> simp only [Option.some.injEq] at h <;> subst h <;>
      exact ThreadedReader.moveTo_count s _ i _ hi hinv rfl rfl
        (by simp [hpc, ThreadedReader.Pc.live]) (by simp)
  case lock =>
    split_ifs at h
    simp only [Option.some.injEq] at h
    subst h
    exact ThreadedReader.moveTo_count s _ i _ hi hinv rfl rfl
      (by simp [hpc, ThreadedReader.Pc.live]) (by simp)
  case read =>
    split_ifs at h <;> simp only [Option.some.injEq] at h <;> subst h <;>
      exact ThreadedReader.moveTo_count s _ i _ hi hinv rfl rfl
        (by simp [hpc, ThreadedReader.Pc.live]) (by simp)
  case wait =>
    split_ifs at h <;> simp only [Option.some.injEq] at h <;> subst h <;>
      exact ThreadedReader.moveTo_count s _ i _ hi hinv rfl rfl
        (by simp [hpc, ThreadedReader.Pc.live]) (by simp)
  case blocked =>
    split_ifs at h
    simp only [Option.some.injEq] at h
    subst h
    exact ThreadedReader.moveTo_count s _ i _ hi hinv rfl rfl
      (by simp [hpc, ThreadedReader.Pc.live]) (by simp)
  case woken =>
    split_ifs at h <;> simp only [Option.some.injEq] at h <;> subst h
    · exact ThreadedReader.moveTo_count s _ i _ hi hinv rfl rfl
        (by simp [hpc, ThreadedReader.Pc.live]) (by simp)
    · exact hinv
    · exact ThreadedReader.moveTo_count s _ i _ hi hinv rfl rfl
        (by simp [hpc, ThreadedReader.Pc.live]) (by simp)
  case sleep =>
    simp only [Option.some.injEq] at h
    subst h
    exact ThreadedReader.moveTo_count s _ i _ hi hinv rfl rfl
      (by simp [hpc, ThreadedReader.Pc.live]) (by simp)
  case leave =>
    simp only [Option.some.injEq] at h
    subst h
    have hge : 1 ≤ s.activeBufferCount := by
      rw [hinv.2.1]
      simp [hpc, ThreadedReader.Pc.live] at hlive
      omega
    exact ThreadedReader.moveTo_count s _ i _ hi hinv rfl rfl
      (by simp [hpc, ThreadedReader.Pc.live]; omega) (by simp)
  case check =>
    split_ifs at h with hz <;> simp only [Option.some.injEq] at h <;> subst h
    · exact ThreadedReader.moveTo_count s _ i _ hi hinv rfl rfl
        (by simp [hpc, ThreadedReader.Pc.live]) (by simp)
    · refine ThreadedReader.moveTo_count s _ i _ hi hinv rfl rfl
        (by simp [hpc, ThreadedReader.Pc.live]) ?_
      intro _ hall
      exfalso
      apply hz
      rw [hinv.2.1]
      apply ThreadedReader.liveCount_eq_zero
      intro w hw
      by_cases hwi : w = i
      · subst hwi
        simp [hpc, ThreadedReader.Pc.live]
      · simp [hall w hw hwi, ThreadedReader.Pc.live]
  case done => simp at h

/-- Every step of every thread keeps the count invariant. -/
theorem ThreadedReader.step_count (s t : ThreadedReader) (action : ThreadedReader.Action)
    (hinv : s.CountInvariant) (h : s.step action = some t) : t.CountInvariant := by
  cases action with
  | enter =>
    simp only [ThreadedReader.step] at h
    split_ifs at h
    simp only [Option.some.injEq] at h
    subst h
    exact hinv
  | spawn =>
    simp only [ThreadedReader.step] at h
    split_ifs at h
    simp only [Option.some.injEq] at h
    subst h
    obtain ⟨h0, h1, h2⟩ := hinv
    refine ⟨fun w hw => h0 w (by simp at hw; omega), ?_, ?_⟩
    · simp only
      rw [ThreadedReader.liveCount_succ_start _ _ (h0 _ (le_refl _))]
      exact h1
    · intro _ hall
      have := hall s.spawned (by simp)
      simp [h0 _ (le_refl _)] at this
  | push =>
    simp only [ThreadedReader.step] at h
    split_ifs at h
    simp only [Option.some.injEq] at h
    subst h
    exact hinv
  | work i readOk =>
    simp only [ThreadedReader.step] at h
    split_ifs at h with hc hi
    exact ThreadedReader.worker_count s t i readOk hi hinv h
  | destroy =>
    simp only [ThreadedReader.step] at h
    split_ifs at h
    simp only [Option.some.injEq] at h
    subst h
    exact hinv

theorem ThreadedReader.run_count (s t : ThreadedReader) (schedule : List ThreadedReader.Action)
    (hinv : s.CountInvariant) (h : s.run schedule = some t) : t.CountInvariant := by
  induction schedule generalizing s with
  | nil =>
    simp only [ThreadedReader.run, Option.some.injEq] at h
    subst h
    exact hinv
  | cons action rest ih =>
    simp only [ThreadedReader.run] at h
    cases hs : s.step action with
    | none => simp [hs] at h
    | some next =>
      simp only [hs] at h
      exact ih next (ThreadedReader.step_count s next action hinv hs) h

theorem ThreadedReader.new_count (bufferCount : Nat) :
    (ThreadedReader.new bufferCount).CountInvariant := by
  refine ⟨fun _ _ => rfl, rfl, ?_⟩
  intro h
  simp [ThreadedReader.new] at h

theorem ThreadedReader.worker_frame (s t : ThreadedReader) (i : Nat) (readOk : Bool)
    (hinv : s.FrameInvariant) (h : s.worker i readOk = some t) : t.FrameInvariant := by
  unfold ThreadedReader.worker at h
  intro w
  have hw := hinv w
  have hi := hinv i
  cases hpc : s.pc i <;> simp only [hpc] at h <;> (try split_ifs at h) <;>
    (try simp only [Option.some.injEq] at h) <;> (try subst h) <;>
    (try (exact absurd h (by simp))) <;>
    by_cases hwi : w = i <;> (try subst hwi) <;>
    simp_all [ThreadedReader.moveTo, ThreadedReader.Pc.delivering, ThreadedReader.Pc.left,
      List.count_append, List.count_singleton]

/-- A step of the thread that opens or destroys the reader changes nothing of
what the workers have reached, delivered or advanced. -/
theorem ThreadedReader.step_owner (s t : ThreadedReader) (action : ThreadedReader.Action)
    (hown : ∀ i readOk, action ≠ .work i readOk) (h : s.step action = some t) :
    t.pc = s.pc ∧ t.delivered = s.delivered ∧ t.advanced = s.advanced ∧ t.mtx = s.mtx ∧
    t.activeBuffer = s.activeBuffer ∧ t.crashed = false ∧ t.capacity = s.capacity ∧
    t.eofCalls = s.eofCalls := by
  cases action with
  | work i readOk => exact absurd rfl (hown i readOk)
  | enter =>
    simp only [ThreadedReader.step] at h
    split_ifs at h with hc
    simp only [Option.some.injEq] at h
    subst h
    simpa using hc
  | spawn =>
    simp only [ThreadedReader.step] at h
    split_ifs at h with hc
    simp only [Option.some.injEq] at h
    subst h
    simpa using hc
  | push =>
    simp only [ThreadedReader.step] at h
    split_ifs at h with hc
    simp only [Option.some.injEq] at h
    subst h
    simpa using hc
  | destroy =>
    simp only [ThreadedReader.step] at h
    split_ifs at h with hc
    simp only [Option.some.injEq] at h
    subst h
    simpa using hc

theorem ThreadedReader.step_work (s t : ThreadedReader) (i : Nat) (readOk : Bool)
    (h : s.step (.work i readOk) = some t) :
    s.crashed = false ∧ i < s.spawned ∧ s.worker i readOk = some t := by
  simp only [ThreadedReader.step] at h
  split_ifs at h with hc hi
  exact ⟨by simpa using hc, hi, h⟩

theorem ThreadedReader.step_frame (s t : ThreadedReader) (action : ThreadedReader.Action)
    (hinv : s.FrameInvariant) (h : s.step action = some t) : t.FrameInvariant := by
  by_cases hown : ∀ i readOk, action ≠ .work i readOk
  · obtain ⟨h1, h2, h3, _⟩ := ThreadedReader.step_owner s t action hown h
    unfold ThreadedReader.FrameInvariant
    rw [h1, h2, h3]
    exact hinv
  · push_neg at hown
    obtain ⟨i, readOk, rfl⟩ := hown
    exact ThreadedReader.worker_frame s t i readOk hinv (ThreadedReader.step_work s t i readOk h).2.2

theorem ThreadedReader.run_frame (s t : ThreadedReader) (schedule : List ThreadedReader.Action)
    (hinv : s.FrameInvariant) (h : s.run schedule = some t) : t.FrameInvariant := by
  induction schedule generalizing s with
  | nil =>
    simp only [ThreadedReader.run, Option.some.injEq] at h
    subst h
    exact hinv
  | cons action rest ih =>
    simp only [ThreadedReader.run] at h
    cases hs : s.step action with
    | none => simp [hs] at h
    | some next =>
      simp only [hs] at h
      exact ih next (ThreadedReader.step_frame s next action hinv hs) h

theorem ThreadedReader.worker_lock (s t : ThreadedReader) (i : Nat) (readOk : Bool)
    (hinv : s.LockInvariant) (h : s.worker i readOk = some t) : t.LockInvariant := by
  unfold ThreadedReader.worker at h
  intro w hlocked
  have hw := hinv w
  have hi := hinv i
  cases hpc : s.pc i <;> simp only [hpc] at h <;> (try split_ifs at h) <;>
    (try simp only [Option.some.injEq] at h) <;> (try subst h) <;>
    (try (exact absurd h (by simp))) <;>
    by_cases hwi : w = i <;> (try subst hwi) <;>
    simp_all +decide [ThreadedReader.moveTo]

/-- A step of a worker other than the advance leaves the active slot, the list
of advances and the running flag as they were, and takes the worker to the
advance only if the reader has stopped or the worker's slot is active. -/
theorem ThreadedReader.worker_other (s t : ThreadedReader) (i : Nat) (readOk : Bool)
    (hother : ¬ (s.pc i = .woken ∧ s.running = true)) (h : s.worker i readOk = some t) :
    t.size = s.size ∧ t.spawned = s.spawned ∧ t.capacity = s.capacity ∧
    t.opened = s.opened ∧ t.crashed = s.crashed ∧ t.activeBuffer = s.activeBuffer ∧
    t.advanced = s.advanced ∧ t.running = s.running ∧
    (∀ w, w ≠ i → t.pc w = s.pc w) ∧
    (t.pc i = .woken → s.running = false ∨ s.activeBuffer = i) := by
  unfold ThreadedReader.worker at h
  cases hpc : s.pc i <;> simp only [hpc] at h <;> (try split_ifs at h) <;>
    (try simp only [Option.some.injEq] at h) <;> (try subst h) <;>
    (try (exact absurd h (by simp))) <;>
    simp_all +decide [ThreadedReader.moveTo]

/-- The advance: a worker at the advance of a running reader with a non-empty
`bufferThreads` assigns `activeBuffer`, releases the lock and goes to sleep. -/
theorem ThreadedReader.worker_advance (s t : ThreadedReader) (i : Nat) (readOk : Bool)
    (hpc : s.pc i = .woken) (hrun : s.running = true) (hsize : s.size ≠ 0)
    (h : s.worker i readOk = some t) :
    t.size = s.size ∧ t.spawned = s.spawned ∧ t.capacity = s.capacity ∧
    t.opened = s.opened ∧ t.crashed = s.crashed ∧
    t.activeBuffer = (s.activeBuffer + 1) % s.size ∧
    t.advanced = s.advanced ++ [i] ∧ t.running = s.running ∧
    (∀ w, w ≠ i → t.pc w = s.pc w) ∧ t.pc i = .sleep := by
  unfold ThreadedReader.worker at h
  simp only [hpc, hrun, hsize] at h
  simp only [Bool.true_eq_false, if_false, Option.some.injEq] at h
  subst h
  simp +decide [ThreadedReader.moveTo, hrun]
  intro w h1 h2
  exact absurd h2 h1

theorem ThreadedReader.worker_turn (n : Nat) (s t : ThreadedReader) (i : Nat) (readOk : Bool)
    (hn : 0 < n) (hinv : s.TurnInvariant n) (h : s.worker i readOk = some t) :
    t.TurnInvariant n := by
  obtain ⟨hsize, hspawned, hcap, hopen, hcrash, hlock, hwoken, hact, hlog⟩ := hinv
  have hlock2 := ThreadedReader.worker_lock s t i readOk hlock h
  by_cases hadv : s.pc i = .woken ∧ s.running = true
  · obtain ⟨h1, h2, h3, h4, h5, h6, h7, h8, h9, h10⟩ :=
      ThreadedReader.worker_advance s t i readOk hadv.1 hadv.2 (by omega) h
    have hturn : s.activeBuffer = i := hwoken i hadv.1 hadv.2
    refine ⟨h1.trans hsize, h2.trans hspawned, h3.trans hcap, h4.trans hopen, h5.trans hcrash,
      hlock2, ?_, ?_, ?_⟩
    · intro w hw _
      exfalso
      by_cases hwi : w = i
      · subst hwi
        rw [h10] at hw
        exact absurd hw (by decide)
      · rw [h9 w hwi] at hw
        have hm1 := hlock w (by rw [hw]; rfl)
        have hm2 := hlock i (by rw [hadv.1]; rfl)
        rw [hm1] at hm2
        exact hwi (Option.some.inj hm2)
    · rw [h6, h7, hsize, hact, List.length_append, List.length_singleton, Nat.mod_add_mod]
    · intro k hk
      rw [h7] at hk ⊢
      rw [List.length_append, List.length_singleton] at hk
      by_cases hlt : k < s.advanced.length
      · rw [List.getElem?_append_left hlt]
        exact hlog k hlt
      · have hk2 : k = s.advanced.length := by omega
        subst hk2
        rw [List.getElem?_append_right (le_refl _)]
        simp only [Nat.sub_self, List.getElem?_cons_zero, Option.some.injEq]
        rw [← hturn, hact]
  · obtain ⟨h1, h2, h3, h4, h5, h6, h7, h8, h9, h10⟩ :=
      ThreadedReader.worker_other s t i readOk hadv h
    refine ⟨h1.trans hsize, h2.trans hspawned, h3.trans hcap, h4.trans hopen, h5.trans hcrash,
      hlock2, ?_, ?_, ?_⟩
    · intro w hw hrun
      rw [h8] at hrun
      rw [h6]
      by_cases hwi : w = i
      · subst hwi
        rcases h10 hw with hr | hr
        · rw [hr] at hrun
          exact absurd hrun (by decide)
        · exact hr
      · rw [h9 w hwi] at hw
        exact hwoken w hw hrun
    · rw [h6, h7]
      exact hact
    · rw [h7]
      exact hlog

theorem ThreadedReader.step_turn (n : Nat) (s t : ThreadedReader)
    (action : ThreadedReader.Action) (hn : 0 < n) (hinv : s.TurnInvariant n)
    (h : s.step action = some t) : t.TurnInvariant n := by
  cases action with
  | work i readOk =>
    exact ThreadedReader.worker_turn n s t i readOk hn hinv
      (ThreadedReader.step_work s t i readOk h).2.2
  | enter =>
    obtain ⟨_, _, _, hopen, _⟩ := hinv
    simp [ThreadedReader.step, hopen] at h
  | spawn =>
    obtain ⟨_, hspawned, hcap, _⟩ := hinv
    simp [ThreadedReader.step, hspawned, hcap] at h
  | push =>
    obtain ⟨hsize, hspawned, _⟩ := hinv
    simp [ThreadedReader.step, hspawned, hsize] at h
  | destroy =>
    obtain ⟨hsize, hspawned, hcap, hopen, hcrash, hlock, hwoken, hact, hlog⟩ := hinv
    simp only [ThreadedReader.step, hcrash] at h
    simp only [Bool.false_eq_true, if_false, Option.some.injEq] at h
    subst h
    exact ⟨hsize, hspawned, hcap, hopen, rfl, hlock, fun w _ hr => absurd hr (by simp),
      hact, hlog⟩

theorem ThreadedReader.run_turn (n : Nat) (s t : ThreadedReader)
    (schedule : List ThreadedReader.Action) (hn : 0 < n) (hinv : s.TurnInvariant n)
    (h : s.run schedule = some t) : t.TurnInvariant n := by
  induction schedule generalizing s with
  | nil =>
    simp only [ThreadedReader.run, Option.some.injEq] at h
    subst h
    exact hinv
  | cons action rest ih =>
    simp only [ThreadedReader.run] at h
    cases hs : s.step action with
    | none => simp [hs] at h
    | some next =>
      simp only [hs] at h
      exact ih next (ThreadedReader.step_turn n s next action hn hinv hs) h

theorem ThreadedReader.afterOpen_turn (n : Nat) :
    (ThreadedReader.afterOpen n).TurnInvariant n := by
  refine ⟨rfl, rfl, rfl, rfl, rfl, ?_, ?_, ?_, ?_⟩
  · intro w hw
    exact absurd hw (by simp [ThreadedReader.afterOpen, ThreadedReader.Pc.locked])
  · intro w hw
    exact absurd hw (by simp [ThreadedReader.afterOpen])
  · simp [ThreadedReader.afterOpen]
  · intro k hk
    simp [ThreadedReader.afterOpen] at hk

theorem ThreadedReader.afterOpen_frame (n : Nat) :
    (ThreadedReader.afterOpen n).FrameInvariant := by
  intro w
  simp [ThreadedReader.afterOpen, ThreadedReader.Pc.delivering]

theorem ThreadedReader.new_frame (n : Nat) : (ThreadedReader.new n).FrameInvariant := by
  intro w
  simp [ThreadedReader.new, ThreadedReader.Pc.delivering]

theorem ThreadedReader.run_append (s : ThreadedReader) (xs ys : List ThreadedReader.Action) :
    s.run (xs ++ ys) = (s.run xs).bind (fun t => t.run ys) := by
  induction xs generalizing s with
  | nil => rfl
  | cons x rest ih =>
    simp only [List.cons_append, ThreadedReader.run]
    cases s.step x with
    | none => rfl
    | some next => exact ih next

/-- When no worker runs before `open()` returns, `open()` leaves the reader with
its `bufferCount` workers created and pushed, none of them started. -/
theorem ThreadedReader.run_openSchedule (n k : Nat) (hk : k ≤ n) :
    (ThreadedReader.new n).run (ThreadedReader.openSchedule k)
      = some { ThreadedReader.afterOpen n with spawned := k, size := k } := by
  induction k with
  | zero => rfl
  | succ k ih =>
    rw [ThreadedReader.openSchedule, ThreadedReader.run_append, ih (by omega)]
    have hlt : k < n := by omega
    simp [ThreadedReader.run, ThreadedReader.step, ThreadedReader.afterOpen, hlt]

theorem ThreadedReader.run_open (n : Nat) :
    (ThreadedReader.new n).run (ThreadedReader.openSchedule n)
      = some (ThreadedReader.afterOpen n) :=
  ThreadedReader.run_openSchedule n n (le_refl n)

/-! Theorems about `ThreadedReader::open`. -/

/-- C23, as the code has it: a worker hands its frame to `dataCallback` as soon
as it holds the lock, before it waits for its slot, so the frames are delivered
in the order in which the workers take the lock. What follows the slots is the
advance of `activeBuffer`: on a reader with `n >= 1` workers whose `open()` has
returned before a worker ran, in every interleaving the `k`-th advance is made
by worker `k mod n`, `activeBuffer` is the number of advances modulo `n`, and
every worker has handed over as many frames as it has made advances, or one
more. -/
theorem advances_in_slot_order (n : Nat) (schedule : List ThreadedReader.Action)
    (s : ThreadedReader) (hn : 1 ≤ n)
    (hrun : (ThreadedReader.new n).run (ThreadedReader.openSchedule n ++ schedule) = some s) :
    (∀ k, k < s.advanced.length → s.advanced[k]? = some (k % n)) ∧
    s.activeBuffer = s.advanced.length % n ∧
    (∀ w, s.advanced.count w ≤ s.delivered.count w ∧
      s.delivered.count w ≤ s.advanced.count w + 1) := by
  rw [ThreadedReader.run_append, ThreadedReader.run_open] at hrun
  have hturn := ThreadedReader.run_turn n _ s schedule hn (ThreadedReader.afterOpen_turn n) hrun
  have hframe := ThreadedReader.run_frame _ s schedule (ThreadedReader.afterOpen_frame n) hrun
  obtain ⟨_, _, _, _, _, _, _, hact, hlog⟩ := hturn
  exact ⟨hlog, hact, fun w => (hframe w).2.2⟩

/-- C23, on a concrete schedule: of three workers, worker 2 takes the lock first
and blocks, then workers 0 and 1 go through the loop body, then worker 2
advances; the frames were delivered by 2, 0, 1 and the advances made by 0, 1, 2. -/
theorem advances_in_slot_order_witness :
    ∃ s, (ThreadedReader.new 3).run (ThreadedReader.openSchedule 3 ++
        (List.replicate 5 (ThreadedReader.Action.work 2 true) ++ ThreadedReader.firstRound 0 ++
          ThreadedReader.firstRound 1 ++ List.replicate 2 (ThreadedReader.Action.work 2 true)))
        = some s ∧
      s.delivered = [2, 0, 1] ∧ s.advanced = [0, 1, 2] ∧
      ∀ k, k < s.advanced.length → s.advanced[k]? = some (k % 3) :=
  ⟨_, rfl, rfl, rfl, (advances_in_slot_order 3
    (List.replicate 5 (ThreadedReader.Action.work 2 true) ++ ThreadedReader.firstRound 0 ++
      ThreadedReader.firstRound 1 ++ List.replicate 2 (ThreadedReader.Action.work 2 true))
    _ (by decide) rfl).1⟩

/-- C23 as stated fails: with three workers, once `open()` has returned, worker 2
takes the lock first, and the first frame handed to `dataCallback` is the one
it read, not the one of worker 0. -/
theorem advances_in_slot_order_counterexample :
    ¬ (∀ (schedule : List ThreadedReader.Action) (s : ThreadedReader),
        (ThreadedReader.new 3).run (ThreadedReader.openSchedule 3 ++ schedule) = some s →
        ∀ k, k < s.delivered.length → s.delivered[k]? = some (k % 3)) := by
  intro h
  have h0 := h (List.replicate 4 (ThreadedReader.Action.work 2 true)) _ rfl 0 (by decide)
  exact absurd h0 (by decide)

/-- C24, the code where the claim fails: with two workers, worker 0 runs to its
end on a failing read before worker 1 has started, finds the counter at zero
and calls `eofCallback`; worker 1 then does the same, so `eofCallback` is called
twice. It is also called twice when both workers decrement the counter before
either of them tests it. -/
theorem eofCallback_called_twice :
    ((ThreadedReader.new 2).run (ThreadedReader.openSchedule 2 ++
        ThreadedReader.failingRun 0 ++ ThreadedReader.failingRun 1)).map
      (fun s => (s.pc 0, s.pc 1, s.eofCalls))
        = some (ThreadedReader.Pc.done, ThreadedReader.Pc.done, 2) ∧
    ((ThreadedReader.new 2).run (ThreadedReader.openSchedule 2 ++
        List.replicate 4 (ThreadedReader.Action.work 0 false) ++
        List.replicate 4 (ThreadedReader.Action.work 1 false) ++
        [ThreadedReader.Action.work 0 false, ThreadedReader.Action.work 1 false,
          ThreadedReader.Action.work 0 false, ThreadedReader.Action.work 1 false])).map
      (fun s => (s.pc 0, s.pc 1, s.eofCalls))
        = some (ThreadedReader.Pc.done, ThreadedReader.Pc.done, 2) := by
  constructor <;> rfl

/-- C27, the code where the claim fails: the modulus of the advance is
`bufferThreads.size()` at that moment. With a buffer count of 2, when worker 0
goes twice through the loop body before `open()` has created worker 1, both
advances are taken modulo 1 and made by slot 0; when it reaches the advance
before `open()` has pushed it onto `bufferThreads`, the remainder is taken by
zero. -/
theorem advance_modulus_is_size :
    ((ThreadedReader.new 2).run
        ([ThreadedReader.Action.enter, ThreadedReader.Action.spawn, ThreadedReader.Action.push] ++
          ThreadedReader.firstRound 0 ++ [ThreadedReader.Action.work 0 true] ++
          ThreadedReader.firstRound 0)).map
      (fun s => (s.size, s.activeBuffer, s.advanced)) = some (1, 0, [0, 0]) ∧
    ((ThreadedReader.new 2).run
        ([ThreadedReader.Action.enter, ThreadedReader.Action.spawn] ++
          ThreadedReader.firstRound 0)).map
      (fun s => (s.size, s.crashed)) = some (0, true) := by
  constructor <;> rfl

/-- C28: in every state the reader can reach, a read that fails in a worker takes
that worker out of its loop with the lock released: the step returns normally,
`running`, the other workers, the frames delivered and the calls of
`eofCallback` are as they were. And in every reachable state in which all of
the `bufferCount >= 1` workers have ended, `eofCallback` has been called. -/
theorem read_failure_ends_one_worker (bufferCount : Nat)
    (schedule : List ThreadedReader.Action) (s : ThreadedReader) (i : Nat)
    (hrun : (ThreadedReader.new bufferCount).run schedule = some s) :
    (i < s.spawned → s.pc i = .read → s.crashed = false →
      ∃ t, s.step (.work i false) = some t ∧ t.pc i = .leave ∧
        (∀ j, j ≠ i → t.pc j = s.pc j) ∧ t.running = s.running ∧ t.crashed = false ∧
        t.mtx = none ∧ t.delivered = s.delivered ∧ t.eofCalls = s.eofCalls) ∧
    (1 ≤ bufferCount → s.spawned = bufferCount →
      (∀ w, w < bufferCount → s.pc w = .done) → 1 ≤ s.eofCalls) := by
  constructor
  · intro hi hpc hcrash
    refine ⟨({ s with mtx := none } : ThreadedReader).moveTo i .leave, ?_, ?_⟩
    · simp [ThreadedReader.step, hcrash, hi, ThreadedReader.worker, hpc]
    · simp +contextual [ThreadedReader.moveTo, hcrash]
  · intro hn hspawned hall
    have hinv := ThreadedReader.run_count _ s schedule (ThreadedReader.new_count bufferCount) hrun
    exact hinv.2.2 (by omega) (by rw [hspawned]; exact hall)

/-- C28, on concrete schedules: of two workers about to read, the read of worker
0 fails and worker 1 is where it was; when both workers have ended on failing
reads, `eofCallback` has been called. -/
theorem read_failure_ends_one_worker_witness :
    (∃ s, (ThreadedReader.new 2).run (ThreadedReader.openSchedule 2 ++
          List.replicate 3 (ThreadedReader.Action.work 0 true) ++
          List.replicate 2 (ThreadedReader.Action.work 1 true)) = some s ∧
        s.pc 1 = .lock ∧
        ∃ t, s.step (.work 0 false) = some t ∧ t.pc 0 = .leave ∧
          (∀ j, j ≠ 0 → t.pc j = s.pc j) ∧ t.running = s.running ∧ t.crashed = false ∧
          t.mtx = none ∧ t.delivered = s.delivered ∧ t.eofCalls = s.eofCalls) ∧
    (∃ s, (ThreadedReader.new 2).run (ThreadedReader.openSchedule 2 ++
          ThreadedReader.failingRun 0 ++ ThreadedReader.failingRun 1) = some s ∧
        1 ≤ s.eofCalls) :=
  have h1 := (read_failure_ends_one_worker 2 (ThreadedReader.openSchedule 2 ++
      List.replicate 3 (ThreadedReader.Action.work 0 true) ++
      List.replicate 2 (ThreadedReader.Action.work 1 true)) _ 0 rfl).1
    (by decide) rfl rfl
  have h2 := (read_failure_ends_one_worker 2 (ThreadedReader.openSchedule 2 ++
      ThreadedReader.failingRun 0 ++ ThreadedReader.failingRun 1) _ 0 rfl).2
    (by decide) rfl (by intro w hw; interval_cases w <;> rfl)
  ⟨⟨_, rfl, rfl, h1⟩, ⟨_, rfl, h2⟩⟩

/-! Theorems about the byte-array conversions of `jni/utils.cpp`. -/

/-- C30, the code where the claim fails: for a non-null array `parseByteArray`
returns as many bytes as the array has, all of them zero, since it returns the
zero-filled `result` and drops the copy it made; so for the vector with the one
byte 1 the round trip through `parseJByteArray` gives the byte 0. For a null
array it returns the empty vector. `parseBinary` returns the bytes of the array,
and its round trip through `parseJBinary` gives the vector back. -/
theorem parseByteArray_zero_filled (byteBuffer : Bytes) :
    parseByteArray (some byteBuffer) = List.replicate byteBuffer.length 0 ∧
    (parseByteArray (some byteBuffer)).length = byteBuffer.length ∧
    parseByteArray none = [] ∧
    parseByteArray (parseJByteArray [1]) = [0] ∧
    parseBinary (some byteBuffer) = byteBuffer ∧
    parseBinary (parseJBinary [1]) = [1] := by
  refine ⟨rfl, by simp [parseByteArray], rfl, by decide, by simp [parseBinary], by decide⟩

end ntgcalls
